import Mathlib

/-!
# Shallow embedding of `ElementsGeometry` (HOMME, `share/cxx/ElementsGeometry.cpp`)

The C++ class owns ten Kokkos views holding per-element geometric data.  The
embedding keeps

* a view as its list of extents together with its contents, a function from
  multi-indices to values; every element access is bounds-checked and returns
  `none` on a null view or an out-of-range index (the aborting contract
  violations of the C++ code);
* `Real` (a C++ `double`) as the rational number it denotes; the loader only copies
  values, and every arithmetic operation of the generator delivers its exact result
  rounded to a `double` (`fl`: to nearest, ties to even, 53-bit significand);
* the random source as a stream of draws together with the number of draws
  already consumed;
* the unbounded `do ... while` loop of the generator with an explicit fuel.
-/

namespace Homme

/-- Values stored in the views (`Real` is `double` in the C++ code). -/
abbrev Real := ℚ

/-- Bounds test of a multi-index against a list of extents: same rank, and every
index below its extent. -/
def inBounds : List Nat → List Nat → Bool
  | [], [] => true
  | d :: ds, i :: is => decide (i < d) && inBounds ds is
  | _, _ => false

/-- Row-major (LayoutRight) offset of a multi-index in an array of the given extents. -/
def offset : List Nat → List Nat → Nat
  | _ :: ds, i :: is => i * ds.prod + offset ds is
  | _, _ => 0

/-- A Kokkos view: whether it refers to an allocation, its extents (the run-time
element count first, for the per-element views) and its contents. -/
structure View where
  allocated : Bool
  dims : List Nat
  data : List Nat → Real

/-- A default-constructed view: no allocation behind it. -/
def View.null (dims : List Nat) : View :=
  { allocated := false, dims := dims, data := fun _ => 0 }

/-- The allocating constructor `ExecViewManaged<Real * [..]..[..]>(label, n)`: a new
zero-initialised array with run-time extent `n` in front of the static extents. -/
def ExecViewManaged (staticDims : List Nat) (n : Nat) : View :=
  { allocated := true, dims := n :: staticDims, data := fun _ => 0 }

/-- The allocating constructor `HostViewManaged<Real[..]..[..]>(label)`. -/
def HostViewManaged (staticDims : List Nat) : View :=
  { allocated := true, dims := staticDims, data := fun _ => 0 }

/-- A pointer handed over by the Fortran side (`CF90Ptr`); `none` is the null pointer. -/
abbrev CF90Ptr := Option (List Nat → Real)

/-- The unmanaged host view `HostViewUnmanaged<const Real [..]..[..]>(ptr)` wrapped
around a raw pointer; no memory is touched by the construction. -/
def HostViewUnmanaged (staticDims : List Nat) (ptr : CF90Ptr) : View :=
  match ptr with
  | none => View.null staticDims
  | some f => { allocated := true, dims := staticDims, data := f }

/-- Read access `v(idx)`. -/
def View.get (v : View) (idx : List Nat) : Option Real :=
  if v.allocated && inBounds v.dims idx then some (v.data idx) else none

/-- Write access `v(idx) = x`. -/
def View.set (v : View) (idx : List Nat) (x : Real) : Option View :=
  if v.allocated && inBounds v.dims idx then
    some { v with data := Function.update v.data idx x }
  else none

/-- The assignment `dst(idx) = src(idx)`. -/
def assign (dst src : View) (idx : List Nat) : Option View := do
  let x ← src.get idx
  dst.set idx x

/-- The block of element `ie`, `Homme::subview(v, ie)`, read as a value: it
needs an allocated view and `ie` below the element count. -/
def subview (v : View) (ie : Nat) : Option View :=
  match v.dims with
  | [] => none
  | n :: rest =>
    if v.allocated && decide (ie < n) then
      some { allocated := true, dims := rest, data := fun idx => v.data (ie :: idx) }
    else none

/-- A host mirror `Kokkos::create_mirror_view(v)`: a host array of the same shape.
Its initial contents are never read by the code below (every entry is
overwritten before the copy back); they are taken to be zero. -/
def create_mirror_view (v : View) : View :=
  { allocated := v.allocated, dims := v.dims, data := fun _ => 0 }

/-- Whole-view copy `Kokkos::deep_copy(dst, src)`: both views have the same shape. -/
def deep_copy (dst src : View) : Option View :=
  if dst.allocated && src.allocated && decide (dst.dims = src.dims) then
    some { dst with data := fun idx => if inBounds dst.dims idx then src.data idx else dst.data idx }
  else none

/-- The copy `Kokkos::deep_copy(Homme::subview(m, ie), h)` of a host block into the
block of element `ie` of the view `m`. -/
def deep_copy_subview (m : View) (ie : Nat) (h : View) : Option View :=
  match m.dims with
  | [] => none
  | n :: rest =>
    if m.allocated && decide (ie < n) && h.allocated && decide (h.dims = rest) then
      some { m with data := fun idx =>
        match idx with
        | [] => m.data []
        | e :: is => if e = ie ∧ inBounds rest is = true then h.data is else m.data (e :: is) }
    else none

/-- A counted loop `for (int i = 0; i < n; ++i) body` threading a state that may abort. -/
def forRange {σ : Type} (n : Nat) (body : Nat → σ → Option σ) (s : σ) : Option σ :=
  (List.range n).foldlM (fun s i => body i s) s

/-- The data members of `ElementsGeometry`. -/
structure ElementsGeometry where
  m_num_elems : Nat
  m_consthv : Bool
  m_fcor : View
  m_spheremp : View
  m_rspheremp : View
  m_metinv : View
  m_metdet : View
  m_tensorvisc : View
  m_vec_sph2cart : View
  m_phis : View
  m_d : View
  m_dinv : View

/-- Modelled from the spec: the constructor is in the absent header; a store that was
never initialised holds no allocation (the two scalar members are unspecified and
taken as `0` and `false`). -/
def ElementsGeometry.fresh (NP : Nat) : ElementsGeometry :=
  { m_num_elems := 0, m_consthv := false,
    m_fcor := View.null [0, NP, NP],
    m_spheremp := View.null [0, NP, NP],
    m_rspheremp := View.null [0, NP, NP],
    m_metinv := View.null [0, 2, 2, NP, NP],
    m_metdet := View.null [0, NP, NP],
    m_tensorvisc := View.null [0, 2, 2, NP, NP],
    m_vec_sph2cart := View.null [0, 2, 3, NP, NP],
    m_phis := View.null [0, NP, NP],
    m_d := View.null [0, 2, 2, NP, NP],
    m_dinv := View.null [0, 2, 2, NP, NP] }

/-- `ElementsGeometry::init(const int num_elems, const bool consthv)`. -/
def ElementsGeometry.init (NP : Nat) (self : ElementsGeometry) (num_elems : Nat)
    (consthv : Bool) : ElementsGeometry :=
  let self := { self with m_num_elems := num_elems }
  let self := { self with m_consthv := consthv }
  let self := { self with m_fcor := ExecViewManaged [NP, NP] self.m_num_elems }
  let self := { self with m_spheremp := ExecViewManaged [NP, NP] self.m_num_elems }
  let self := { self with m_rspheremp := ExecViewManaged [NP, NP] self.m_num_elems }
  let self := { self with m_metinv := ExecViewManaged [2, 2, NP, NP] self.m_num_elems }
  let self := { self with m_metdet := ExecViewManaged [NP, NP] self.m_num_elems }
  let self :=
    if !consthv then
      let self := { self with m_tensorvisc := ExecViewManaged [2, 2, NP, NP] self.m_num_elems }
      { self with m_vec_sph2cart := ExecViewManaged [2, 3, NP, NP] self.m_num_elems }
    else self
  let self := { self with m_phis := ExecViewManaged [NP, NP] self.m_num_elems }
  let self := { self with m_d := ExecViewManaged [2, 2, NP, NP] self.m_num_elems }
  { self with m_dinv := ExecViewManaged [2, 2, NP, NP] self.m_num_elems }

/-- The host mirrors local to the loader. -/
structure HostMirrors where
  h_fcor : View
  h_metdet : View
  h_spheremp : View
  h_rspheremp : View
  h_phis : View
  h_metinv : View
  h_d : View
  h_dinv : View
  h_tensorvisc : View
  h_vec_sph2cart : View

/-- The unmanaged views wrapped around the Fortran pointers by the loader. -/
structure F90Views where
  h_fcor_f90 : View
  h_metdet_f90 : View
  h_spheremp_f90 : View
  h_rspheremp_f90 : View
  h_phis_f90 : View
  h_metinv_f90 : View
  h_d_f90 : View
  h_dinv_f90 : View
  h_tensorvisc_f90 : View
  h_vec_sph2cart_f90 : View

/-- Body of the loop nest `// 2d scalars` of the loader, at the grid point `idx = [igp, jgp]`. -/
def scalars_body (f : F90Views) (idx : List Nat) (h : HostMirrors) : Option HostMirrors := do
  let h_fcor ← assign h.h_fcor f.h_fcor_f90 idx
  let h_spheremp ← assign h.h_spheremp f.h_spheremp_f90 idx
  let h_rspheremp ← assign h.h_rspheremp f.h_rspheremp_f90 idx
  let h_metdet ← assign h.h_metdet f.h_metdet_f90 idx
  let h_phis ← assign h.h_phis f.h_phis_f90 idx
  pure { h with h_fcor := h_fcor, h_spheremp := h_spheremp, h_rspheremp := h_rspheremp,
                h_metdet := h_metdet, h_phis := h_phis }

/-- Body of the loop nest `// 2d tensors` of the loader, at `idx = [idim, jdim, igp, jgp]`. -/
def tensors_body (f : F90Views) (idx : List Nat) (h : HostMirrors) :
    Option HostMirrors := do
  let h_d ← assign h.h_d f.h_d_f90 idx
  let h_dinv ← assign h.h_dinv f.h_dinv_f90 idx
  let h_metinv ← assign h.h_metinv f.h_metinv_f90 idx
  pure { h with h_d := h_d, h_dinv := h_dinv, h_metinv := h_metinv }

/-- Body of the first loop nest under `if(!consthv)` of the loader. -/
def tensorvisc_body (f : F90Views) (idx : List Nat) (h : HostMirrors) :
    Option HostMirrors := do
  let h_tensorvisc ← assign h.h_tensorvisc f.h_tensorvisc_f90 idx
  pure { h with h_tensorvisc := h_tensorvisc }

/-- Body of the second loop nest under `if(!consthv)` of the loader. -/
def vec_sph2cart_body (f : F90Views) (idx : List Nat) (h : HostMirrors) :
    Option HostMirrors := do
  let h_vec_sph2cart ← assign h.h_vec_sph2cart f.h_vec_sph2cart_f90 idx
  pure { h with h_vec_sph2cart := h_vec_sph2cart }

/-- The four loop nests of the loader, lines 84 to 127 of the source. -/
def load_loops (NP : Nat) (f : F90Views) (consthv : Bool) (h : HostMirrors) :
    Option HostMirrors := do
  let h ← forRange NP (fun igp h => forRange NP (fun jgp h => scalars_body f [igp, jgp] h) h) h
  let h ← forRange 2 (fun idim h => forRange 2 (fun jdim h =>
            forRange NP (fun igp h => forRange NP (fun jgp h =>
              tensors_body f [idim, jdim, igp, jgp] h) h) h) h) h
  if !consthv then
    let h ← forRange 2 (fun idim h => forRange 2 (fun jdim h =>
              forRange NP (fun igp h => forRange NP (fun jgp h =>
                tensorvisc_body f [idim, jdim, igp, jgp] h) h) h) h) h
    forRange 2 (fun idim h => forRange 3 (fun jdim h =>
      forRange NP (fun igp h => forRange NP (fun jgp h =>
        vec_sph2cart_body f [idim, jdim, igp, jgp] h) h) h) h) h
  else pure h

/-- The host mirrors created at the top of the loader, lines 57 to 71 of the source. -/
def make_mirrors (NP : Nat) (self : ElementsGeometry) (ie : Nat) (consthv : Bool) :
    Option HostMirrors := do
  let h_fcor ← (subview self.m_fcor ie).map create_mirror_view
  let h_metdet ← (subview self.m_metdet ie).map create_mirror_view
  let h_spheremp ← (subview self.m_spheremp ie).map create_mirror_view
  let h_rspheremp ← (subview self.m_rspheremp ie).map create_mirror_view
  let h_phis ← (subview self.m_phis ie).map create_mirror_view
  let h_metinv ← (subview self.m_metinv ie).map create_mirror_view
  let h_d ← (subview self.m_d ie).map create_mirror_view
  let h_dinv ← (subview self.m_dinv ie).map create_mirror_view
  let h_tensorvisc ←
    if !consthv then (subview self.m_tensorvisc ie).map create_mirror_view
    else pure (View.null [2, 2, NP, NP])
  let h_vec_sph2cart ←
    if !consthv then (subview self.m_vec_sph2cart ie).map create_mirror_view
    else pure (View.null [2, 3, NP, NP])
  pure { h_fcor := h_fcor, h_metdet := h_metdet, h_spheremp := h_spheremp,
         h_rspheremp := h_rspheremp, h_phis := h_phis, h_metinv := h_metinv, h_d := h_d,
         h_dinv := h_dinv, h_tensorvisc := h_tensorvisc, h_vec_sph2cart := h_vec_sph2cart }
/-- The copies back into the store at the end of the loader, lines 129 to 140. -/
def copy_back (self : ElementsGeometry) (ie : Nat) (consthv : Bool) (h : HostMirrors) :
    Option ElementsGeometry := do
  let m_fcor ← deep_copy_subview self.m_fcor ie h.h_fcor
  let m_metinv ← deep_copy_subview self.m_metinv ie h.h_metinv
  let m_metdet ← deep_copy_subview self.m_metdet ie h.h_metdet
  let m_spheremp ← deep_copy_subview self.m_spheremp ie h.h_spheremp
  let m_rspheremp ← deep_copy_subview self.m_rspheremp ie h.h_rspheremp
  let m_phis ← deep_copy_subview self.m_phis ie h.h_phis
  let m_d ← deep_copy_subview self.m_d ie h.h_d
  let m_dinv ← deep_copy_subview self.m_dinv ie h.h_dinv
  let m_tensorvisc ←
    if !consthv then deep_copy_subview self.m_tensorvisc ie h.h_tensorvisc
    else pure self.m_tensorvisc
  let m_vec_sph2cart ←
    if !consthv then deep_copy_subview self.m_vec_sph2cart ie h.h_vec_sph2cart
    else pure self.m_vec_sph2cart
  pure { self with m_fcor := m_fcor, m_metinv := m_metinv, m_metdet := m_metdet,
                   m_spheremp := m_spheremp, m_rspheremp := m_rspheremp,
                   m_phis := m_phis, m_d := m_d, m_dinv := m_dinv,
                   m_tensorvisc := m_tensorvisc, m_vec_sph2cart := m_vec_sph2cart }

/-- The unmanaged views of the loader, lines 73 to 82 of the source. -/
def wrap_f90 (NP : Nat)
    (D Dinv fcor spheremp rspheremp metdet metinv phis tensorvisc vec_sph2cart : CF90Ptr) :
    F90Views :=
  { h_fcor_f90 := HostViewUnmanaged [NP, NP] fcor,
    h_metdet_f90 := HostViewUnmanaged [NP, NP] metdet,
    h_spheremp_f90 := HostViewUnmanaged [NP, NP] spheremp,
    h_rspheremp_f90 := HostViewUnmanaged [NP, NP] rspheremp,
    h_phis_f90 := HostViewUnmanaged [NP, NP] phis,
    h_metinv_f90 := HostViewUnmanaged [2, 2, NP, NP] metinv,
    h_d_f90 := HostViewUnmanaged [2, 2, NP, NP] D,
    h_dinv_f90 := HostViewUnmanaged [2, 2, NP, NP] Dinv,
    h_tensorvisc_f90 := HostViewUnmanaged [2, 2, NP, NP] tensorvisc,
    h_vec_sph2cart_f90 := HostViewUnmanaged [2, 3, NP, NP] vec_sph2cart }

/-- The loader `ElementsGeometry::init(const int ie, CF90Ptr& D, ..., const bool consthv)`. -/
def ElementsGeometry.init_ie (NP : Nat) (self : ElementsGeometry) (ie : Nat)
    (D Dinv fcor spheremp rspheremp metdet metinv phis tensorvisc vec_sph2cart : CF90Ptr)
    (consthv : Bool) : Option ElementsGeometry := do
  let h ← make_mirrors NP self ie consthv
  let f := wrap_f90 NP D Dinv fcor spheremp rspheremp metdet metinv phis tensorvisc vec_sph2cart
  let h ← load_loops NP f consthv h
  copy_back self ie consthv h

/-- Two to the power `k`, for any integer `k`. -/
def pow2 (k : Int) : Real :=
  if 0 ≤ k then ((2 ^ k.toNat : Nat) : Real) else 1 / ((2 ^ (-k).toNat : Nat) : Real)

/-- Rounding to the nearest integer, ties to the even one. -/
def roundEven (x : Real) : Int :=
  if x - ⌊x⌋ < 1 / 2 then ⌊x⌋
  else if 1 / 2 < x - ⌊x⌋ then ⌊x⌋ + 1
  else if ⌊x⌋ % 2 = 0 then ⌊x⌋ else ⌊x⌋ + 1

/-- Position of the leading binary digit of `n`, found in at most `fuel` halvings. -/
def log2Fuel : Nat → Nat → Nat
  | 0, _ => 0
  | fuel + 1, n => if n < 2 then 0 else log2Fuel fuel (n / 2) + 1

/-- Binary exponent of a positive rational `x`: the `e` with `2^e ≤ x < 2^(e+1)`. -/
def exponent (x : Real) : Int :=
  if pow2 ((log2Fuel x.num.natAbs x.num.natAbs : Int) - (log2Fuel x.den x.den : Int)) ≤ x then
    (log2Fuel x.num.natAbs x.num.natAbs : Int) - (log2Fuel x.den x.den : Int)
  else (log2Fuel x.num.natAbs x.num.natAbs : Int) - (log2Fuel x.den x.den : Int) - 1

/-- Rounding of a positive rational to a significand of 53 bits, to nearest, ties to
even. -/
def flPos (x : Real) : Real :=
  (roundEven (x / pow2 (exponent x - 52)) : Real) * pow2 (exponent x - 52)

/-- The value a `double` operation delivers for the exact result `x`: IEEE-754 binary64
rounding to nearest, ties to even.  The exponent range is not bounded: with the draws
of the generator in `[1/64, 64]` no operation of the code overflows or underflows. -/
def fl (x : Real) : Real :=
  if 0 < x then flPos x else if x < 0 then -flPos (-x) else 0

/-- The `double` product `a * b`. -/
def fmul (a b : Real) : Real := fl (a * b)

/-- The `double` difference `a - b`. -/
def fsub (a b : Real) : Real := fl (a - b)

/-- The `double` quotient `a / b`. -/
def fdiv (a b : Real) : Real := fl (a / b)

/-- Modelled from the spec: `genRandArray` (declared in `utilities/TestUtils.hpp`, which
is not among the sources at hand) fills every entry of a view, in storage order, with
a value drawn from the random source.  `random_dist k` is the `k`-th value the source
delivers and `engine` counts the values consumed so far.  A null view has no entry
and consumes nothing. -/
def genRandArray (v : View) (random_dist : Nat → Real) (engine : Nat) : View × Nat :=
  if v.allocated then
    ({ v with data := fun idx =>
        if inBounds v.dims idx then random_dist (engine + offset v.dims idx) else v.data idx },
     engine + v.dims.prod)
  else (v, engine)

/-- The lambda `compute_det` of the generator,
`mtx(0, 0) * mtx(1, 1) - mtx(0, 1) * mtx(1, 0)`: two `double` products and their
`double` difference, each operation rounded on its own. -/
def compute_det (mtx : View) : Option Real := do
  let m00 ← mtx.get [0, 0]
  let m11 ← mtx.get [1, 1]
  let m01 ← mtx.get [0, 1]
  let m10 ← mtx.get [1, 0]
  pure (fsub (fmul m00 m11) (fmul m01 m10))

/-- The loop `do { genRandArray(h_matrix, ...); } while (compute_det(h_matrix) <= 0.0);`
run for at most `fuel` draws of a candidate matrix; `none` when the fuel is used up
(the C++ loop has no cap) or an access aborts. -/
def do_while (random_dist : Nat → Real) : Nat → View → Nat → Option (View × Nat)
  | 0, _, _ => none
  | fuel + 1, h_matrix, engine =>
    match compute_det (genRandArray h_matrix random_dist engine).1 with
    | none => none
    | some det =>
      if det ≤ 0 then
        do_while random_dist fuel (genRandArray h_matrix random_dist engine).1
          (genRandArray h_matrix random_dist engine).2
      else some (genRandArray h_matrix random_dist engine)

/-- The local state of the generator loops: the scratch matrix, the host mirrors of
`m_d` and `m_dinv`, and the random engine. -/
structure GenState where
  h_matrix : View
  h_d : View
  h_dinv : View
  engine : Nat

/-- Body of the loop nest of the generator at element `ie` and grid point `(igp, jgp)`,
lines 184 to 197 of the source. -/
def random_init_body (random_dist : Nat → Real) (fuel : Nat) (ie igp jgp : Nat)
    (st : GenState) : Option GenState := do
  let r ← do_while random_dist fuel st.h_matrix st.engine
  let h_d ← forRange 2 (fun i h_d => forRange 2 (fun j h_d => do
      let x ← r.1.get [i, j]
      h_d.set [ie, i, j, igp, jgp] x) h_d) st.h_d
  let determinant ← compute_det r.1
  let m11 ← r.1.get [1, 1]
  let h_dinv ← st.h_dinv.set [ie, 0, 0, igp, jgp] (fdiv m11 determinant)
  let m10 ← r.1.get [1, 0]
  let h_dinv ← h_dinv.set [ie, 1, 0, igp, jgp] (fdiv (-m10) determinant)
  let m01 ← r.1.get [0, 1]
  let h_dinv ← h_dinv.set [ie, 0, 1, igp, jgp] (fdiv (-m01) determinant)
  let m00 ← r.1.get [0, 0]
  let h_dinv ← h_dinv.set [ie, 1, 1, igp, jgp] (fdiv m00 determinant)
  pure { h_matrix := r.1, h_d := h_d, h_dinv := h_dinv, engine := r.2 }

/-- The eight calls of `genRandArray` on the members of the store, lines 154 to 163. -/
def random_fields (random_dist : Nat → Real) (self : ElementsGeometry) (engine : Nat) :
    ElementsGeometry × Nat :=
  let r1 := genRandArray self.m_fcor random_dist engine
  let r2 := genRandArray self.m_spheremp random_dist r1.2
  let r3 := genRandArray self.m_rspheremp random_dist r2.2
  let r4 := genRandArray self.m_metdet random_dist r3.2
  let r5 := genRandArray self.m_metinv random_dist r4.2
  let r6 := genRandArray self.m_tensorvisc random_dist r5.2
  let r7 := genRandArray self.m_vec_sph2cart random_dist r6.2
  let r8 := genRandArray self.m_phis random_dist r7.2
  ({ self with m_fcor := r1.1, m_spheremp := r2.1, m_rspheremp := r3.1, m_metdet := r4.1,
               m_metinv := r5.1, m_tensorvisc := r6.1, m_vec_sph2cart := r7.1,
               m_phis := r8.1 }, r8.2)

/-- The loop nest over elements and grid points of the generator, lines 179 to 200. -/
def random_loops (NP : Nat) (random_dist : Nat → Real) (fuel : Nat) (num_elems : Nat)
    (st : GenState) : Option GenState :=
  forRange num_elems (fun ie st => forRange NP (fun igp st => forRange NP (fun jgp st =>
    random_init_body random_dist fuel ie igp jgp st) st) st) st

/-- `ElementsGeometry::random_init(int num_elems)`.  The random device, engine and
distribution are the stream `random_dist`; `fuel` caps every `do ... while` loop. -/
def ElementsGeometry.random_init (NP : Nat) (random_dist : Nat → Real) (fuel : Nat)
    (self : ElementsGeometry) (num_elems : Nat) : Option ElementsGeometry := do
  let r := random_fields random_dist (self.init NP num_elems true) 0
  let st ← random_loops NP random_dist fuel r.1.m_num_elems
    { h_matrix := HostViewManaged [2, 2], h_d := create_mirror_view r.1.m_d,
      h_dinv := create_mirror_view r.1.m_dinv, engine := r.2 }
  let m_d ← deep_copy r.1.m_d st.h_d
  let m_dinv ← deep_copy r.1.m_dinv st.h_dinv
  pure { r.1 with m_d := m_d, m_dinv := m_dinv }

/-- All multi-indices within the given extents, in the order a nest of counted loops
visits them. -/
def idxList : List Nat → List (List Nat)
  | [] => [[]]
  | d :: ds => (List.range d).flatMap (fun i => (idxList ds).map (fun is => i :: is))

/-- The host array `v` after the entries at the indices of `L` were overwritten, in
turn, with the values of `src` at the same indices. -/
def copyAll (L : List (List Nat)) (src : List Nat → Real) (v : View) : View :=
  L.foldl (fun v idx => { v with data := Function.update v.data idx (src idx) }) v

/-- The view `m` with the block of element `ie` replaced by the values of `src`. -/
def loadBlock (m : View) (ie : Nat) (src : List Nat → Real) : View :=
  { m with data := fun idx =>
      match idx with
      | [] => m.data []
      | e :: is => if e = ie ∧ inBounds m.dims.tail is = true then src is else m.data (e :: is) }

/-- An allocated view of the given extents. -/
def Ready (dims : List Nat) (v : View) : Prop := v.allocated = true ∧ v.dims = dims

/-- The view `v` with the entry at `idx` overwritten. -/
def put (v : View) (idx : List Nat) (x : Real) : View :=
  { v with data := Function.update v.data idx x }

/-- The eight mandatory views of the store are allocated for `n` elements. -/
def Mandatory (NP n : Nat) (s : ElementsGeometry) : Prop :=
  Ready [n, NP, NP] s.m_fcor ∧ Ready [n, NP, NP] s.m_spheremp ∧
  Ready [n, NP, NP] s.m_rspheremp ∧ Ready [n, NP, NP] s.m_metdet ∧
  Ready [n, NP, NP] s.m_phis ∧ Ready [n, 2, 2, NP, NP] s.m_metinv ∧
  Ready [n, 2, 2, NP, NP] s.m_d ∧ Ready [n, 2, 2, NP, NP] s.m_dinv

/-- The two optional views of the store are allocated for `n` elements. -/
def Optional (NP n : Nat) (s : ElementsGeometry) : Prop :=
  Ready [n, 2, 2, NP, NP] s.m_tensorvisc ∧ Ready [n, 2, 3, NP, NP] s.m_vec_sph2cart

/-- The store with the blocks of element `ie` of the eight mandatory views replaced by
the external values. -/
def loadMandatory (s : ElementsGeometry) (ie : Nat)
    (D Dinv fcor spheremp rspheremp metdet metinv phis : List Nat → Real) :
    ElementsGeometry :=
  { s with m_fcor := loadBlock s.m_fcor ie fcor,
           m_metinv := loadBlock s.m_metinv ie metinv,
           m_metdet := loadBlock s.m_metdet ie metdet,
           m_spheremp := loadBlock s.m_spheremp ie spheremp,
           m_rspheremp := loadBlock s.m_rspheremp ie rspheremp,
           m_phis := loadBlock s.m_phis ie phis,
           m_d := loadBlock s.m_d ie D,
           m_dinv := loadBlock s.m_dinv ie Dinv }

/-- The store with the blocks of element `ie` of the two optional views replaced by the
external values. -/
def loadOptional (s : ElementsGeometry) (ie : Nat) (tensorvisc vec_sph2cart : List Nat → Real) :
    ElementsGeometry :=
  { s with m_tensorvisc := loadBlock s.m_tensorvisc ie tensorvisc,
           m_vec_sph2cart := loadBlock s.m_vec_sph2cart ie vec_sph2cart }

/-- The determinant `compute_det` returns, in `double` arithmetic, for the candidate
matrix made of the four draws starting at position `p`. -/
def candDet (random_dist : Nat → Real) (p : Nat) : Real :=
  fsub (fmul (random_dist p) (random_dist (p + 3)))
    (fmul (random_dist (p + 1)) (random_dist (p + 2)))

/-- What the generator leaves at element `ie` and grid point `(igp, jgp)` of the arrays
`d` and `dinv`: `d` holds four consecutive draws of the stream, a candidate matrix whose
computed determinant is positive, and `dinv` the `double` quotients of the entries of
its adjugate by that computed determinant. -/
def GenAt (rd : Nat → Real) (d dinv : List Nat → Real) (ie igp jgp : Nat) : Prop :=
  ∃ p, 0 < candDet rd p ∧
    d [ie, 0, 0, igp, jgp] = rd p ∧ d [ie, 0, 1, igp, jgp] = rd (p + 1) ∧
    d [ie, 1, 0, igp, jgp] = rd (p + 2) ∧ d [ie, 1, 1, igp, jgp] = rd (p + 3) ∧
    dinv [ie, 0, 0, igp, jgp] = fdiv (rd (p + 3)) (candDet rd p) ∧
    dinv [ie, 1, 0, igp, jgp] = fdiv (-rd (p + 2)) (candDet rd p) ∧
    dinv [ie, 0, 1, igp, jgp] = fdiv (-rd (p + 1)) (candDet rd p) ∧
    dinv [ie, 1, 1, igp, jgp] = fdiv (rd p) (candDet rd p)

/-- An external 2x2 tensor array holding the identity matrix at every grid point. -/
def exIdentity : List Nat → Real := fun idx =>
  match idx with
  | [a, b, _, _] => if a = b then 1 else 0
  | _ => 0

/-- An external 2x2 tensor array holding twice the identity matrix at every grid point. -/
def exDouble : List Nat → Real := fun idx =>
  match idx with
  | [a, b, _, _] => if a = b then 2 else 0
  | _ => 0

/-- An external array whose value at a multi-index spells the index in decimal digits
after the tag `k`. -/
def exField (k : Nat) : List Nat → Real := fun idx =>
  ((idx.foldl (fun acc i => 10 * acc + i) k : Nat) : Real)

/-- The store left by `init(5, false)` followed by `init(3, true)`, with `NP = 4`. -/
def reinitExample : ElementsGeometry :=
  ((ElementsGeometry.fresh 4).init 4 5 false).init 4 3 true

/-- A 2x2 matrix, by entries `m(0,0)`, `m(0,1)`, `m(1,0)`, `m(1,1)`. -/
structure Mat2 where
  m00 : Real
  m01 : Real
  m10 : Real
  m11 : Real
deriving DecidableEq

/-- The 2x2 matrix a tensor view holds at element `ie` and grid point `(igp, jgp)`. -/
def entries (v : View) (ie igp jgp : Nat) : Option Mat2 := do
  let m00 ← v.get [ie, 0, 0, igp, jgp]
  let m01 ← v.get [ie, 0, 1, igp, jgp]
  let m10 ← v.get [ie, 1, 0, igp, jgp]
  let m11 ← v.get [ie, 1, 1, igp, jgp]
  pure { m00 := m00, m01 := m01, m10 := m10, m11 := m11 }

/-- Determinant of a 2x2 matrix, as the spec writes it: `m00*m11 - m01*m10`. -/
def det2 (m : Mat2) : Real := m.m00 * m.m11 - m.m01 * m.m10

/-- The determinant of a 2x2 matrix as the code computes it: two `double` products and
their `double` difference. -/
def fdet2 (m : Mat2) : Real := fsub (fmul m.m00 m.m11) (fmul m.m01 m.m10)

/-- The spec's `adj(D) / det(D)`: `Dinv00 = m11/det`, `Dinv01 = -m01/det`,
`Dinv10 = -m10/det`, `Dinv11 = m00/det`. -/
def adjOverDet (m : Mat2) : Mat2 :=
  { m00 := m.m11 / det2 m, m01 := -m.m01 / det2 m, m10 := -m.m10 / det2 m,
    m11 := m.m00 / det2 m }

/-- The inverse of a 2x2 matrix as the code computes it: the `double` quotients of the
entries of the adjugate by the computed determinant. -/
def flInverse (m : Mat2) : Mat2 :=
  { m00 := fdiv m.m11 (fdet2 m), m01 := fdiv (-m.m01) (fdet2 m),
    m10 := fdiv (-m.m10) (fdet2 m), m11 := fdiv m.m00 (fdet2 m) }

/-- Product of two 2x2 matrices. -/
def mul2 (a b : Mat2) : Mat2 :=
  { m00 := a.m00 * b.m00 + a.m01 * b.m10, m01 := a.m00 * b.m01 + a.m01 * b.m11,
    m10 := a.m10 * b.m00 + a.m11 * b.m10, m11 := a.m10 * b.m01 + a.m11 * b.m11 }

/-- The 2x2 identity matrix. -/
def one2 : Mat2 := { m00 := 1, m01 := 0, m10 := 0, m11 := 1 }

/-- The candidate matrix made of the four draws starting at position `p`, in storage
order. -/
def candidate (random_dist : Nat → Real) (p : Nat) : Mat2 :=
  { m00 := random_dist p, m01 := random_dist (p + 1), m10 := random_dist (p + 2),
    m11 := random_dist (p + 3) }

/-- A stream of draws of period twelve: the candidates `(1,1,1,1)` and `(1,2,3,1)`, of
determinants `0` and `-5`, then `(2,1,1,2)` of determinant `3`. -/
def exDraws : Nat → Real := fun k =>
  (([1, 1, 1, 1, 1, 2, 3, 1, 2, 1, 1, 2] : List Nat).getD (k % 12) 1 : Nat)

/-- The generator state at the start of a grid point: a fresh scratch matrix, one-element
mirrors with `NP = 1`, and the engine at position 0. -/
def exGenState : GenState :=
  { h_matrix := HostViewManaged [2, 2],
    h_d := create_mirror_view (ExecViewManaged [2, 2, 1, 1] 1),
    h_dinv := create_mirror_view (ExecViewManaged [2, 2, 1, 1] 1),
    engine := 0 }

/-- The 2x2 matrix an external tensor array holds at grid point `(igp, jgp)`. -/
def extMat (f : List Nat → Real) (igp jgp : Nat) : Mat2 :=
  { m00 := f [0, 0, igp, jgp], m01 := f [0, 1, igp, jgp], m10 := f [1, 0, igp, jgp],
    m11 := f [1, 1, igp, jgp] }

/-- The external arrays `D` and `Dinv` are consistent: at every grid point `D` is
invertible and `Dinv` is `adj(D) / det(D)`. -/
def ExtInverse (NP : Nat) (D Dinv : List Nat → Real) : Prop :=
  ∀ igp jgp, igp < NP → jgp < NP →
    det2 (extMat D igp jgp) ≠ 0 ∧ extMat Dinv igp jgp = adjOverDet (extMat D igp jgp)

/-- The store invariant on `D` and `Dinv` at one element and grid point: `D` is
invertible and `Dinv` is `adj(D) / det(D)`. -/
def InverseAt (s : ElementsGeometry) (ie igp jgp : Nat) : Prop :=
  ∃ d i, entries s.m_d ie igp jgp = some d ∧ entries s.m_dinv ie igp jgp = some i ∧
    det2 d ≠ 0 ∧ i = adjOverDet d

/-- What the generator leaves in `D` and `Dinv` at one element and grid point: the
determinant the code computes for `D` is positive and `Dinv` is the inverse the code
computes for `D` in `double` arithmetic. -/
def RoundedInverseAt (s : ElementsGeometry) (ie igp jgp : Nat) : Prop :=
  ∃ d i, entries s.m_d ie igp jgp = some d ∧ entries s.m_dinv ie igp jgp = some i ∧
    0 < fdet2 d ∧ i = flInverse d

/-- Two sets of host mirrors with the same eight mandatory members. -/
def SameMandatory (a b : HostMirrors) : Prop :=
  a.h_fcor = b.h_fcor ∧ a.h_metdet = b.h_metdet ∧ a.h_spheremp = b.h_spheremp ∧
  a.h_rspheremp = b.h_rspheremp ∧ a.h_phis = b.h_phis ∧ a.h_metinv = b.h_metinv ∧
  a.h_d = b.h_d ∧ a.h_dinv = b.h_dinv

/-- States of the store reachable through its operations: an allocation from any prior
state, `random_init` from any prior state, and every call of the loader that returns,
whatever its flag and its optional pointers are, given non-null mandatory arrays with
consistent `D` and `Dinv`.  `Reach NP s n gen ld` says that `s` is such a state, with
the mandatory views allocated for `n` elements, `gen` the elements written by the
generator and not loaded since, and `ld` the elements loaded since the allocation. -/
inductive Reach (NP : Nat) : ElementsGeometry → Nat → (Nat → Prop) → (Nat → Prop) → Prop
  | alloc (s0 : ElementsGeometry) (n : Nat) (c : Bool) :
      Reach NP (s0.init NP n c) n (fun _ => False) (fun _ => False)
  | generate (s0 s : ElementsGeometry) (rd : Nat → Real) (fuel n : Nat)
      (h : s0.random_init NP rd fuel n = some s) :
      Reach NP s n (fun ie => ie < n) (fun _ => False)
  | load (s s1 : ElementsGeometry) (n : Nat) (gen ld : Nat → Prop) (ie : Nat)
      (D Dinv fcor spheremp rspheremp metdet metinv phis : List Nat → Real)
      (tensorvisc vec_sph2cart : CF90Ptr) (consthv : Bool)
      (hr : Reach NP s n gen ld) (hinv : ExtInverse NP D Dinv)
      (h : s.init_ie NP ie (some D) (some Dinv) (some fcor) (some spheremp) (some rspheremp)
        (some metdet) (some metinv) (some phis) tensorvisc vec_sph2cart consthv = some s1) :
      Reach NP s1 n (fun e => gen e ∧ e ≠ ie) (fun e => e = ie ∨ ld e)

/-- One element's worth of external arrays, all ten non-null. -/
structure ExtArrays where
  D : List Nat → Real
  Dinv : List Nat → Real
  fcor : List Nat → Real
  spheremp : List Nat → Real
  rspheremp : List Nat → Real
  metdet : List Nat → Real
  metinv : List Nat → Real
  phis : List Nat → Real
  tensorvisc : List Nat → Real
  vec_sph2cart : List Nat → Real

/-- The loader called on ten non-null external arrays. -/
def ElementsGeometry.load (NP : Nat) (self : ElementsGeometry) (ie : Nat) (A : ExtArrays)
    (consthv : Bool) : Option ElementsGeometry :=
  self.init_ie NP ie (some A.D) (some A.Dinv) (some A.fcor) (some A.spheremp)
    (some A.rspheremp) (some A.metdet) (some A.metinv) (some A.phis) (some A.tensorvisc)
    (some A.vec_sph2cart) consthv

/-- The store after element `ie` was loaded from `A` with flag `consthv`, in closed form. -/
def loaded (s : ElementsGeometry) (ie : Nat) (A : ExtArrays) (consthv : Bool) :
    ElementsGeometry :=
  if consthv then
    loadMandatory s ie A.D A.Dinv A.fcor A.spheremp A.rspheremp A.metdet A.metinv A.phis
  else
    loadOptional
      (loadMandatory s ie A.D A.Dinv A.fcor A.spheremp A.rspheremp A.metdet A.metinv A.phis)
      ie A.tensorvisc A.vec_sph2cart

/-- The views of the store are allocated for `n` elements in mode `c`. -/
def AllocatedFor (NP n : Nat) (c : Bool) (s : ElementsGeometry) : Prop :=
  Mandatory NP n s ∧ (c = false → Optional NP n s)

/-- A view is the same as another one in shape and at every index outside element `ie`. -/
def SameOutside (ie : Nat) (v w : View) : Prop :=
  w.allocated = v.allocated ∧ w.dims = v.dims ∧
  (∀ idx, idx.head? ≠ some ie → w.data idx = v.data idx) ∧
  (∀ e is, e ≠ ie → w.get (e :: is) = v.get (e :: is))

/-- Ten external arrays with distinct values at distinct indices. -/
def exArraysA : ExtArrays :=
  { D := exIdentity, Dinv := exDouble, fcor := exField 1, spheremp := exField 2,
    rspheremp := exField 3, metdet := exField 4, metinv := exField 5, phis := exField 6,
    tensorvisc := exField 7, vec_sph2cart := exField 8 }

/-- A second set of ten external arrays, different from `exArraysA` everywhere. -/
def exArraysB : ExtArrays :=
  { D := exDouble, Dinv := exIdentity, fcor := exField 11, spheremp := exField 12,
    rspheremp := exField 13, metdet := exField 14, metinv := exField 15, phis := exField 16,
    tensorvisc := exField 17, vec_sph2cart := exField 18 }

/-- A stream of draws of period four, the candidate `(1 + 2^-27, 1, 1 + 2^-26, 1 + 2^-27)`
over and over: its exact determinant is `2^-54`, its determinant in `double` arithmetic
is `0`. -/
def exTiny : Nat → Real := fun k =>
  if k % 4 = 1 then 1 else if k % 4 = 2 then 1 + 1 / 2 ^ 26 else 1 + 1 / 2 ^ 27

/-- A three-element store with `NP = 4` and the flag false whose elements 0 and 2 hold
the arrays `exArraysB`. -/
def exLoadedStore : ElementsGeometry :=
  loaded (loaded ((ElementsGeometry.fresh 4).init 4 3 false) 0 exArraysB false) 2 exArraysB
    false

/-! ## Lemmas and theorems -/

theorem pow2_eq (k : Int) : pow2 k = (2 : Real) ^ k := by
  unfold pow2
  split
  · rename_i hk
    obtain ⟨n, rfl⟩ := Int.eq_ofNat_of_zero_le hk
    simp
  · rename_i hk
    have hk2 : 0 ≤ -k := by omega
    obtain ⟨n, hn⟩ := Int.eq_ofNat_of_zero_le hk2
    have hk3 : k = -(n : Int) := by omega
    subst hk3
    simp

theorem pow2_pos (k : Int) : 0 < pow2 k := by
  rw [pow2_eq]
  exact zpow_pos (by norm_num) k

theorem log2Fuel_spec (fuel n : Nat) (hn : 0 < n) (hf : n ≤ fuel) :
    2 ^ log2Fuel fuel n ≤ n ∧ n < 2 ^ (log2Fuel fuel n + 1) := by
  induction fuel generalizing n with
  | zero => omega
  | succ fuel ih =>
    unfold log2Fuel
    by_cases h2 : n < 2
    · simp only [h2, if_true]
      constructor <;> simp <;> omega
    · simp only [h2, if_false]
      have h3 : 0 < n / 2 := Nat.div_pos (by omega) (by decide)
      have h4 : n / 2 ≤ fuel := by omega
      obtain ⟨i1, i2⟩ := ih (n / 2) h3 h4
      constructor
      · rw [pow_succ]; omega
      · rw [pow_succ]; omega

theorem exponent_spec (x : Real) (hx : 0 < x) :
    (2 : Real) ^ exponent x ≤ x ∧ x < (2 : Real) ^ (exponent x + 1) := by
  unfold exponent
  rw [pow2_eq]
  have hnum : 0 < x.num := Rat.num_pos.mpr hx
  have ha : 0 < x.num.natAbs := Int.natAbs_pos.mpr (ne_of_gt hnum)
  have hb : 0 < x.den := x.den_pos
  obtain ⟨a1, a2⟩ := log2Fuel_spec x.num.natAbs x.num.natAbs ha (le_refl _)
  obtain ⟨b1, b2⟩ := log2Fuel_spec x.den x.den hb (le_refl _)
  have hxe : x = (x.num.natAbs : Real) / (x.den : Real) := by
    have h2 : (x.num.natAbs : Real) = (x.num : Real) := by
      rw [Nat.cast_natAbs, abs_of_pos hnum]
    rw [h2]
    exact (Rat.num_div_den x).symm
  have hbq : (0 : Real) < (x.den : Real) := by exact_mod_cast hb
  have a1q : (2 : Real) ^ (log2Fuel x.num.natAbs x.num.natAbs : Int) ≤ (x.num.natAbs : Real) := by
    rw [zpow_natCast]; exact_mod_cast a1
  have a2q : (x.num.natAbs : Real) < (2 : Real) ^ ((log2Fuel x.num.natAbs x.num.natAbs : Int) + 1) := by
    have : (x.num.natAbs : Real) < (2 : Real) ^ (log2Fuel x.num.natAbs x.num.natAbs + 1) := by
      exact_mod_cast a2
    rw [show ((log2Fuel x.num.natAbs x.num.natAbs : Int) + 1)
      = ((log2Fuel x.num.natAbs x.num.natAbs + 1 : Nat) : Int) by push_cast; ring, zpow_natCast]
    exact this
  have b1q : (2 : Real) ^ (log2Fuel x.den x.den : Int) ≤ (x.den : Real) := by
    rw [zpow_natCast]; exact_mod_cast b1
  have b2q : (x.den : Real) < (2 : Real) ^ ((log2Fuel x.den x.den : Int) + 1) := by
    have : (x.den : Real) < (2 : Real) ^ (log2Fuel x.den x.den + 1) := by
      exact_mod_cast b2
    rw [show ((log2Fuel x.den x.den : Int) + 1)
      = ((log2Fuel x.den x.den + 1 : Nat) : Int) by push_cast; ring, zpow_natCast]
    exact this
  generalize (log2Fuel x.num.natAbs x.num.natAbs : Int) = la at a1q a2q ⊢
  generalize (log2Fuel x.den x.den : Int) = lb at b1q b2q ⊢
  have two_pos : (0 : Real) < 2 := by norm_num
  have two_ne : (2 : Real) ≠ 0 := by norm_num
  -- x < 2 ^ (la - lb + 1)
  have up : x < (2 : Real) ^ (la - lb + 1) := by
    have e : (2 : Real) ^ (la - lb + 1) = (2 : Real) ^ (la + 1) / (2 : Real) ^ lb := by
      rw [← zpow_sub₀ two_ne]; congr 1; ring
    rw [e, hxe]
    calc (x.num.natAbs : Real) / (x.den : Real)
        < (2 : Real) ^ (la + 1) / (x.den : Real) := div_lt_div_of_pos_right a2q hbq
      _ ≤ (2 : Real) ^ (la + 1) / (2 : Real) ^ lb :=
          div_le_div_of_nonneg_left (le_of_lt (zpow_pos two_pos _)) (zpow_pos two_pos _) b1q
  -- 2 ^ (la - lb - 1) < x
  have low : (2 : Real) ^ (la - lb - 1) < x := by
    have e : (2 : Real) ^ (la - lb - 1) = (2 : Real) ^ la / (2 : Real) ^ (lb + 1) := by
      rw [← zpow_sub₀ two_ne]; congr 1; ring
    rw [e]
    calc (2 : Real) ^ la / (2 : Real) ^ (lb + 1)
        < (2 : Real) ^ la / (x.den : Real) :=
          div_lt_div_of_pos_left (zpow_pos two_pos _) hbq b2q
      _ ≤ (x.num.natAbs : Real) / (x.den : Real) := div_le_div_of_nonneg_right a1q (le_of_lt hbq)
      _ = x := hxe.symm
  by_cases hc : (2 : Real) ^ (la - lb) ≤ x
  · rw [if_pos hc]
    exact ⟨hc, up⟩
  · rw [if_neg hc]
    refine ⟨le_of_lt low, ?_⟩
    rw [show la - lb - 1 + 1 = la - lb by ring]
    exact not_le.mp hc

theorem roundEven_ge (x : Real) : ⌊x⌋ ≤ roundEven x := by
  unfold roundEven
  split
  · exact le_refl _
  · split
    · omega
    · split <;> omega

theorem roundEven_le (x : Real) : roundEven x ≤ ⌊x⌋ + 1 := by
  unfold roundEven
  split
  · omega
  · split
    · omega
    · split <;> omega

theorem roundEven_intCast (n : Int) : roundEven (n : Real) = n := by
  unfold roundEven
  simp

theorem roundEven_mono (x y : Real) (h : x ≤ y) : roundEven x ≤ roundEven y := by
  have hf : ⌊x⌋ ≤ ⌊y⌋ := Int.floor_mono h
  by_cases hlt : ⌊x⌋ < ⌊y⌋
  · calc roundEven x ≤ ⌊x⌋ + 1 := roundEven_le x
      _ ≤ ⌊y⌋ := hlt
      _ ≤ roundEven y := roundEven_ge y
  · have he : ⌊x⌋ = ⌊y⌋ := le_antisymm hf (not_lt.mp hlt)
    have hfr : x - ⌊x⌋ ≤ y - ⌊y⌋ := by rw [he]; linarith
    unfold roundEven
    rw [he] at hfr ⊢
    by_cases c1 : y - ⌊y⌋ < 1 / 2
    · have c2 : x - ⌊y⌋ < 1 / 2 := lt_of_le_of_lt hfr c1
      rw [if_pos c1, if_pos c2]
    · rw [if_neg c1]
      by_cases c3 : x - ⌊y⌋ < 1 / 2
      · rw [if_pos c3]
        split
        · omega
        · split <;> omega
      · rw [if_neg c3]
        by_cases c4 : 1 / 2 < x - ⌊y⌋
        · have c5 : 1 / 2 < y - ⌊y⌋ := lt_of_lt_of_le c4 hfr
          rw [if_pos c4, if_pos c5]
        · rw [if_neg c4]
          by_cases c5 : 1 / 2 < y - ⌊y⌋
          · rw [if_pos c5]
            split <;> omega
          · rw [if_neg c5]

theorem flPos_bounds (x : Real) (hx : 0 < x) :
    (2 : Real) ^ exponent x ≤ flPos x ∧ flPos x ≤ (2 : Real) ^ (exponent x + 1) := by
  obtain ⟨h1, h2⟩ := exponent_spec x hx
  unfold flPos
  rw [pow2_eq]
  have two_ne : (2 : Real) ≠ 0 := by norm_num
  have hu : (0 : Real) < (2 : Real) ^ (exponent x - 52) := zpow_pos (by norm_num) _
  have e1 : (2 : Real) ^ exponent x = (2 : Real) ^ (52 : Int) * (2 : Real) ^ (exponent x - 52) := by
    rw [← zpow_add₀ two_ne]; congr 1; ring
  have e2 : (2 : Real) ^ (exponent x + 1)
      = (2 : Real) ^ (53 : Int) * (2 : Real) ^ (exponent x - 52) := by
    rw [← zpow_add₀ two_ne]; congr 1; ring
  have q1 : (2 : Real) ^ (52 : Int) ≤ x / (2 : Real) ^ (exponent x - 52) := by
    rw [le_div_iff₀ hu, ← e1]; exact h1
  have q2 : x / (2 : Real) ^ (exponent x - 52) < (2 : Real) ^ (53 : Int) := by
    rw [div_lt_iff₀ hu, ← e2]; exact h2
  have c52 : (2 : Real) ^ (52 : Int) = ((2 ^ 52 : Int) : Real) := by norm_num
  have c53 : (2 : Real) ^ (53 : Int) = ((2 ^ 53 : Int) : Real) := by norm_num
  have r1 : (2 ^ 52 : Int) ≤ roundEven (x / (2 : Real) ^ (exponent x - 52)) := by
    have := roundEven_mono _ _ q1
    rw [c52, roundEven_intCast] at this
    exact this
  have r2 : roundEven (x / (2 : Real) ^ (exponent x - 52)) ≤ (2 ^ 53 : Int) := by
    have h3 : ⌊x / (2 : Real) ^ (exponent x - 52)⌋ < (2 ^ 53 : Int) := by
      rw [Int.floor_lt, ← c53]; exact q2
    have := roundEven_le (x / (2 : Real) ^ (exponent x - 52))
    omega
  constructor
  · rw [e1, c52]
    exact mul_le_mul_of_nonneg_right (by exact_mod_cast r1) (le_of_lt hu)
  · rw [e2, c53]
    exact mul_le_mul_of_nonneg_right (by exact_mod_cast r2) (le_of_lt hu)

theorem flPos_pos (x : Real) (hx : 0 < x) : 0 < flPos x :=
  lt_of_lt_of_le (zpow_pos (by norm_num) _) (flPos_bounds x hx).1

theorem flPos_mono (x y : Real) (hx : 0 < x) (h : x ≤ y) : flPos x ≤ flPos y := by
  have hy : 0 < y := lt_of_lt_of_le hx h
  obtain ⟨x1, x2⟩ := exponent_spec x hx
  obtain ⟨y1, y2⟩ := exponent_spec y hy
  have hexp : exponent x ≤ exponent y := by
    have : (2 : Real) ^ exponent x < (2 : Real) ^ (exponent y + 1) :=
      lt_of_le_of_lt x1 (lt_of_le_of_lt h y2)
    have := (zpow_lt_zpow_iff_right₀ (by norm_num : (1 : Real) < 2)).1 this
    omega
  by_cases he : exponent x = exponent y
  · unfold flPos
    rw [he]
    have hu : (0 : Real) < pow2 (exponent y - 52) := pow2_pos _
    have hq : x / pow2 (exponent y - 52) ≤ y / pow2 (exponent y - 52) :=
      div_le_div_of_nonneg_right h (le_of_lt hu)
    have := roundEven_mono _ _ hq
    exact mul_le_mul_of_nonneg_right (by exact_mod_cast this) (le_of_lt hu)
  · have hlt : exponent x + 1 ≤ exponent y := by omega
    calc flPos x ≤ (2 : Real) ^ (exponent x + 1) := (flPos_bounds x hx).2
      _ ≤ (2 : Real) ^ exponent y := zpow_le_zpow_right₀ (by norm_num) hlt
      _ ≤ flPos y := (flPos_bounds y hy).1

theorem fl_zero : fl 0 = 0 := by
  simp [fl]

theorem fl_pos (x : Real) (hx : 0 < x) : 0 < fl x := by
  unfold fl
  rw [if_pos hx]
  exact flPos_pos x hx

theorem fl_neg (x : Real) (hx : x < 0) : fl x < 0 := by
  unfold fl
  rw [if_neg (not_lt.mpr (le_of_lt hx)), if_pos hx]
  exact neg_lt_zero.mpr (flPos_pos (-x) (neg_pos.mpr hx))

theorem fl_mono (x y : Real) (h : x ≤ y) : fl x ≤ fl y := by
  rcases lt_trichotomy 0 x with hx | hx | hx
  · have hy : 0 < y := lt_of_lt_of_le hx h
    unfold fl
    rw [if_pos hx, if_pos hy]
    exact flPos_mono x y hx h
  · subst hx
    rw [fl_zero]
    rcases lt_or_eq_of_le h with hy | hy
    · exact le_of_lt (fl_pos y hy)
    · rw [← hy, fl_zero]
  · rcases lt_trichotomy 0 y with hy | hy | hy
    · exact le_of_lt (lt_trans (fl_neg x hx) (fl_pos y hy))
    · subst hy
      rw [fl_zero]
      exact le_of_lt (fl_neg x hx)
    · unfold fl
      rw [if_neg (not_lt.mpr (le_of_lt hx)), if_pos hx, if_neg (not_lt.mpr (le_of_lt hy)),
        if_pos hy]
      exact neg_le_neg (flPos_mono (-y) (-x) (neg_pos.mpr hy) (neg_le_neg h))

theorem fl_pos_iff (x : Real) : 0 < fl x ↔ 0 < x := by
  constructor
  · intro h
    by_contra hx
    have := fl_mono x 0 (not_lt.mp hx)
    rw [fl_zero] at this
    exact absurd h (not_lt.mpr this)
  · exact fl_pos x

theorem mem_idxList (dims idx : List Nat) : idx ∈ idxList dims ↔ inBounds dims idx = true := by
  induction dims generalizing idx with
  | nil => cases idx <;> simp [idxList, inBounds]
  | cons d ds ih =>
    cases idx with
    | nil => simp [idxList, inBounds]
    | cons i is =>
      simp only [idxList, List.mem_flatMap, List.mem_range, List.mem_map, inBounds,
        Bool.and_eq_true, decide_eq_true_eq]
      constructor
      · rintro ⟨a, ha, b, hb, hab⟩
        injection hab with h1 h2
        subst h1; subst h2
        exact ⟨ha, (ih b).1 hb⟩
      · rintro ⟨h1, h2⟩
        exact ⟨i, h1, is, (ih is).2 h2, rfl⟩

theorem forRange_one {σ : Type} (d : Nat) (body : List Nat → σ → Option σ) (s : σ) :
    forRange d (fun i s => body [i] s) s
      = (idxList [d]).foldlM (fun s idx => body idx s) s := by
  unfold forRange
  simp only [idxList, List.map_cons, List.map_nil]
  generalize List.range d = R
  induction R generalizing s with
  | nil => simp
  | cons a R ih =>
    simp only [List.foldlM_cons, List.flatMap_cons, List.foldlM_append, List.foldlM_nil,
      bind_pure]
    congr 1
    funext s1
    exact ih s1

theorem forRange_nest {σ : Type} (d : Nat) (ds : List Nat) (body : List Nat → σ → Option σ)
    (s : σ) :
    forRange d (fun i s => (idxList ds).foldlM (fun s is => body (i :: is) s) s) s
      = (idxList (d :: ds)).foldlM (fun s idx => body idx s) s := by
  unfold forRange
  simp only [idxList]
  generalize List.range d = R
  induction R generalizing s with
  | nil => simp
  | cons a R ih =>
    simp only [List.foldlM_cons, List.flatMap_cons, List.foldlM_append, List.foldlM_map]
    congr 1
    funext s1
    exact ih s1

theorem forRange_two {σ : Type} (a b : Nat) (body : List Nat → σ → Option σ) (s : σ) :
    forRange a (fun i s => forRange b (fun j s => body [i, j] s) s) s
      = (idxList [a, b]).foldlM (fun s idx => body idx s) s := by
  have h : ∀ i s, forRange b (fun j s => body [i, j] s) s
      = (idxList [b]).foldlM (fun s is => body (i :: is) s) s :=
    fun i s => forRange_one b (fun is => body (i :: is)) s
  simp only [h]
  exact forRange_nest a [b] body s

theorem forRange_four {σ : Type} (a b c d : Nat) (body : List Nat → σ → Option σ) (s : σ) :
    forRange a (fun i s => forRange b (fun j s => forRange c (fun k s =>
        forRange d (fun l s => body [i, j, k, l] s) s) s) s) s
      = (idxList [a, b, c, d]).foldlM (fun s idx => body idx s) s := by
  have h2 : ∀ i j s, forRange c (fun k s => forRange d (fun l s => body [i, j, k, l] s) s) s
      = (idxList [c, d]).foldlM (fun s is => body (i :: j :: is) s) s :=
    fun i j s => forRange_two c d (fun is => body (i :: j :: is)) s
  simp only [h2]
  have h3 : ∀ i s, forRange b (fun j s =>
        (idxList [c, d]).foldlM (fun s is => body (i :: j :: is) s) s) s
      = (idxList [b, c, d]).foldlM (fun s is => body (i :: is) s) s :=
    fun i s => forRange_nest b [c, d] (fun is => body (i :: is)) s
  simp only [h3]
  exact forRange_nest a [b, c, d] body s

theorem copyAll_allocated (L : List (List Nat)) (src : List Nat → Real) (v : View) :
    (copyAll L src v).allocated = v.allocated := by
  unfold copyAll
  induction L generalizing v with
  | nil => rfl
  | cons i L ih => simp only [List.foldl_cons]; rw [ih]

theorem copyAll_dims (L : List (List Nat)) (src : List Nat → Real) (v : View) :
    (copyAll L src v).dims = v.dims := by
  unfold copyAll
  induction L generalizing v with
  | nil => rfl
  | cons i L ih => simp only [List.foldl_cons]; rw [ih]

theorem copyAll_data (L : List (List Nat)) (src : List Nat → Real) (v : View)
    (idx : List Nat) :
    (copyAll L src v).data idx = if idx ∈ L then src idx else v.data idx := by
  unfold copyAll
  induction L generalizing v with
  | nil => simp
  | cons i L ih =>
    simp only [List.foldl_cons, List.mem_cons]
    rw [ih]
    by_cases h1 : idx ∈ L
    · simp [h1]
    · by_cases h2 : idx = i
      · subst h2; simp [h1]
      · simp [h1, h2, Function.update_noteq]

theorem copyAll_cons (i : List Nat) (L : List (List Nat)) (src : List Nat → Real) (v : View) :
    copyAll (i :: L) src v
      = copyAll L src { v with data := Function.update v.data i (src i) } := rfl

theorem assign_ready (dims : List Nat) (dst : View) (src : List Nat → Real) (idx : List Nat)
    (hd : Ready dims dst) (hi : inBounds dims idx = true) :
    assign dst (HostViewUnmanaged dims (some src)) idx = some (put dst idx (src idx)) := by
  obtain ⟨h1, h2⟩ := hd
  simp [assign, View.get, View.set, HostViewUnmanaged, h1, h2, hi, put]

theorem ready_put (dims : List Nat) (v : View) (idx : List Nat) (x : Real)
    (h : Ready dims v) : Ready dims (put v idx x) := h

theorem scalars_step (NP : Nat) (D Dinv metinv tensorvisc vec_sph2cart : CF90Ptr)
    (fcor spheremp rspheremp metdet phis : List Nat → Real) (i : List Nat)
    (hi : inBounds [NP, NP] i = true) (h : HostMirrors)
    (h1 : Ready [NP, NP] h.h_fcor) (h2 : Ready [NP, NP] h.h_spheremp)
    (h3 : Ready [NP, NP] h.h_rspheremp) (h4 : Ready [NP, NP] h.h_metdet)
    (h5 : Ready [NP, NP] h.h_phis) :
    scalars_body (wrap_f90 NP D Dinv (some fcor) (some spheremp)
        (some rspheremp) (some metdet) metinv (some phis) tensorvisc vec_sph2cart) i h
      = some { h with h_fcor := put h.h_fcor i (fcor i),
                      h_spheremp := put h.h_spheremp i (spheremp i),
                      h_rspheremp := put h.h_rspheremp i (rspheremp i),
                      h_metdet := put h.h_metdet i (metdet i),
                      h_phis := put h.h_phis i (phis i) } := by
  simp only [scalars_body, wrap_f90, assign_ready _ _ _ _ h1 hi,
    assign_ready _ _ _ _ h2 hi, assign_ready _ _ _ _ h3 hi, assign_ready _ _ _ _ h4 hi,
    assign_ready _ _ _ _ h5 hi, Option.some_bind, Option.pure_def, Option.bind_eq_bind]

theorem scalars_fold (NP : Nat) (D Dinv metinv tensorvisc vec_sph2cart : CF90Ptr)
    (fcor spheremp rspheremp metdet phis : List Nat → Real) (L : List (List Nat))
    (hL : ∀ idx ∈ L, inBounds [NP, NP] idx = true) (h : HostMirrors)
    (h1 : Ready [NP, NP] h.h_fcor) (h2 : Ready [NP, NP] h.h_spheremp)
    (h3 : Ready [NP, NP] h.h_rspheremp) (h4 : Ready [NP, NP] h.h_metdet)
    (h5 : Ready [NP, NP] h.h_phis) :
    L.foldlM (fun s idx => scalars_body (wrap_f90 NP D Dinv (some fcor) (some spheremp)
        (some rspheremp) (some metdet) metinv (some phis) tensorvisc vec_sph2cart) idx s) h
      = some { h with h_fcor := copyAll L fcor h.h_fcor,
                      h_spheremp := copyAll L spheremp h.h_spheremp,
                      h_rspheremp := copyAll L rspheremp h.h_rspheremp,
                      h_metdet := copyAll L metdet h.h_metdet,
                      h_phis := copyAll L phis h.h_phis } := by
  induction L generalizing h with
  | nil => simp [copyAll]
  | cons i L ih =>
    have hi : inBounds [NP, NP] i = true := hL i (List.mem_cons_self _ _)
    have hL2 : ∀ idx ∈ L, inBounds [NP, NP] idx = true :=
      fun idx hx => hL idx (List.mem_cons_of_mem _ hx)
    simp only [List.foldlM_cons, scalars_step NP D Dinv metinv tensorvisc vec_sph2cart fcor
      spheremp rspheremp metdet phis i hi h h1 h2 h3 h4 h5, Option.some_bind,
      Option.bind_eq_bind]
    exact ih hL2 _ (ready_put _ _ _ _ h1) (ready_put _ _ _ _ h2) (ready_put _ _ _ _ h3)
      (ready_put _ _ _ _ h4) (ready_put _ _ _ _ h5)

theorem tensors_step (NP : Nat) (fcor spheremp rspheremp metdet phis tensorvisc
    vec_sph2cart : CF90Ptr) (D Dinv metinv : List Nat → Real) (i : List Nat)
    (hi : inBounds [2, 2, NP, NP] i = true) (h : HostMirrors)
    (h1 : Ready [2, 2, NP, NP] h.h_d) (h2 : Ready [2, 2, NP, NP] h.h_dinv)
    (h3 : Ready [2, 2, NP, NP] h.h_metinv) :
    tensors_body (wrap_f90 NP (some D) (some Dinv) fcor spheremp rspheremp metdet
        (some metinv) phis tensorvisc vec_sph2cart) i h
      = some { h with h_d := put h.h_d i (D i), h_dinv := put h.h_dinv i (Dinv i),
                      h_metinv := put h.h_metinv i (metinv i) } := by
  simp only [tensors_body, wrap_f90, assign_ready _ _ _ _ h1 hi,
    assign_ready _ _ _ _ h2 hi, assign_ready _ _ _ _ h3 hi, Option.some_bind,
    Option.pure_def, Option.bind_eq_bind]

theorem tensors_fold (NP : Nat) (fcor spheremp rspheremp metdet phis tensorvisc
    vec_sph2cart : CF90Ptr) (D Dinv metinv : List Nat → Real) (L : List (List Nat))
    (hL : ∀ idx ∈ L, inBounds [2, 2, NP, NP] idx = true) (h : HostMirrors)
    (h1 : Ready [2, 2, NP, NP] h.h_d) (h2 : Ready [2, 2, NP, NP] h.h_dinv)
    (h3 : Ready [2, 2, NP, NP] h.h_metinv) :
    L.foldlM (fun s idx => tensors_body (wrap_f90 NP (some D) (some Dinv) fcor spheremp
        rspheremp metdet (some metinv) phis tensorvisc vec_sph2cart) idx s) h
      = some { h with h_d := copyAll L D h.h_d, h_dinv := copyAll L Dinv h.h_dinv,
                      h_metinv := copyAll L metinv h.h_metinv } := by
  induction L generalizing h with
  | nil => simp [copyAll]
  | cons i L ih =>
    have hi : inBounds [2, 2, NP, NP] i = true := hL i (List.mem_cons_self _ _)
    have hL2 : ∀ idx ∈ L, inBounds [2, 2, NP, NP] idx = true :=
      fun idx hx => hL idx (List.mem_cons_of_mem _ hx)
    simp only [List.foldlM_cons, tensors_step NP fcor spheremp rspheremp metdet phis
      tensorvisc vec_sph2cart D Dinv metinv i hi h h1 h2 h3, Option.some_bind,
      Option.bind_eq_bind]
    exact ih hL2 _ (ready_put _ _ _ _ h1) (ready_put _ _ _ _ h2) (ready_put _ _ _ _ h3)

theorem tensorvisc_step (NP : Nat) (D Dinv fcor spheremp rspheremp metdet metinv phis
    vec_sph2cart : CF90Ptr) (tensorvisc : List Nat → Real) (i : List Nat)
    (hi : inBounds [2, 2, NP, NP] i = true) (h : HostMirrors)
    (h1 : Ready [2, 2, NP, NP] h.h_tensorvisc) :
    tensorvisc_body (wrap_f90 NP D Dinv fcor spheremp rspheremp metdet metinv phis
        (some tensorvisc) vec_sph2cart) i h
      = some { h with h_tensorvisc := put h.h_tensorvisc i (tensorvisc i) } := by
  simp only [tensorvisc_body, wrap_f90, assign_ready _ _ _ _ h1 hi, Option.some_bind,
    Option.pure_def, Option.bind_eq_bind]

theorem tensorvisc_fold (NP : Nat) (D Dinv fcor spheremp rspheremp metdet metinv phis
    vec_sph2cart : CF90Ptr) (tensorvisc : List Nat → Real) (L : List (List Nat))
    (hL : ∀ idx ∈ L, inBounds [2, 2, NP, NP] idx = true) (h : HostMirrors)
    (h1 : Ready [2, 2, NP, NP] h.h_tensorvisc) :
    L.foldlM (fun s idx => tensorvisc_body (wrap_f90 NP D Dinv fcor spheremp rspheremp
        metdet metinv phis (some tensorvisc) vec_sph2cart) idx s) h
      = some { h with h_tensorvisc := copyAll L tensorvisc h.h_tensorvisc } := by
  induction L generalizing h with
  | nil => simp [copyAll]
  | cons i L ih =>
    have hi : inBounds [2, 2, NP, NP] i = true := hL i (List.mem_cons_self _ _)
    have hL2 : ∀ idx ∈ L, inBounds [2, 2, NP, NP] idx = true :=
      fun idx hx => hL idx (List.mem_cons_of_mem _ hx)
    simp only [List.foldlM_cons, tensorvisc_step NP D Dinv fcor spheremp rspheremp metdet
      metinv phis vec_sph2cart tensorvisc i hi h h1, Option.some_bind, Option.bind_eq_bind]
    exact ih hL2 _ (ready_put _ _ _ _ h1)

theorem vec_sph2cart_step (NP : Nat) (D Dinv fcor spheremp rspheremp metdet metinv phis
    tensorvisc : CF90Ptr) (vec_sph2cart : List Nat → Real) (i : List Nat)
    (hi : inBounds [2, 3, NP, NP] i = true) (h : HostMirrors)
    (h1 : Ready [2, 3, NP, NP] h.h_vec_sph2cart) :
    vec_sph2cart_body (wrap_f90 NP D Dinv fcor spheremp rspheremp metdet metinv phis
        tensorvisc (some vec_sph2cart)) i h
      = some { h with h_vec_sph2cart := put h.h_vec_sph2cart i (vec_sph2cart i) } := by
  simp only [vec_sph2cart_body, wrap_f90, assign_ready _ _ _ _ h1 hi, Option.some_bind,
    Option.pure_def, Option.bind_eq_bind]

theorem vec_sph2cart_fold (NP : Nat) (D Dinv fcor spheremp rspheremp metdet metinv phis
    tensorvisc : CF90Ptr) (vec_sph2cart : List Nat → Real) (L : List (List Nat))
    (hL : ∀ idx ∈ L, inBounds [2, 3, NP, NP] idx = true) (h : HostMirrors)
    (h1 : Ready [2, 3, NP, NP] h.h_vec_sph2cart) :
    L.foldlM (fun s idx => vec_sph2cart_body (wrap_f90 NP D Dinv fcor spheremp rspheremp
        metdet metinv phis tensorvisc (some vec_sph2cart)) idx s) h
      = some { h with h_vec_sph2cart := copyAll L vec_sph2cart h.h_vec_sph2cart } := by
  induction L generalizing h with
  | nil => simp [copyAll]
  | cons i L ih =>
    have hi : inBounds [2, 3, NP, NP] i = true := hL i (List.mem_cons_self _ _)
    have hL2 : ∀ idx ∈ L, inBounds [2, 3, NP, NP] idx = true :=
      fun idx hx => hL idx (List.mem_cons_of_mem _ hx)
    simp only [List.foldlM_cons, vec_sph2cart_step NP D Dinv fcor spheremp rspheremp metdet
      metinv phis tensorvisc vec_sph2cart i hi h h1, Option.some_bind, Option.bind_eq_bind]
    exact ih hL2 _ (ready_put _ _ _ _ h1)

theorem idxList_inBounds (dims : List Nat) : ∀ idx ∈ idxList dims, inBounds dims idx = true :=
  fun idx h => (mem_idxList dims idx).1 h

/-- The loop nests of the loader that run whatever the flag is: they succeed and copy
every entry of the eight mandatory external arrays. -/
theorem load_loops_true (NP : Nat) (tensorvisc vec_sph2cart : CF90Ptr)
    (D Dinv fcor spheremp rspheremp metdet metinv phis : List Nat → Real) (h : HostMirrors)
    (h1 : Ready [NP, NP] h.h_fcor) (h2 : Ready [NP, NP] h.h_spheremp)
    (h3 : Ready [NP, NP] h.h_rspheremp) (h4 : Ready [NP, NP] h.h_metdet)
    (h5 : Ready [NP, NP] h.h_phis) (h6 : Ready [2, 2, NP, NP] h.h_d)
    (h7 : Ready [2, 2, NP, NP] h.h_dinv) (h8 : Ready [2, 2, NP, NP] h.h_metinv) :
    load_loops NP (wrap_f90 NP (some D) (some Dinv) (some fcor) (some spheremp)
        (some rspheremp) (some metdet) (some metinv) (some phis) tensorvisc vec_sph2cart)
        true h
      = some { h with
          h_fcor := copyAll (idxList [NP, NP]) fcor h.h_fcor,
          h_spheremp := copyAll (idxList [NP, NP]) spheremp h.h_spheremp,
          h_rspheremp := copyAll (idxList [NP, NP]) rspheremp h.h_rspheremp,
          h_metdet := copyAll (idxList [NP, NP]) metdet h.h_metdet,
          h_phis := copyAll (idxList [NP, NP]) phis h.h_phis,
          h_d := copyAll (idxList [2, 2, NP, NP]) D h.h_d,
          h_dinv := copyAll (idxList [2, 2, NP, NP]) Dinv h.h_dinv,
          h_metinv := copyAll (idxList [2, 2, NP, NP]) metinv h.h_metinv } := by
  unfold load_loops
  rw [forRange_two NP NP (scalars_body _), scalars_fold NP _ _ _ _ _ fcor spheremp rspheremp
    metdet phis _ (idxList_inBounds _) h h1 h2 h3 h4 h5]
  simp only [Option.some_bind, Option.bind_eq_bind]
  rw [forRange_four 2 2 NP NP (tensors_body _), tensors_fold NP _ _ _ _ _ _ _ D Dinv metinv _
    (idxList_inBounds _)]
  · rfl
  · exact h6
  · exact h7
  · exact h8

/-- All four loop nests of the loader, run when the flag is false: they succeed and copy
every entry of the ten external arrays. -/
theorem load_loops_false (NP : Nat)
    (D Dinv fcor spheremp rspheremp metdet metinv phis tensorvisc vec_sph2cart :
      List Nat → Real) (h : HostMirrors)
    (h1 : Ready [NP, NP] h.h_fcor) (h2 : Ready [NP, NP] h.h_spheremp)
    (h3 : Ready [NP, NP] h.h_rspheremp) (h4 : Ready [NP, NP] h.h_metdet)
    (h5 : Ready [NP, NP] h.h_phis) (h6 : Ready [2, 2, NP, NP] h.h_d)
    (h7 : Ready [2, 2, NP, NP] h.h_dinv) (h8 : Ready [2, 2, NP, NP] h.h_metinv)
    (h9 : Ready [2, 2, NP, NP] h.h_tensorvisc) (h10 : Ready [2, 3, NP, NP] h.h_vec_sph2cart) :
    load_loops NP (wrap_f90 NP (some D) (some Dinv) (some fcor) (some spheremp)
        (some rspheremp) (some metdet) (some metinv) (some phis) (some tensorvisc)
        (some vec_sph2cart)) false h
      = some
        { h_fcor := copyAll (idxList [NP, NP]) fcor h.h_fcor,
          h_spheremp := copyAll (idxList [NP, NP]) spheremp h.h_spheremp,
          h_rspheremp := copyAll (idxList [NP, NP]) rspheremp h.h_rspheremp,
          h_metdet := copyAll (idxList [NP, NP]) metdet h.h_metdet,
          h_phis := copyAll (idxList [NP, NP]) phis h.h_phis,
          h_d := copyAll (idxList [2, 2, NP, NP]) D h.h_d,
          h_dinv := copyAll (idxList [2, 2, NP, NP]) Dinv h.h_dinv,
          h_metinv := copyAll (idxList [2, 2, NP, NP]) metinv h.h_metinv,
          h_tensorvisc := copyAll (idxList [2, 2, NP, NP]) tensorvisc h.h_tensorvisc,
          h_vec_sph2cart := copyAll (idxList [2, 3, NP, NP]) vec_sph2cart h.h_vec_sph2cart } := by
  unfold load_loops
  rw [forRange_two NP NP (scalars_body _), scalars_fold NP _ _ _ _ _ fcor spheremp rspheremp
    metdet phis _ (idxList_inBounds _) h h1 h2 h3 h4 h5]
  simp only [Option.some_bind, Option.bind_eq_bind]
  rw [forRange_four 2 2 NP NP (tensors_body _), tensors_fold NP _ _ _ _ _ _ _ D Dinv metinv _
    (idxList_inBounds _)]
  · simp only [Option.some_bind, Option.bind_eq_bind, Bool.not_false, if_true]
    rw [forRange_four 2 2 NP NP (tensorvisc_body _), tensorvisc_fold NP _ _ _ _ _ _ _ _ _
      tensorvisc _ (idxList_inBounds _)]
    · simp only [Option.some_bind, Option.bind_eq_bind]
      rw [forRange_four 2 3 NP NP (vec_sph2cart_body _), vec_sph2cart_fold NP _ _ _ _ _ _ _ _ _
        vec_sph2cart _ (idxList_inBounds _)]
      exact h10
    · exact h9
  · exact h6
  · exact h7
  · exact h8

theorem subview_mirror (n : Nat) (ds : List Nat) (v : View) (ie : Nat)
    (hv : Ready (n :: ds) v) (hie : ie < n) :
    (subview v ie).map create_mirror_view = some (HostViewManaged ds) := by
  obtain ⟨h1, h2⟩ := hv
  simp [subview, h1, h2, hie, create_mirror_view, HostViewManaged]

theorem ready_copyAll (ds : List Nat) (L : List (List Nat)) (src : List Nat → Real) :
    Ready ds (copyAll L src (HostViewManaged ds)) :=
  ⟨by rw [copyAll_allocated]; rfl, by rw [copyAll_dims]; rfl⟩

theorem deep_copy_subview_copyAll (n : Nat) (ds : List Nat) (m : View) (ie : Nat)
    (src : List Nat → Real) (hm : Ready (n :: ds) m) (hie : ie < n) :
    deep_copy_subview m ie (copyAll (idxList ds) src (HostViewManaged ds))
      = some (loadBlock m ie src) := by
  obtain ⟨h1, h2⟩ := hm
  have h3 := ready_copyAll ds (idxList ds) src
  simp only [deep_copy_subview, h1, h2, hie, h3.1, h3.2, decide_True, Bool.and_self, if_true,
    loadBlock, List.tail_cons, Option.some.injEq]
  congr 1
  funext idx
  cases idx with
  | nil => rfl
  | cons e is =>
    by_cases hb : inBounds ds is = true
    · simp [hb, copyAll_data, (mem_idxList ds is).2 hb]
    · simp [hb]

theorem make_mirrors_true (NP n : Nat) (s : ElementsGeometry) (ie : Nat)
    (hs : Mandatory NP n s) (hie : ie < n) :
    make_mirrors NP s ie true
      = some { h_fcor := HostViewManaged [NP, NP], h_metdet := HostViewManaged [NP, NP],
               h_spheremp := HostViewManaged [NP, NP], h_rspheremp := HostViewManaged [NP, NP],
               h_phis := HostViewManaged [NP, NP], h_metinv := HostViewManaged [2, 2, NP, NP],
               h_d := HostViewManaged [2, 2, NP, NP], h_dinv := HostViewManaged [2, 2, NP, NP],
               h_tensorvisc := View.null [2, 2, NP, NP],
               h_vec_sph2cart := View.null [2, 3, NP, NP] } := by
  obtain ⟨h1, h2, h3, h4, h5, h6, h7, h8⟩ := hs
  simp only [make_mirrors, subview_mirror _ _ _ _ h1 hie, subview_mirror _ _ _ _ h2 hie,
    subview_mirror _ _ _ _ h3 hie, subview_mirror _ _ _ _ h4 hie,
    subview_mirror _ _ _ _ h5 hie, subview_mirror _ _ _ _ h6 hie,
    subview_mirror _ _ _ _ h7 hie, subview_mirror _ _ _ _ h8 hie, Option.some_bind,
    Option.bind_eq_bind, Bool.not_true, Bool.false_eq_true, if_false, Option.pure_def]

theorem make_mirrors_false (NP n : Nat) (s : ElementsGeometry) (ie : Nat)
    (hs : Mandatory NP n s) (ho : Optional NP n s) (hie : ie < n) :
    make_mirrors NP s ie false
      = some { h_fcor := HostViewManaged [NP, NP], h_metdet := HostViewManaged [NP, NP],
               h_spheremp := HostViewManaged [NP, NP], h_rspheremp := HostViewManaged [NP, NP],
               h_phis := HostViewManaged [NP, NP], h_metinv := HostViewManaged [2, 2, NP, NP],
               h_d := HostViewManaged [2, 2, NP, NP], h_dinv := HostViewManaged [2, 2, NP, NP],
               h_tensorvisc := HostViewManaged [2, 2, NP, NP],
               h_vec_sph2cart := HostViewManaged [2, 3, NP, NP] } := by
  obtain ⟨h1, h2, h3, h4, h5, h6, h7, h8⟩ := hs
  obtain ⟨h9, h10⟩ := ho
  simp only [make_mirrors, subview_mirror _ _ _ _ h1 hie, subview_mirror _ _ _ _ h2 hie,
    subview_mirror _ _ _ _ h3 hie, subview_mirror _ _ _ _ h4 hie,
    subview_mirror _ _ _ _ h5 hie, subview_mirror _ _ _ _ h6 hie,
    subview_mirror _ _ _ _ h7 hie, subview_mirror _ _ _ _ h8 hie,
    subview_mirror _ _ _ _ h9 hie, subview_mirror _ _ _ _ h10 hie, Option.some_bind,
    Option.bind_eq_bind, Bool.not_false, if_true, Option.pure_def]

theorem ready_hostView (ds : List Nat) : Ready ds (HostViewManaged ds) := ⟨rfl, rfl⟩

/-- The loader in constant-viscosity mode, in closed form: on a store whose mandatory
views are allocated for `n` elements and for `ie < n`, it succeeds and replaces the
blocks of element `ie` of the eight mandatory views. -/
theorem init_ie_true (NP n : Nat) (s : ElementsGeometry) (ie : Nat)
    (D Dinv fcor spheremp rspheremp metdet metinv phis : List Nat → Real)
    (tensorvisc vec_sph2cart : CF90Ptr) (hs : Mandatory NP n s) (hie : ie < n) :
    s.init_ie NP ie (some D) (some Dinv) (some fcor) (some spheremp) (some rspheremp)
        (some metdet) (some metinv) (some phis) tensorvisc vec_sph2cart true
      = some (loadMandatory s ie D Dinv fcor spheremp rspheremp metdet metinv phis) := by
  have hs2 := hs
  obtain ⟨h1, h2, h3, h4, h5, h6, h7, h8⟩ := hs2
  simp only [ElementsGeometry.init_ie, make_mirrors_true NP n s ie hs hie, Option.some_bind,
    Option.bind_eq_bind]
  rw [load_loops_true NP tensorvisc vec_sph2cart D Dinv fcor spheremp rspheremp metdet metinv
    phis _ (ready_hostView _) (ready_hostView _) (ready_hostView _) (ready_hostView _)
    (ready_hostView _) (ready_hostView _) (ready_hostView _) (ready_hostView _)]
  simp only [Option.some_bind, copy_back, deep_copy_subview_copyAll _ _ _ _ _ h1 hie,
    deep_copy_subview_copyAll _ _ _ _ _ h2 hie, deep_copy_subview_copyAll _ _ _ _ _ h3 hie,
    deep_copy_subview_copyAll _ _ _ _ _ h4 hie, deep_copy_subview_copyAll _ _ _ _ _ h5 hie,
    deep_copy_subview_copyAll _ _ _ _ _ h6 hie, deep_copy_subview_copyAll _ _ _ _ _ h7 hie,
    deep_copy_subview_copyAll _ _ _ _ _ h8 hie, Option.bind_eq_bind, Bool.not_true,
    Bool.false_eq_true, if_false, Option.pure_def, loadMandatory]

/-- The loader with the flag false, in closed form: on a store whose ten views are
allocated for `n` elements and for `ie < n`, it succeeds and replaces the blocks of
element `ie` of all ten views. -/
theorem init_ie_false (NP n : Nat) (s : ElementsGeometry) (ie : Nat)
    (D Dinv fcor spheremp rspheremp metdet metinv phis tensorvisc vec_sph2cart :
      List Nat → Real) (hs : Mandatory NP n s) (ho : Optional NP n s) (hie : ie < n) :
    s.init_ie NP ie (some D) (some Dinv) (some fcor) (some spheremp) (some rspheremp)
        (some metdet) (some metinv) (some phis) (some tensorvisc) (some vec_sph2cart) false
      = some (loadOptional
          (loadMandatory s ie D Dinv fcor spheremp rspheremp metdet metinv phis) ie
          tensorvisc vec_sph2cart) := by
  have hs2 := hs
  obtain ⟨h1, h2, h3, h4, h5, h6, h7, h8⟩ := hs2
  obtain ⟨h9, h10⟩ := ho
  simp only [ElementsGeometry.init_ie, make_mirrors_false NP n s ie hs ⟨h9, h10⟩ hie,
    Option.some_bind, Option.bind_eq_bind]
  rw [load_loops_false NP D Dinv fcor spheremp rspheremp metdet metinv
    phis tensorvisc vec_sph2cart _ (ready_hostView _) (ready_hostView _) (ready_hostView _)
    (ready_hostView _) (ready_hostView _) (ready_hostView _) (ready_hostView _)
    (ready_hostView _) (ready_hostView _) (ready_hostView _)]
  simp only [Option.some_bind, copy_back, deep_copy_subview_copyAll _ _ _ _ _ h1 hie,
    deep_copy_subview_copyAll _ _ _ _ _ h2 hie, deep_copy_subview_copyAll _ _ _ _ _ h3 hie,
    deep_copy_subview_copyAll _ _ _ _ _ h4 hie, deep_copy_subview_copyAll _ _ _ _ _ h5 hie,
    deep_copy_subview_copyAll _ _ _ _ _ h6 hie, deep_copy_subview_copyAll _ _ _ _ _ h7 hie,
    deep_copy_subview_copyAll _ _ _ _ _ h8 hie, deep_copy_subview_copyAll _ _ _ _ _ h9 hie,
    deep_copy_subview_copyAll _ _ _ _ _ h10 hie, Option.bind_eq_bind, Bool.not_false,
    if_true, Option.pure_def, loadMandatory, loadOptional]

theorem init_mandatory (NP : Nat) (s0 : ElementsGeometry) (n : Nat) (c : Bool) :
    Mandatory NP n (s0.init NP n c) := by
  cases c <;> simp [ElementsGeometry.init, Mandatory, Ready, ExecViewManaged]

theorem init_optional (NP : Nat) (s0 : ElementsGeometry) (n : Nat) :
    Optional NP n (s0.init NP n false) := by
  simp [ElementsGeometry.init, Optional, Ready, ExecViewManaged]

theorem loadBlock_get (n : Nat) (ds : List Nat) (m : View) (ie : Nat) (src : List Nat → Real)
    (is : List Nat) (hm : Ready (n :: ds) m) (hie : ie < n) (hb : inBounds ds is = true) :
    (loadBlock m ie src).get (ie :: is) = some (src is) := by
  obtain ⟨h1, h2⟩ := hm
  simp [View.get, loadBlock, h1, h2, inBounds, hie, hb]

theorem inBounds2 (a b i j : Nat) (hi : i < a) (hj : j < b) : inBounds [a, b] [i, j] = true := by
  simp [inBounds, hi, hj]

theorem inBounds4 (a b c d i j k l : Nat) (hi : i < a) (hj : j < b) (hk : k < c) (hl : l < d) :
    inBounds [a, b, c, d] [i, j, k, l] = true := by
  simp [inBounds, hi, hj, hk, hl]

theorem init_allocatedFor (NP : Nat) (s0 : ElementsGeometry) (n : Nat) (c : Bool) :
    AllocatedFor NP n c (s0.init NP n c) := by
  refine ⟨init_mandatory NP s0 n c, ?_⟩
  intro hc
  subst hc
  exact init_optional NP s0 n

theorem load_eq (NP n : Nat) (c : Bool) (s : ElementsGeometry) (ie : Nat) (A : ExtArrays)
    (hs : AllocatedFor NP n c s) (hie : ie < n) :
    s.load NP ie A c = some (loaded s ie A c) := by
  cases c with
  | true =>
    exact init_ie_true NP n s ie A.D A.Dinv A.fcor A.spheremp A.rspheremp A.metdet A.metinv
      A.phis _ _ hs.1 hie
  | false =>
    exact init_ie_false NP n s ie A.D A.Dinv A.fcor A.spheremp A.rspheremp A.metdet A.metinv
      A.phis A.tensorvisc A.vec_sph2cart hs.1 (hs.2 rfl) hie

theorem loaded_allocatedFor (NP n : Nat) (c : Bool) (s : ElementsGeometry) (ie : Nat)
    (A : ExtArrays) (hs : AllocatedFor NP n c s) : AllocatedFor NP n c (loaded s ie A c) := by
  cases c with
  | true => exact ⟨hs.1, fun hc => absurd hc (by decide)⟩
  | false => exact ⟨hs.1, fun _ => hs.2 rfl⟩

/-- C1: round trip of the loader.  On every store whose views are allocated as
`init(n, c)` allocates them (the eight mandatory views with `n` elements and, when `c`
is false, the two optional ones as well), whatever these views hold, and for `ie < n`,
the loader `init(ie, D, Dinv, ..., c)` succeeds, and afterwards the store holds at
element `ie` exactly the external values: `fcor`, `spheremp`, `rspheremp`, `metdet`,
`phis` at every grid point, `D`, `Dinv`, `metinv` at every `[a][b][i][j]` with
`a, b < 2`, and, when `c` is false, also `tensorvisc` (`a, b < 2`) and `vec_sph2cart`
(`a < 2`, `b < 3`).  `D` and `Dinv` are independent: the stored `Dinv` is the supplied
one, whatever `D` is. -/
theorem loader_round_trip (NP n : Nat) (c : Bool) (s0 : ElementsGeometry) (ie : Nat)
    (D Dinv fcor spheremp rspheremp metdet metinv phis tensorvisc vec_sph2cart :
      List Nat → Real) (hs : AllocatedFor NP n c s0) (hie : ie < n) :
    ∃ s, s0.init_ie NP ie (some D) (some Dinv) (some fcor) (some spheremp)
        (some rspheremp) (some metdet) (some metinv) (some phis) (some tensorvisc)
        (some vec_sph2cart) c = some s ∧
      (∀ i j, i < NP → j < NP →
        s.m_fcor.get [ie, i, j] = some (fcor [i, j]) ∧
        s.m_spheremp.get [ie, i, j] = some (spheremp [i, j]) ∧
        s.m_rspheremp.get [ie, i, j] = some (rspheremp [i, j]) ∧
        s.m_metdet.get [ie, i, j] = some (metdet [i, j]) ∧
        s.m_phis.get [ie, i, j] = some (phis [i, j])) ∧
      (∀ a b i j, a < 2 → b < 2 → i < NP → j < NP →
        s.m_d.get [ie, a, b, i, j] = some (D [a, b, i, j]) ∧
        s.m_dinv.get [ie, a, b, i, j] = some (Dinv [a, b, i, j]) ∧
        s.m_metinv.get [ie, a, b, i, j] = some (metinv [a, b, i, j])) ∧
      (c = false →
        (∀ a b i j, a < 2 → b < 2 → i < NP → j < NP →
          s.m_tensorvisc.get [ie, a, b, i, j] = some (tensorvisc [a, b, i, j])) ∧
        (∀ a b i j, a < 2 → b < 3 → i < NP → j < NP →
          s.m_vec_sph2cart.get [ie, a, b, i, j] = some (vec_sph2cart [a, b, i, j]))) := by
  have hm := hs.1
  have hm2 := hm
  obtain ⟨h1, h2, h3, h4, h5, h6, h7, h8⟩ := hm2
  cases c with
  | true =>
    refine ⟨_, init_ie_true NP n _ ie D Dinv fcor spheremp rspheremp metdet metinv phis _ _
      hm hie, ?_, ?_, ?_⟩
    · intro i j hi hj
      have hb := inBounds2 NP NP i j hi hj
      exact ⟨loadBlock_get _ _ _ _ _ _ h1 hie hb, loadBlock_get _ _ _ _ _ _ h2 hie hb,
        loadBlock_get _ _ _ _ _ _ h3 hie hb, loadBlock_get _ _ _ _ _ _ h4 hie hb,
        loadBlock_get _ _ _ _ _ _ h5 hie hb⟩
    · intro a b i j ha hb hi hj
      have hb := inBounds4 2 2 NP NP a b i j ha hb hi hj
      exact ⟨loadBlock_get _ _ _ _ _ _ h7 hie hb, loadBlock_get _ _ _ _ _ _ h8 hie hb,
        loadBlock_get _ _ _ _ _ _ h6 hie hb⟩
    · intro hc
      exact absurd hc (by decide)
  | false =>
    obtain ⟨h9, h10⟩ := hs.2 rfl
    refine ⟨_, init_ie_false NP n _ ie D Dinv fcor spheremp rspheremp metdet metinv phis
      tensorvisc vec_sph2cart hm ⟨h9, h10⟩ hie, ?_, ?_, ?_⟩
    · intro i j hi hj
      have hb := inBounds2 NP NP i j hi hj
      exact ⟨loadBlock_get _ _ _ _ _ _ h1 hie hb, loadBlock_get _ _ _ _ _ _ h2 hie hb,
        loadBlock_get _ _ _ _ _ _ h3 hie hb, loadBlock_get _ _ _ _ _ _ h4 hie hb,
        loadBlock_get _ _ _ _ _ _ h5 hie hb⟩
    · intro a b i j ha hb hi hj
      have hb := inBounds4 2 2 NP NP a b i j ha hb hi hj
      exact ⟨loadBlock_get _ _ _ _ _ _ h7 hie hb, loadBlock_get _ _ _ _ _ _ h8 hie hb,
        loadBlock_get _ _ _ _ _ _ h6 hie hb⟩
    · intro _
      constructor
      · intro a b i j ha hb hi hj
        exact loadBlock_get _ _ _ _ _ _ h9 hie (inBounds4 2 2 NP NP a b i j ha hb hi hj)
      · intro a b i j ha hb hi hj
        exact loadBlock_get _ _ _ _ _ _ h10 hie (inBounds4 2 3 NP NP a b i j ha hb hi hj)

theorem genRandArray_matrix (rd : Nat → Real) (h : View) (e : Nat) (hh : Ready [2, 2] h) :
    Ready [2, 2] (genRandArray h rd e).1 ∧ (genRandArray h rd e).2 = e + 4 ∧
    (genRandArray h rd e).1.data [0, 0] = rd e ∧
    (genRandArray h rd e).1.data [0, 1] = rd (e + 1) ∧
    (genRandArray h rd e).1.data [1, 0] = rd (e + 2) ∧
    (genRandArray h rd e).1.data [1, 1] = rd (e + 3) := by
  obtain ⟨h1, h2⟩ := hh
  simp [genRandArray, h1, h2, Ready, inBounds, offset]

theorem get_ready (ds : List Nat) (v : View) (idx : List Nat) (hv : Ready ds v)
    (hb : inBounds ds idx = true) : v.get idx = some (v.data idx) := by
  obtain ⟨h1, h2⟩ := hv
  simp [View.get, h1, h2, hb]

theorem compute_det_matrix (rd : Nat → Real) (h : View) (e : Nat) (hh : Ready [2, 2] h) :
    compute_det (genRandArray h rd e).1 = some (candDet rd e) := by
  obtain ⟨g1, _, g3, g4, g5, g6⟩ := genRandArray_matrix rd h e hh
  simp [compute_det, get_ready _ _ _ g1, inBounds, g3, g4, g5, g6, candDet]

theorem genRandArray_again (rd : Nat → Real) (h : View) (e p : Nat) :
    genRandArray (genRandArray h rd e).1 rd p = genRandArray h rd p := by
  unfold genRandArray
  cases ha : h.allocated
  · simp [ha]
  · simp only [if_true, ha]
    congr 2
    funext idx
    by_cases hb : inBounds h.dims idx = true <;> simp [hb]

theorem do_while_spec (rd : Nat → Real) (fuel : Nat) (h : View) (e : Nat) (r : View × Nat)
    (hh : Ready [2, 2] h) :
    do_while rd fuel h e = some r ↔
      ∃ k, k < fuel ∧ (∀ j, j < k → candDet rd (e + 4 * j) ≤ 0) ∧
        0 < candDet rd (e + 4 * k) ∧ r = genRandArray h rd (e + 4 * k) := by
  induction fuel generalizing h e with
  | zero => simp [do_while]
  | succ fuel ih =>
    obtain ⟨g1, g2, _⟩ := genRandArray_matrix rd h e hh
    simp only [do_while, compute_det_matrix rd h e hh]
    by_cases hd : candDet rd e ≤ 0
    · simp only [hd, if_true]
      rw [ih _ _ g1, g2]
      constructor
      · rintro ⟨k, hk, hj, hp, hr⟩
        refine ⟨k + 1, by omega, ?_, ?_, ?_⟩
        · intro j hjk
          cases j with
          | zero => simpa using hd
          | succ j =>
            have := hj j (by omega)
            have e1 : e + 4 * (j + 1) = e + 4 + 4 * j := by ring
            rw [e1]; exact this
        · have e1 : e + 4 * (k + 1) = e + 4 + 4 * k := by ring
          rw [e1]; exact hp
        · have e1 : e + 4 * (k + 1) = e + 4 + 4 * k := by ring
          rw [e1, hr, genRandArray_again]
      · rintro ⟨k, hk, hj, hp, hr⟩
        cases k with
        | zero =>
          exfalso
          have : 0 < candDet rd e := by simpa using hp
          exact absurd hd (not_le.mpr this)
        | succ k =>
          have e1 : e + 4 * (k + 1) = e + 4 + 4 * k := by ring
          refine ⟨k, by omega, ?_, ?_, ?_⟩
          · intro j hjk
            have := hj (j + 1) (by omega)
            have e2 : e + 4 * (j + 1) = e + 4 + 4 * j := by ring
            rw [e2] at this; exact this
          · rw [e1] at hp; exact hp
          · rw [hr, e1, genRandArray_again]
    · simp only [hd, if_false]
      constructor
      · intro hr
        refine ⟨0, by omega, by intro j hj; omega, by simpa using not_le.mp hd, ?_⟩
        simpa using (Option.some.inj hr).symm
      · rintro ⟨k, hk, hj, hp, hr⟩
        cases k with
        | zero => simp [hr]
        | succ k =>
          exfalso
          have := hj 0 (by omega)
          exact hd (by simpa using this)

theorem set_eq_some (v v1 : View) (idx : List Nat) (x : Real) (h : v.set idx x = some v1) :
    v1 = put v idx x := by
  unfold View.set at h
  split at h
  · exact (Option.some.inj h).symm
  · exact absurd h (by simp)

theorem put_frame (v : View) (x : Real) (ie a b igp jgp ie1 a1 b1 igp1 jgp1 : Nat)
    (hk : ¬(ie1 = ie ∧ igp1 = igp ∧ jgp1 = jgp)) :
    (put v [ie, a, b, igp, jgp] x).data [ie1, a1, b1, igp1, jgp1]
      = v.data [ie1, a1, b1, igp1, jgp1] := by
  unfold put
  apply Function.update_noteq
  intro heq
  simp only [List.cons.injEq, and_true] at heq
  exact hk ⟨heq.1, heq.2.2.2.1, heq.2.2.2.2⟩

theorem write_d_unroll (m h_d : View) (ie igp jgp : Nat) :
    forRange 2 (fun i h_d => forRange 2 (fun j h_d => do
        let x ← m.get [i, j]
        h_d.set [ie, i, j, igp, jgp] x) h_d) h_d
      = (do
        let x00 ← m.get [0, 0]
        let h1 ← h_d.set [ie, 0, 0, igp, jgp] x00
        let x01 ← m.get [0, 1]
        let h2 ← h1.set [ie, 0, 1, igp, jgp] x01
        let x10 ← m.get [1, 0]
        let h3 ← h2.set [ie, 1, 0, igp, jgp] x10
        let x11 ← m.get [1, 1]
        h3.set [ie, 1, 1, igp, jgp] x11) := by
  have h2 : List.range 2 = [0, 1] := rfl
  simp only [forRange, h2, List.foldlM_cons, List.foldlM_nil, bind_assoc, bind_pure, pure_bind]

theorem set_ok (v v1 : View) (idx : List Nat) (x : Real) (h : v.set idx x = some v1) :
    v.allocated = true ∧ inBounds v.dims idx = true := by
  unfold View.set at h
  split at h
  · rename_i hc
    simpa using hc
  · exact absurd h (by simp)

theorem get_put4 (v : View) (i1 i2 i3 i4 idx : List Nat) (x1 x2 x3 x4 : Real)
    (ha : v.allocated = true) (hb : inBounds v.dims idx = true) :
    (put (put (put (put v i1 x1) i2 x2) i3 x3) i4 x4).get idx
      = some ((put (put (put (put v i1 x1) i2 x2) i3 x3) i4 x4).data idx) := by
  have h1 : (put (put (put (put v i1 x1) i2 x2) i3 x3) i4 x4).allocated = true := ha
  have h2 : (put (put (put (put v i1 x1) i2 x2) i3 x3) i4 x4).dims = v.dims := rfl
  simp [View.get, h1, h2, hb]

/-- One pass of the generator body, in closed form: `k` candidates are rejected, the
next one is accepted, written to `h_d`, and the `double` quotients of its adjugate by its
computed determinant are written to `h_dinv`. -/
theorem random_init_body_eq (rd : Nat → Real) (fuel ie igp jgp : Nat) (st st1 : GenState)
    (hP : Ready [2, 2] st.h_matrix) (h : random_init_body rd fuel ie igp jgp st = some st1) :
    ∃ k, k < fuel ∧ (∀ j, j < k → candDet rd (st.engine + 4 * j) ≤ 0) ∧
      0 < candDet rd (st.engine + 4 * k) ∧
      st1.engine = st.engine + 4 * k + 4 ∧
      st.h_d.allocated = true ∧
      (inBounds st.h_d.dims [ie, 0, 0, igp, jgp] = true ∧
       inBounds st.h_d.dims [ie, 0, 1, igp, jgp] = true ∧
       inBounds st.h_d.dims [ie, 1, 0, igp, jgp] = true ∧
       inBounds st.h_d.dims [ie, 1, 1, igp, jgp] = true) ∧
      st1.h_matrix = (genRandArray st.h_matrix rd (st.engine + 4 * k)).1 ∧
      st1.h_d = put (put (put (put st.h_d [ie, 0, 0, igp, jgp] (rd (st.engine + 4 * k)))
          [ie, 0, 1, igp, jgp] (rd (st.engine + 4 * k + 1)))
          [ie, 1, 0, igp, jgp] (rd (st.engine + 4 * k + 2)))
          [ie, 1, 1, igp, jgp] (rd (st.engine + 4 * k + 3)) ∧
      st1.h_dinv = put (put (put (put st.h_dinv [ie, 0, 0, igp, jgp]
            (fdiv (rd (st.engine + 4 * k + 3)) (candDet rd (st.engine + 4 * k))))
          [ie, 1, 0, igp, jgp]
            (fdiv (-rd (st.engine + 4 * k + 2)) (candDet rd (st.engine + 4 * k))))
          [ie, 0, 1, igp, jgp]
            (fdiv (-rd (st.engine + 4 * k + 1)) (candDet rd (st.engine + 4 * k))))
          [ie, 1, 1, igp, jgp]
            (fdiv (rd (st.engine + 4 * k)) (candDet rd (st.engine + 4 * k))) := by
  unfold random_init_body at h
  simp only [write_d_unroll] at h
  simp only [Option.bind_eq_bind, Option.bind_eq_some, Option.pure_def, Option.some.injEq] at h
  obtain ⟨r, hr, h_d, ⟨x00, hx00, d1, hd1, x01, hx01, d2, hd2, x10, hx10, d3, hd3, x11, hx11,
    hd4⟩, det, hdet, m11, h11, v1, hv1, m10, h10, v2, hv2, m01, h01, v3, hv3, m00, h00, v4, hv4,
    hst⟩ := h
  rw [do_while_spec rd fuel _ _ _ hP] at hr
  obtain ⟨k, hk, hrej, hpos, hr⟩ := hr
  subst hr
  obtain ⟨g1, g2, g3, g4, g5, g6⟩ := genRandArray_matrix rd st.h_matrix (st.engine + 4 * k) hP
  have b00 : inBounds [2, 2] [0, 0] = true := by decide
  have b01 : inBounds [2, 2] [0, 1] = true := by decide
  have b10 : inBounds [2, 2] [1, 0] = true := by decide
  have b11 : inBounds [2, 2] [1, 1] = true := by decide
  rw [get_ready _ _ _ g1 b00] at hx00 h00
  rw [get_ready _ _ _ g1 b01] at hx01 h01
  rw [get_ready _ _ _ g1 b10] at hx10 h10
  rw [get_ready _ _ _ g1 b11] at hx11 h11
  rw [compute_det_matrix rd _ _ hP] at hdet
  simp only [Option.some.injEq] at hx00 hx01 hx10 hx11 h00 h01 h10 h11 hdet
  rw [g3] at hx00 h00
  rw [g4] at hx01 h01
  rw [g5] at hx10 h10
  rw [g6] at hx11 h11
  subst hx00 hx01 hx10 hx11 h00 h01 h10 h11 hdet
  have e1 := set_eq_some _ _ _ _ hd1
  have e2 := set_eq_some _ _ _ _ hd2
  have e3 := set_eq_some _ _ _ _ hd3
  have e4 := set_eq_some _ _ _ _ hd4
  have f1 := set_eq_some _ _ _ _ hv1
  have f2 := set_eq_some _ _ _ _ hv2
  have f3 := set_eq_some _ _ _ _ hv3
  have f4 := set_eq_some _ _ _ _ hv4
  have o1 := set_ok _ _ _ _ hd1
  have o2 := (set_ok _ _ _ _ hd2).2
  have o3 := (set_ok _ _ _ _ hd3).2
  have o4 := (set_ok _ _ _ _ hd4).2
  subst e1 e2 e3 e4 f1 f2 f3 f4
  refine ⟨k, hk, hrej, hpos, ?_, o1.1, ⟨o1.2, o2, o3, o4⟩, ?_, ?_, ?_⟩ <;> rw [← hst]
  exact g2

theorem put_same (v : View) (idx : List Nat) (x : Real) : (put v idx x).data idx = x := by
  simp [put]

theorem put_other (v : View) (idx idx1 : List Nat) (x : Real) (h : idx1 ≠ idx) :
    (put v idx x).data idx1 = v.data idx1 := by
  simp [put, Function.update_noteq h]

/-- One pass of the generator body keeps the scratch matrix a 2x2 array, keeps what was
generated at every other grid point, and generates the current grid point. -/
theorem random_init_body_spec (rd : Nat → Real) (fuel ie igp jgp : Nat) (st st1 : GenState)
    (hP : Ready [2, 2] st.h_matrix) (h : random_init_body rd fuel ie igp jgp st = some st1) :
    Ready [2, 2] st1.h_matrix ∧
    (∀ k : Nat × Nat × Nat, GenAt rd st.h_d.data st.h_dinv.data k.1 k.2.1 k.2.2 →
      GenAt rd st1.h_d.data st1.h_dinv.data k.1 k.2.1 k.2.2) ∧
    GenAt rd st1.h_d.data st1.h_dinv.data ie igp jgp := by
  obtain ⟨k, _, _, hpos, _, _, _, hm, hd, hdinv⟩ :=
    random_init_body_eq rd fuel ie igp jgp st st1 hP h
  have hnew : GenAt rd st1.h_d.data st1.h_dinv.data ie igp jgp := by
    refine ⟨st.engine + 4 * k, hpos, ?_, ?_, ?_, ?_, ?_, ?_, ?_, ?_⟩
    · rw [hd, put_other _ _ _ _ (by simp), put_other _ _ _ _ (by simp),
        put_other _ _ _ _ (by simp), put_same]
    · rw [hd, put_other _ _ _ _ (by simp), put_other _ _ _ _ (by simp), put_same]
    · rw [hd, put_other _ _ _ _ (by simp), put_same]
    · rw [hd, put_same]
    · rw [hdinv, put_other _ _ _ _ (by simp), put_other _ _ _ _ (by simp),
        put_other _ _ _ _ (by simp), put_same]
    · rw [hdinv, put_other _ _ _ _ (by simp), put_other _ _ _ _ (by simp), put_same]
    · rw [hdinv, put_other _ _ _ _ (by simp), put_same]
    · rw [hdinv, put_same]
  refine ⟨?_, ?_, hnew⟩
  · rw [hm]; exact (genRandArray_matrix rd _ _ hP).1
  · rintro ⟨ie1, igp1, jgp1⟩ hk
    by_cases hc : ie1 = ie ∧ igp1 = igp ∧ jgp1 = jgp
    · obtain ⟨c1, c2, c3⟩ := hc
      subst c1 c2 c3
      exact hnew
    · obtain ⟨q, hq, q1, q2, q3, q4, q5, q6, q7, q8⟩ := hk
      refine ⟨q, hq, ?_, ?_, ?_, ?_, ?_, ?_, ?_, ?_⟩
      · rw [hd, put_frame _ _ _ _ _ _ _ _ _ _ _ _ hc, put_frame _ _ _ _ _ _ _ _ _ _ _ _ hc,
          put_frame _ _ _ _ _ _ _ _ _ _ _ _ hc, put_frame _ _ _ _ _ _ _ _ _ _ _ _ hc]
        exact q1
      · rw [hd, put_frame _ _ _ _ _ _ _ _ _ _ _ _ hc, put_frame _ _ _ _ _ _ _ _ _ _ _ _ hc,
          put_frame _ _ _ _ _ _ _ _ _ _ _ _ hc, put_frame _ _ _ _ _ _ _ _ _ _ _ _ hc]
        exact q2
      · rw [hd, put_frame _ _ _ _ _ _ _ _ _ _ _ _ hc, put_frame _ _ _ _ _ _ _ _ _ _ _ _ hc,
          put_frame _ _ _ _ _ _ _ _ _ _ _ _ hc, put_frame _ _ _ _ _ _ _ _ _ _ _ _ hc]
        exact q3
      · rw [hd, put_frame _ _ _ _ _ _ _ _ _ _ _ _ hc, put_frame _ _ _ _ _ _ _ _ _ _ _ _ hc,
          put_frame _ _ _ _ _ _ _ _ _ _ _ _ hc, put_frame _ _ _ _ _ _ _ _ _ _ _ _ hc]
        exact q4
      · rw [hdinv, put_frame _ _ _ _ _ _ _ _ _ _ _ _ hc, put_frame _ _ _ _ _ _ _ _ _ _ _ _ hc,
          put_frame _ _ _ _ _ _ _ _ _ _ _ _ hc, put_frame _ _ _ _ _ _ _ _ _ _ _ _ hc]
        exact q5
      · rw [hdinv, put_frame _ _ _ _ _ _ _ _ _ _ _ _ hc, put_frame _ _ _ _ _ _ _ _ _ _ _ _ hc,
          put_frame _ _ _ _ _ _ _ _ _ _ _ _ hc, put_frame _ _ _ _ _ _ _ _ _ _ _ _ hc]
        exact q6
      · rw [hdinv, put_frame _ _ _ _ _ _ _ _ _ _ _ _ hc, put_frame _ _ _ _ _ _ _ _ _ _ _ _ hc,
          put_frame _ _ _ _ _ _ _ _ _ _ _ _ hc, put_frame _ _ _ _ _ _ _ _ _ _ _ _ hc]
        exact q7
      · rw [hdinv, put_frame _ _ _ _ _ _ _ _ _ _ _ _ hc, put_frame _ _ _ _ _ _ _ _ _ _ _ _ hc,
          put_frame _ _ _ _ _ _ _ _ _ _ _ _ hc, put_frame _ _ _ _ _ _ _ _ _ _ _ _ hc]
        exact q8

/-- Loop rule for a counted loop that may abort: a state predicate `P` and a family of
facts `Q` kept by every pass, and a fact `G i` set up by pass `i` and kept by the
others, hold after the loop for every `i` below the bound. -/
theorem forRange_rule {σ κ : Type} (n : Nat) (body : Nat → σ → Option σ) (P : σ → Prop)
    (Q : κ → σ → Prop) (G : Nat → σ → Prop)
    (hbody : ∀ i s s1, P s → body i s = some s1 →
      P s1 ∧ (∀ k, Q k s → Q k s1) ∧ (∀ j, G j s → G j s1) ∧ G i s1)
    (s s1 : σ) (hs : P s) (h : forRange n body s = some s1) :
    P s1 ∧ (∀ k, Q k s → Q k s1) ∧ (∀ j, G j s → G j s1) ∧ ∀ i, i < n → G i s1 := by
  induction n generalizing s1 with
  | zero =>
    simp only [forRange, List.range_zero, List.foldlM_nil, Option.pure_def,
      Option.some.injEq] at h
    subst h
    exact ⟨hs, fun _ hk => hk, fun _ hj => hj, fun i hi => absurd hi (Nat.not_lt_zero i)⟩
  | succ n ih =>
    simp only [forRange, List.range_succ, List.foldlM_append, List.foldlM_cons,
      List.foldlM_nil, bind_pure, Option.bind_eq_bind, Option.bind_eq_some] at h
    obtain ⟨s2, h2, h3⟩ := h
    obtain ⟨p2, q2, g2, a2⟩ := ih s2 h2
    obtain ⟨p3, q3, g3, a3⟩ := hbody n s2 s1 p2 h3
    refine ⟨p3, fun k hk => q3 k (q2 k hk), fun j hj => g3 j (g2 j hj), ?_⟩
    intro i hi
    by_cases hin : i = n
    · subst hin; exact a3
    · exact g3 i (a2 i (by omega))

/-- The loop nest of the generator: if it returns, every element below `num_elems` and
every grid point has been generated. -/
theorem random_loops_spec (NP : Nat) (rd : Nat → Real) (fuel n : Nat) (st st1 : GenState)
    (hP : Ready [2, 2] st.h_matrix) (h : random_loops NP rd fuel n st = some st1) :
    ∀ ie igp jgp, ie < n → igp < NP → jgp < NP →
      GenAt rd st1.h_d.data st1.h_dinv.data ie igp jgp := by
  let P : GenState → Prop := fun s => Ready [2, 2] s.h_matrix
  let Q : Nat × Nat × Nat → GenState → Prop :=
    fun k s => GenAt rd s.h_d.data s.h_dinv.data k.1 k.2.1 k.2.2
  have inner : ∀ ie igp s s1, P s →
      forRange NP (fun jgp st => random_init_body rd fuel ie igp jgp st) s = some s1 →
      P s1 ∧ (∀ k, Q k s → Q k s1) ∧ ∀ jgp, jgp < NP → Q (ie, igp, jgp) s1 := by
    intro ie igp s s1 hs hl
    have := forRange_rule NP (fun jgp st => random_init_body rd fuel ie igp jgp st) P Q
      (fun jgp s => Q (ie, igp, jgp) s)
      (fun i a b ha hb => by
        obtain ⟨x1, x2, x3⟩ := random_init_body_spec rd fuel ie igp i a b ha hb
        exact ⟨x1, x2, fun j hj => x2 (ie, igp, j) hj, x3⟩) s s1 hs hl
    exact ⟨this.1, this.2.1, this.2.2.2⟩
  have middle : ∀ ie s s1, P s →
      forRange NP (fun igp st => forRange NP (fun jgp st =>
        random_init_body rd fuel ie igp jgp st) st) s = some s1 →
      P s1 ∧ (∀ k, Q k s → Q k s1) ∧ ∀ igp, igp < NP → ∀ jgp, jgp < NP → Q (ie, igp, jgp) s1 := by
    intro ie s s1 hs hl
    have := forRange_rule NP (fun igp st => forRange NP (fun jgp st =>
        random_init_body rd fuel ie igp jgp st) st) P Q
      (fun igp s => ∀ jgp, jgp < NP → Q (ie, igp, jgp) s)
      (fun i a b ha hb => by
        obtain ⟨x1, x2, x3⟩ := inner ie i a b ha hb
        exact ⟨x1, x2, fun j hj jgp hjgp => x2 (ie, j, jgp) (hj jgp hjgp), x3⟩) s s1 hs hl
    exact ⟨this.1, this.2.1, this.2.2.2⟩
  have outer := forRange_rule n (fun ie st => forRange NP (fun igp st =>
      forRange NP (fun jgp st => random_init_body rd fuel ie igp jgp st) st) st) P Q
    (fun ie s => ∀ igp, igp < NP → ∀ jgp, jgp < NP → Q (ie, igp, jgp) s)
    (fun i a b ha hb => by
      obtain ⟨x1, x2, x3⟩ := middle i a b ha hb
      exact ⟨x1, x2, fun j hj igp higp jgp hjgp => x2 (j, igp, jgp) (hj igp higp jgp hjgp),
        x3⟩) st st1 hP h
  intro ie igp jgp hie higp hjgp
  exact outer.2.2.2 ie hie igp higp jgp hjgp

theorem deep_copy_spec (dst src v : View) (h : deep_copy dst src = some v) :
    v.allocated = dst.allocated ∧ v.dims = dst.dims ∧
    ∀ idx, inBounds dst.dims idx = true → v.data idx = src.data idx := by
  unfold deep_copy at h
  split at h
  · have := Option.some.inj h
    subst this
    refine ⟨rfl, rfl, ?_⟩
    intro idx hb
    simp [hb]
  · exact absurd h (by simp)

theorem random_fields_frame (rd : Nat → Real) (s : ElementsGeometry) (e : Nat) :
    (random_fields rd s e).1.m_num_elems = s.m_num_elems ∧
    (random_fields rd s e).1.m_consthv = s.m_consthv ∧
    (random_fields rd s e).1.m_d = s.m_d ∧ (random_fields rd s e).1.m_dinv = s.m_dinv :=
  ⟨rfl, rfl, rfl, rfl⟩

theorem init_d (NP : Nat) (s0 : ElementsGeometry) (n : Nat) (c : Bool) :
    (s0.init NP n c).m_num_elems = n ∧ (s0.init NP n c).m_consthv = c ∧
    (s0.init NP n c).m_d = ExecViewManaged [2, 2, NP, NP] n ∧
    (s0.init NP n c).m_dinv = ExecViewManaged [2, 2, NP, NP] n := by
  cases c <;> simp [ElementsGeometry.init]

/-- The generator, decomposed: the allocation in constant-viscosity mode, the eight
filled members, the loop nest on the host mirrors and the two copies back. -/
theorem random_init_eq (NP : Nat) (rd : Nat → Real) (fuel : Nat) (s0 s : ElementsGeometry)
    (n : Nat) (h : s0.random_init NP rd fuel n = some s) :
    ∃ st m_d m_dinv,
      random_loops NP rd fuel n
        { h_matrix := HostViewManaged [2, 2],
          h_d := create_mirror_view (ExecViewManaged [2, 2, NP, NP] n),
          h_dinv := create_mirror_view (ExecViewManaged [2, 2, NP, NP] n),
          engine := (random_fields rd (s0.init NP n true) 0).2 } = some st ∧
      deep_copy (ExecViewManaged [2, 2, NP, NP] n) st.h_d = some m_d ∧
      deep_copy (ExecViewManaged [2, 2, NP, NP] n) st.h_dinv = some m_dinv ∧
      s = { (random_fields rd (s0.init NP n true) 0).1 with m_d := m_d, m_dinv := m_dinv } := by
  unfold ElementsGeometry.random_init at h
  obtain ⟨f1, _, f3, f4⟩ := random_fields_frame rd (s0.init NP n true) 0
  obtain ⟨i1, _, i3, i4⟩ := init_d NP s0 n true
  dsimp only at h
  simp only [Option.bind_eq_bind, Option.bind_eq_some, Option.pure_def, Option.some.injEq] at h
  obtain ⟨st, hst, m_d, hd, m_dinv, hdinv, hs⟩ := h
  rw [f1, f3, f4, i1, i3, i4] at hst
  rw [f3, i3] at hd
  rw [f4, i4] at hdinv
  exact ⟨st, m_d, m_dinv, hst, hd, hdinv, hs.symm⟩

/-- The generator, if it returns, leaves at every element below `num_elems` and every
grid point a matrix `D` of positive computed determinant made of four consecutive draws,
and in `Dinv` the `double` quotients of its adjugate by its computed determinant. -/
theorem random_init_spec (NP : Nat) (rd : Nat → Real) (fuel : Nat) (s0 s : ElementsGeometry)
    (n : Nat) (h : s0.random_init NP rd fuel n = some s) :
    Ready [n, 2, 2, NP, NP] s.m_d ∧ Ready [n, 2, 2, NP, NP] s.m_dinv ∧
    ∀ ie igp jgp, ie < n → igp < NP → jgp < NP →
      GenAt rd s.m_d.data s.m_dinv.data ie igp jgp := by
  obtain ⟨st, m_d, m_dinv, hst, hd, hdinv, hs⟩ := random_init_eq NP rd fuel s0 s n h
  obtain ⟨a1, a2, a3⟩ := deep_copy_spec _ _ _ hd
  obtain ⟨b1, b2, b3⟩ := deep_copy_spec _ _ _ hdinv
  have hg := random_loops_spec NP rd fuel n _ st (ready_hostView [2, 2]) hst
  subst hs
  refine ⟨⟨a1, a2⟩, ⟨b1, b2⟩, ?_⟩
  intro ie igp jgp hie higp hjgp
  obtain ⟨p, hp, q1, q2, q3, q4, q5, q6, q7, q8⟩ := hg ie igp jgp hie higp hjgp
  have hb : ∀ a b, a < 2 → b < 2 →
      inBounds (ExecViewManaged [2, 2, NP, NP] n).dims [ie, a, b, igp, jgp] = true := by
    intro a b ha hb
    simp [ExecViewManaged, inBounds, hie, ha, hb, higp, hjgp]
  refine ⟨p, hp, ?_, ?_, ?_, ?_, ?_, ?_, ?_, ?_⟩
  · exact (a3 _ (hb 0 0 (by decide) (by decide))).trans q1
  · exact (a3 _ (hb 0 1 (by decide) (by decide))).trans q2
  · exact (a3 _ (hb 1 0 (by decide) (by decide))).trans q3
  · exact (a3 _ (hb 1 1 (by decide) (by decide))).trans q4
  · exact (b3 _ (hb 0 0 (by decide) (by decide))).trans q5
  · exact (b3 _ (hb 1 0 (by decide) (by decide))).trans q6
  · exact (b3 _ (hb 0 1 (by decide) (by decide))).trans q7
  · exact (b3 _ (hb 1 1 (by decide) (by decide))).trans q8

/-- C1, instance: a two-element store with `NP = 4` and the flag false whose element 1
already holds the arrays `exArraysB`; element 1 is loaded again, with the identity for
`D` and twice the identity for `Dinv`, and reads back the new values. -/
theorem loader_round_trip_witness :
    AllocatedFor 4 2 false
      (loaded ((ElementsGeometry.fresh 4).init 4 2 false) 1 exArraysB false) ∧
    1 < 2 ∧
    ((ElementsGeometry.fresh 4).init 4 2 false).load 4 1 exArraysB false
      = some (loaded ((ElementsGeometry.fresh 4).init 4 2 false) 1 exArraysB false) ∧
    (loaded ((ElementsGeometry.fresh 4).init 4 2 false) 1 exArraysB false).m_fcor.get [1, 2, 3]
      = some 1123 ∧
    (loaded ((ElementsGeometry.fresh 4).init 4 2 false) 1 exArraysB false).m_d.get
      [1, 0, 0, 2, 3] = some 2 ∧
    ∃ s, (loaded ((ElementsGeometry.fresh 4).init 4 2 false) 1 exArraysB false).init_ie 4 1
        (some exIdentity) (some exDouble) (some (exField 1)) (some (exField 2))
        (some (exField 3)) (some (exField 4)) (some (exField 5)) (some (exField 6))
        (some (exField 7)) (some (exField 8)) false = some s ∧
      s.m_fcor.get [1, 2, 3] = some 123 ∧
      s.m_d.get [1, 0, 0, 2, 3] = some 1 ∧
      s.m_dinv.get [1, 0, 0, 2, 3] = some 2 ∧
      s.m_vec_sph2cart.get [1, 1, 2, 3, 0] = some 81230 := by
  have ha : AllocatedFor 4 2 false
      (loaded ((ElementsGeometry.fresh 4).init 4 2 false) 1 exArraysB false) :=
    loaded_allocatedFor 4 2 false _ 1 exArraysB (init_allocatedFor 4 _ 2 false)
  refine ⟨ha, by decide, load_eq 4 2 false _ 1 exArraysB (init_allocatedFor 4 _ 2 false)
    (by decide), by decide!, by decide!, ?_⟩
  obtain ⟨s, hs, h1, h2, h3⟩ := loader_round_trip 4 2 false
    (loaded ((ElementsGeometry.fresh 4).init 4 2 false) 1 exArraysB false) 1
    exIdentity exDouble (exField 1) (exField 2) (exField 3) (exField 4) (exField 5)
    (exField 6) (exField 7) (exField 8) ha (by decide)
  refine ⟨s, hs, ?_, ?_, ?_, ?_⟩
  · rw [(h1 2 3 (by decide) (by decide)).1]; simp [exField]
  · rw [(h2 0 0 2 3 (by decide) (by decide) (by decide) (by decide)).1]; simp [exIdentity]
  · rw [(h2 0 0 2 3 (by decide) (by decide) (by decide) (by decide)).2.1]; simp [exDouble]
  · rw [(h3 rfl).2 1 2 3 0 (by decide) (by decide) (by decide) (by decide)]; simp [exField]

/-- C5: allocation shapes and gating.  On a fresh store `init(num_elems, c)` records
`num_elems` and `c`, allocates the five scalar fields as `num_elems x NP x NP` and
`metinv`, `D`, `Dinv` as `num_elems x 2 x 2 x NP x NP`, and allocates the viscosity
tensor (`num_elems x 2 x 2 x NP x NP`) and the spherical-to-Cartesian transform
(`num_elems x 2 x 3 x NP x NP`) exactly when `c` is false, both or neither. -/
theorem init_shapes_and_gating (NP num_elems : Nat) (c : Bool) :
    ((ElementsGeometry.fresh NP).init NP num_elems c).m_num_elems = num_elems ∧
    ((ElementsGeometry.fresh NP).init NP num_elems c).m_consthv = c ∧
    ((ElementsGeometry.fresh NP).init NP num_elems c).m_fcor
      = ExecViewManaged [NP, NP] num_elems ∧
    ((ElementsGeometry.fresh NP).init NP num_elems c).m_spheremp
      = ExecViewManaged [NP, NP] num_elems ∧
    ((ElementsGeometry.fresh NP).init NP num_elems c).m_rspheremp
      = ExecViewManaged [NP, NP] num_elems ∧
    ((ElementsGeometry.fresh NP).init NP num_elems c).m_metdet
      = ExecViewManaged [NP, NP] num_elems ∧
    ((ElementsGeometry.fresh NP).init NP num_elems c).m_phis
      = ExecViewManaged [NP, NP] num_elems ∧
    ((ElementsGeometry.fresh NP).init NP num_elems c).m_metinv
      = ExecViewManaged [2, 2, NP, NP] num_elems ∧
    ((ElementsGeometry.fresh NP).init NP num_elems c).m_d
      = ExecViewManaged [2, 2, NP, NP] num_elems ∧
    ((ElementsGeometry.fresh NP).init NP num_elems c).m_dinv
      = ExecViewManaged [2, 2, NP, NP] num_elems ∧
    (ExecViewManaged [NP, NP] num_elems).allocated = true ∧
    (ExecViewManaged [NP, NP] num_elems).dims = [num_elems, NP, NP] ∧
    (ExecViewManaged [2, 2, NP, NP] num_elems).allocated = true ∧
    (ExecViewManaged [2, 2, NP, NP] num_elems).dims = [num_elems, 2, 2, NP, NP] ∧
    (((ElementsGeometry.fresh NP).init NP num_elems c).m_tensorvisc.allocated = true ↔
      c = false) ∧
    (((ElementsGeometry.fresh NP).init NP num_elems c).m_vec_sph2cart.allocated = true ↔
      c = false) ∧
    (c = false →
      ((ElementsGeometry.fresh NP).init NP num_elems c).m_tensorvisc.dims
        = [num_elems, 2, 2, NP, NP] ∧
      ((ElementsGeometry.fresh NP).init NP num_elems c).m_vec_sph2cart.dims
        = [num_elems, 2, 3, NP, NP]) := by
  cases c <;>
    simp [ElementsGeometry.init, ElementsGeometry.fresh, ExecViewManaged, View.null]

/-- C6, counterexample: after `init(5, false)` then `init(3, true)` the flag is true and
the mandatory arrays have three elements, yet both optional arrays are still allocated,
with five elements; the same call on a fresh store leaves them absent. -/
theorem reinit_keeps_stale_optional_fields :
    reinitExample.m_num_elems = 3 ∧ reinitExample.m_consthv = true ∧
    reinitExample.m_fcor.dims = [3, 4, 4] ∧
    reinitExample.m_tensorvisc.allocated = true ∧
    reinitExample.m_tensorvisc.dims = [5, 2, 2, 4, 4] ∧
    reinitExample.m_vec_sph2cart.allocated = true ∧
    reinitExample.m_vec_sph2cart.dims = [5, 2, 3, 4, 4] ∧
    ((ElementsGeometry.fresh 4).init 4 3 true).m_tensorvisc.allocated = false ∧
    ((ElementsGeometry.fresh 4).init 4 3 true).m_vec_sph2cart.allocated = false := by
  simp [reinitExample, ElementsGeometry.init, ElementsGeometry.fresh, ExecViewManaged,
    View.null]

/-- C6, amended: for every prior state, `init(num_elems, c)` records `num_elems` and `c`
and allocates the eight mandatory arrays anew with `num_elems` elements; when `c` is
false it also allocates both optional arrays anew with `num_elems` elements; when `c`
is true it leaves the optional arrays as they were.  The resulting state depends only
on `(num_elems, c)` and, when `c` is true, on the prior optional arrays. -/
theorem reinit_replaces_allocation (NP num_elems : Nat) (c : Bool) (s0 : ElementsGeometry) :
    (s0.init NP num_elems c).m_num_elems = num_elems ∧
    (s0.init NP num_elems c).m_consthv = c ∧
    (s0.init NP num_elems c).m_fcor = ExecViewManaged [NP, NP] num_elems ∧
    (s0.init NP num_elems c).m_spheremp = ExecViewManaged [NP, NP] num_elems ∧
    (s0.init NP num_elems c).m_rspheremp = ExecViewManaged [NP, NP] num_elems ∧
    (s0.init NP num_elems c).m_metdet = ExecViewManaged [NP, NP] num_elems ∧
    (s0.init NP num_elems c).m_phis = ExecViewManaged [NP, NP] num_elems ∧
    (s0.init NP num_elems c).m_metinv = ExecViewManaged [2, 2, NP, NP] num_elems ∧
    (s0.init NP num_elems c).m_d = ExecViewManaged [2, 2, NP, NP] num_elems ∧
    (s0.init NP num_elems c).m_dinv = ExecViewManaged [2, 2, NP, NP] num_elems ∧
    (c = false →
      (s0.init NP num_elems c).m_tensorvisc = ExecViewManaged [2, 2, NP, NP] num_elems ∧
      (s0.init NP num_elems c).m_vec_sph2cart = ExecViewManaged [2, 3, NP, NP] num_elems) ∧
    (c = true →
      (s0.init NP num_elems c).m_tensorvisc = s0.m_tensorvisc ∧
      (s0.init NP num_elems c).m_vec_sph2cart = s0.m_vec_sph2cart) ∧
    (∀ s1 : ElementsGeometry,
      (c = true → s1.m_tensorvisc = s0.m_tensorvisc ∧ s1.m_vec_sph2cart = s0.m_vec_sph2cart) →
      s1.init NP num_elems c = s0.init NP num_elems c) := by
  cases c
  · simp [ElementsGeometry.init]
  · simp only [ElementsGeometry.init, Bool.not_true, Bool.false_eq_true, if_false, true_and,
      and_self, false_implies, true_implies, forall_const]
    refine ⟨fun hc => absurd hc (by decide), ?_⟩
    intro s1 h
    rw [h.1, h.2]

/-- C8, counterexample: the store left by `init(5, false)` followed by `init(3, true)`,
with `NP = 4`.  The loader called on it in constant-viscosity mode with null optional
pointers succeeds, and in the result both optional fields are allocated, with five
elements: they are not absent. -/
theorem loader_keeps_stale_optional_fields :
    reinitExample = ((ElementsGeometry.fresh 4).init 4 5 false).init 4 3 true ∧
    ∃ s, reinitExample.init_ie 4 2 (some exIdentity) (some exDouble) (some (exField 1))
        (some (exField 2)) (some (exField 3)) (some (exField 4)) (some (exField 5))
        (some (exField 6)) none none true = some s ∧
      s.m_consthv = true ∧
      s.m_tensorvisc.allocated = true ∧ s.m_tensorvisc.dims = [5, 2, 2, 4, 4] ∧
      s.m_vec_sph2cart.allocated = true ∧ s.m_vec_sph2cart.dims = [5, 2, 3, 4, 4] := by
  refine ⟨rfl, _, init_ie_true 4 3 reinitExample 2 exIdentity exDouble (exField 1) (exField 2)
    (exField 3) (exField 4) (exField 5) (exField 6) none none
    (init_mandatory 4 _ 3 true) (by decide), ?_⟩
  simp [loadMandatory, reinitExample, ElementsGeometry.init, ElementsGeometry.fresh,
    ExecViewManaged, View.null]

/-- C8, amended: in constant-viscosity mode the loader neither reads the optional
external arrays nor writes the optional store fields.  On every store whose mandatory
views are allocated for `n` elements, as `init(n, true)` allocates them from any prior
state, and for `ie < n`, the call with the flag true and null `tensorvisc` and
`vec_sph2cart` succeeds, the call with any other values of the two pointers gives the
same result, and in the result both optional fields are exactly what they were before
the call: absent if they were absent, still allocated if an earlier `init(m, false)`
had allocated them. -/
theorem loader_const_viscosity_ignores_optional (NP n ie : Nat) (s0 : ElementsGeometry)
    (D Dinv fcor spheremp rspheremp metdet metinv phis : List Nat → Real)
    (tensorvisc vec_sph2cart : CF90Ptr) (hs : Mandatory NP n s0) (hie : ie < n) :
    ∃ s, s0.init_ie NP ie (some D) (some Dinv)
        (some fcor) (some spheremp) (some rspheremp) (some metdet) (some metinv) (some phis)
        none none true = some s ∧
      s0.init_ie NP ie (some D) (some Dinv)
        (some fcor) (some spheremp) (some rspheremp) (some metdet) (some metinv) (some phis)
        tensorvisc vec_sph2cart true = some s ∧
      s.m_tensorvisc = s0.m_tensorvisc ∧ s.m_vec_sph2cart = s0.m_vec_sph2cart ∧
      (s.m_tensorvisc.allocated = false ↔ s0.m_tensorvisc.allocated = false) ∧
      (s.m_vec_sph2cart.allocated = false ↔ s0.m_vec_sph2cart.allocated = false) :=
  ⟨_, init_ie_true NP n _ ie D Dinv fcor spheremp rspheremp metdet metinv phis none
    none hs hie, init_ie_true NP n _ ie D Dinv fcor spheremp rspheremp metdet metinv phis
    tensorvisc vec_sph2cart hs hie, rfl, rfl, Iff.rfl, Iff.rfl⟩

/-- C8, instance: element 2 of a three-element store with `NP = 4` allocated in
constant-viscosity mode on a fresh store, the optional pointers null in one call and
non-null in the other; the optional fields were absent and remain so. -/
theorem loader_const_viscosity_ignores_optional_witness :
    Mandatory 4 3 ((ElementsGeometry.fresh 4).init 4 3 true) ∧ 2 < 3 ∧
    ∃ s, ((ElementsGeometry.fresh 4).init 4 3 true).init_ie 4 2 (some exIdentity)
        (some exDouble) (some (exField 1)) (some (exField 2)) (some (exField 3))
        (some (exField 4)) (some (exField 5)) (some (exField 6)) none none true = some s ∧
      ((ElementsGeometry.fresh 4).init 4 3 true).init_ie 4 2 (some exIdentity)
        (some exDouble) (some (exField 1)) (some (exField 2)) (some (exField 3))
        (some (exField 4)) (some (exField 5)) (some (exField 6)) (some (exField 7))
        (some (exField 8)) true = some s ∧
      s.m_tensorvisc.allocated = false ∧ s.m_vec_sph2cart.allocated = false := by
  have hm := init_mandatory 4 (ElementsGeometry.fresh 4) 3 true
  refine ⟨hm, by decide, ?_⟩
  obtain ⟨s, h1, h2, h3, h4, _⟩ := loader_const_viscosity_ignores_optional 4 3 2
    ((ElementsGeometry.fresh 4).init 4 3 true) exIdentity
    exDouble (exField 1) (exField 2) (exField 3) (exField 4) (exField 5) (exField 6)
    (some (exField 7)) (some (exField 8)) hm (by decide)
  refine ⟨s, h1, h2, ?_, ?_⟩
  · rw [h3]; rfl
  · rw [h4]; rfl

theorem fdet2_candidate (rd : Nat → Real) (p : Nat) :
    fdet2 (candidate rd p) = candDet rd p := rfl

/-- A matrix whose computed determinant is positive has a positive exact determinant:
rounding to nearest is monotone. -/
theorem fdet2_pos_exact (m : Mat2) (h : 0 < fdet2 m) : 0 < det2 m := by
  unfold fdet2 fsub at h
  have h1 : 0 < fmul m.m00 m.m11 - fmul m.m01 m.m10 := (fl_pos_iff _).1 h
  have h2 : fl (m.m01 * m.m10) < fl (m.m00 * m.m11) := by
    unfold fmul at h1
    linarith
  have h3 : m.m01 * m.m10 < m.m00 * m.m11 := by
    by_contra hc
    exact absurd h2 (not_lt.mpr (fl_mono _ _ (not_lt.mp hc)))
  unfold det2
  linarith

theorem mul2_adjOverDet (m : Mat2) (h : det2 m ≠ 0) :
    mul2 m (adjOverDet m) = one2 ∧ mul2 (adjOverDet m) m = one2 := by
  have h2 : m.m00 * m.m11 - m.m01 * m.m10 ≠ 0 := h
  constructor
  · simp only [mul2, adjOverDet, one2, det2, Mat2.mk.injEq]
    refine ⟨?_, ?_, ?_, ?_⟩ <;> field_simp <;> ring
  · simp only [mul2, adjOverDet, one2, det2, Mat2.mk.injEq]
    refine ⟨?_, ?_, ?_, ?_⟩ <;> field_simp <;> ring

theorem entries_of_data (n NP : Nat) (v : View) (ie igp jgp : Nat) (hv : Ready [n, 2, 2, NP, NP] v)
    (hie : ie < n) (higp : igp < NP) (hjgp : jgp < NP) :
    entries v ie igp jgp = some
      { m00 := v.data [ie, 0, 0, igp, jgp], m01 := v.data [ie, 0, 1, igp, jgp],
        m10 := v.data [ie, 1, 0, igp, jgp], m11 := v.data [ie, 1, 1, igp, jgp] } := by
  have hb : ∀ a b, a < 2 → b < 2 → inBounds [n, 2, 2, NP, NP] [ie, a, b, igp, jgp] = true := by
    intro a b ha hb
    simp [inBounds, hie, ha, hb, higp, hjgp]
  simp [entries, get_ready _ _ _ hv (hb 0 0 (by decide) (by decide)),
    get_ready _ _ _ hv (hb 0 1 (by decide) (by decide)),
    get_ready _ _ _ hv (hb 1 0 (by decide) (by decide)),
    get_ready _ _ _ hv (hb 1 1 (by decide) (by decide))]

/-- The generator, if it returns, leaves at every element and grid point a candidate
matrix of positive computed determinant in `D`, and in `Dinv` the inverse the code
computes for it. -/
theorem random_init_entries (NP : Nat) (rd : Nat → Real) (fuel : Nat) (s0 s : ElementsGeometry)
    (n : Nat) (h : s0.random_init NP rd fuel n = some s) (ie igp jgp : Nat) (hie : ie < n)
    (higp : igp < NP) (hjgp : jgp < NP) :
    ∃ p, 0 < fdet2 (candidate rd p) ∧
      entries s.m_d ie igp jgp = some (candidate rd p) ∧
      entries s.m_dinv ie igp jgp = some (flInverse (candidate rd p)) := by
  obtain ⟨r1, r2, r3⟩ := random_init_spec NP rd fuel s0 s n h
  obtain ⟨p, hp, q1, q2, q3, q4, q5, q6, q7, q8⟩ := r3 ie igp jgp hie higp hjgp
  refine ⟨p, hp, ?_, ?_⟩
  · rw [entries_of_data n NP _ ie igp jgp r1 hie higp hjgp, q1, q2, q3, q4]
    rfl
  · rw [entries_of_data n NP _ ie igp jgp r2 hie higp hjgp, q5, q6, q7, q8]
    rfl

/-- C3: positive orientation of the generator.  For every stream of draws and every
fuel on which `random_init` returns, the matrix stored in `D` at every element
`ie < num_elems` and grid point has a strictly positive determinant. -/
theorem generator_positive_orientation (NP : Nat) (rd : Nat → Real) (fuel : Nat)
    (s0 s : ElementsGeometry) (num_elems : Nat)
    (h : s0.random_init NP rd fuel num_elems = some s) :
    ∀ ie igp jgp, ie < num_elems → igp < NP → jgp < NP →
      ∃ d, entries s.m_d ie igp jgp = some d ∧ 0 < d.m00 * d.m11 - d.m01 * d.m10 := by
  intro ie igp jgp hie higp hjgp
  obtain ⟨p, hp, hd, _⟩ := random_init_entries NP rd fuel s0 s num_elems h ie igp jgp hie
    higp hjgp
  exact ⟨_, hd, fdet2_pos_exact _ hp⟩

/-- C3, instance: one element with `NP = 1` on the stream `exDraws`; the candidates of
determinants `-1` and `0` are rejected and `(2,3,1,2)`, of determinant `1`, is stored. -/
theorem generator_positive_orientation_witness :
    ∃ s, (ElementsGeometry.fresh 1).random_init 1 exDraws 3 1 = some s ∧
      ∀ ie igp jgp, ie < 1 → igp < 1 → jgp < 1 →
        ∃ d, entries s.m_d ie igp jgp = some d ∧ 0 < d.m00 * d.m11 - d.m01 * d.m10 := by
  have h : ((ElementsGeometry.fresh 1).random_init 1 exDraws 3 1).isSome = true := by decide!
  obtain ⟨s, hs⟩ := Option.isSome_iff_exists.mp h
  exact ⟨s, hs, generator_positive_orientation 1 exDraws 3 (ElementsGeometry.fresh 1) s 1 hs⟩

theorem genRandArray_allocated (v : View) (rd : Nat → Real) (e : Nat) :
    (genRandArray v rd e).1.allocated = v.allocated := by
  unfold genRandArray
  cases ha : v.allocated <;> simp [ha]

theorem genRandArray_dims (v : View) (rd : Nat → Real) (e : Nat) :
    (genRandArray v rd e).1.dims = v.dims := by
  unfold genRandArray
  cases ha : v.allocated <;> simp

/-- C4, the code at `num_elems = 4`, `NP = 4` on a fresh store: `random_init` returns a
store whose flag is true and whose two optional fields are not allocated. -/
theorem random_init_allocates_const_viscosity :
    ∃ s, (ElementsGeometry.fresh 4).random_init 4 exDraws 3 4 = some s ∧
      s.m_num_elems = 4 ∧ s.m_consthv = true ∧
      s.m_tensorvisc.allocated = false ∧ s.m_vec_sph2cart.allocated = false ∧
      s.m_fcor.dims = [4, 4, 4] ∧ s.m_d.dims = [4, 2, 2, 4, 4] := by
  have h : ((ElementsGeometry.fresh 4).random_init 4 exDraws 3 4).isSome = true := by decide!
  obtain ⟨s, hs⟩ := Option.isSome_iff_exists.mp h
  obtain ⟨st, m_d, m_dinv, _, hd, _, e⟩ :=
    random_init_eq 4 exDraws 3 (ElementsGeometry.fresh 4) s 4 hs
  obtain ⟨_, d2, _⟩ := deep_copy_spec _ _ _ hd
  refine ⟨s, hs, ?_⟩
  subst e
  refine ⟨rfl, rfl, ?_, ?_, ?_, d2⟩
  · exact genRandArray_allocated _ _ _
  · exact genRandArray_allocated _ _ _
  · exact genRandArray_dims _ _ _

theorem genRandArray_get (v : View) (rd : Nat → Real) (e : Nat) (idx : List Nat) (x : Real)
    (h : (genRandArray v rd e).1.get idx = some x) : ∃ k, x = rd k := by
  unfold View.get at h
  rw [genRandArray_allocated, genRandArray_dims] at h
  split at h
  · rename_i hc
    simp only [Bool.and_eq_true] at hc
    have hx := (Option.some.inj h).symm
    refine ⟨e + offset v.dims idx, ?_⟩
    rw [hx]
    simp [genRandArray, hc.1, hc.2]
  · exact absurd h (by simp)

theorem genRandArray_get_ready (ds : List Nat) (v : View) (rd : Nat → Real) (e : Nat)
    (idx : List Nat) (hv : Ready ds v) (hb : inBounds ds idx = true) :
    ∃ k, (genRandArray v rd e).1.get idx = some (rd k) := by
  obtain ⟨h1, h2⟩ := hv
  refine ⟨e + offset ds idx, ?_⟩
  simp [View.get, genRandArray, h1, h2, hb]

/-- Every entry of the eight members filled by the generator is a value drawn from the
random source; the six mandatory ones have an entry at every element and grid point. -/
theorem random_init_draws (NP : Nat) (rd : Nat → Real) (fuel : Nat) (s0 s : ElementsGeometry)
    (n : Nat) (h : s0.random_init NP rd fuel n = some s) :
    (∀ ie i j, ie < n → i < NP → j < NP →
      (∃ k, s.m_fcor.get [ie, i, j] = some (rd k)) ∧
      (∃ k, s.m_spheremp.get [ie, i, j] = some (rd k)) ∧
      (∃ k, s.m_rspheremp.get [ie, i, j] = some (rd k)) ∧
      (∃ k, s.m_metdet.get [ie, i, j] = some (rd k)) ∧
      (∃ k, s.m_phis.get [ie, i, j] = some (rd k))) ∧
    (∀ ie a b i j, ie < n → a < 2 → b < 2 → i < NP → j < NP →
      ∃ k, s.m_metinv.get [ie, a, b, i, j] = some (rd k)) ∧
    (∀ idx x, s.m_tensorvisc.get idx = some x → ∃ k, x = rd k) ∧
    (∀ idx x, s.m_vec_sph2cart.get idx = some x → ∃ k, x = rd k) := by
  obtain ⟨st, m_d, m_dinv, _, _, _, e⟩ := random_init_eq NP rd fuel s0 s n h
  obtain ⟨h1, h2, h3, h4, h5, h6, _, _⟩ := init_mandatory NP s0 n true
  subst e
  refine ⟨?_, ?_, ?_, ?_⟩
  · intro ie i j hie hi hj
    have hb : inBounds [n, NP, NP] [ie, i, j] = true := by simp [inBounds, hie, hi, hj]
    exact ⟨genRandArray_get_ready _ _ rd _ _ h1 hb, genRandArray_get_ready _ _ rd _ _ h2 hb,
      genRandArray_get_ready _ _ rd _ _ h3 hb, genRandArray_get_ready _ _ rd _ _ h4 hb,
      genRandArray_get_ready _ _ rd _ _ h5 hb⟩
  · intro ie a b i j hie ha hb hi hj
    have hb : inBounds [n, 2, 2, NP, NP] [ie, a, b, i, j] = true := by
      simp [inBounds, hie, ha, hb, hi, hj]
    exact genRandArray_get_ready _ _ rd _ _ h6 hb
  · intro idx x hx
    exact genRandArray_get _ rd _ idx x hx
  · intro idx x hx
    exact genRandArray_get _ rd _ idx x hx

/-- With every draw in `[1/64, 64]`, the generator, if it returns, leaves a value in
`[1/64, 64]` at every element and grid point of the five scalar fields and of `metinv`,
and every entry that the two optional views have, if any, is in `[1/64, 64]`. -/
theorem random_init_range (NP : Nat) (rd : Nat → Real) (fuel : Nat)
    (s0 s : ElementsGeometry) (num_elems : Nat)
    (hrd : ∀ k, 1 / 64 ≤ rd k ∧ rd k ≤ 64)
    (h : s0.random_init NP rd fuel num_elems = some s) :
    (∀ ie i j, ie < num_elems → i < NP → j < NP →
      (∃ x, s.m_fcor.get [ie, i, j] = some x ∧ 1 / 64 ≤ x ∧ x ≤ 64) ∧
      (∃ x, s.m_spheremp.get [ie, i, j] = some x ∧ 1 / 64 ≤ x ∧ x ≤ 64) ∧
      (∃ x, s.m_rspheremp.get [ie, i, j] = some x ∧ 1 / 64 ≤ x ∧ x ≤ 64) ∧
      (∃ x, s.m_metdet.get [ie, i, j] = some x ∧ 1 / 64 ≤ x ∧ x ≤ 64) ∧
      (∃ x, s.m_phis.get [ie, i, j] = some x ∧ 1 / 64 ≤ x ∧ x ≤ 64)) ∧
    (∀ ie a b i j, ie < num_elems → a < 2 → b < 2 → i < NP → j < NP →
      ∃ x, s.m_metinv.get [ie, a, b, i, j] = some x ∧ 1 / 64 ≤ x ∧ x ≤ 64) ∧
    (∀ idx x, s.m_tensorvisc.get idx = some x → 1 / 64 ≤ x ∧ x ≤ 64) ∧
    (∀ idx x, s.m_vec_sph2cart.get idx = some x → 1 / 64 ≤ x ∧ x ≤ 64) := by
  obtain ⟨d1, d2, d3, d4⟩ := random_init_draws NP rd fuel s0 s num_elems h
  refine ⟨?_, ?_, ?_, ?_⟩
  · intro ie i j hie hi hj
    obtain ⟨⟨k1, e1⟩, ⟨k2, e2⟩, ⟨k3, e3⟩, ⟨k4, e4⟩, ⟨k5, e5⟩⟩ := d1 ie i j hie hi hj
    exact ⟨⟨_, e1, hrd k1⟩, ⟨_, e2, hrd k2⟩, ⟨_, e3, hrd k3⟩, ⟨_, e4, hrd k4⟩, ⟨_, e5, hrd k5⟩⟩
  · intro ie a b i j hie ha hb hi hj
    obtain ⟨k, e⟩ := d2 ie a b i j hie ha hb hi hj
    exact ⟨_, e, hrd k⟩
  · intro idx x hx
    obtain ⟨k, e⟩ := d3 idx x hx
    rw [e]; exact hrd k
  · intro idx x hx
    obtain ⟨k, e⟩ := d4 idx x hx
    rw [e]; exact hrd k

theorem exDraws_range (k : Nat) : 1 / 64 ≤ exDraws k ∧ exDraws k ≤ 64 := by
  have hk : k % 12 < 12 := Nat.mod_lt k (by decide)
  unfold exDraws
  generalize k % 12 = r at hk
  interval_cases r <;> simp <;> norm_num

/-- C9, the code on a fresh store: with every draw in `[1/64, 64]`, if
`random_init(num_elems)` returns, then the five scalar fields and `metinv` hold a value
in `[1/64, 64]` at every element and grid point, but the viscosity tensor and the
spherical-to-Cartesian transform are not allocated and have no entry at all, at any
index: the generator allocates the store with `init(num_elems, true)`. -/
theorem generator_fills_no_optional_field (NP : Nat) (rd : Nat → Real) (fuel : Nat)
    (s : ElementsGeometry) (num_elems : Nat)
    (hrd : ∀ k, 1 / 64 ≤ rd k ∧ rd k ≤ 64)
    (h : (ElementsGeometry.fresh NP).random_init NP rd fuel num_elems = some s) :
    (∀ ie i j, ie < num_elems → i < NP → j < NP →
      (∃ x, s.m_fcor.get [ie, i, j] = some x ∧ 1 / 64 ≤ x ∧ x ≤ 64) ∧
      (∃ x, s.m_spheremp.get [ie, i, j] = some x ∧ 1 / 64 ≤ x ∧ x ≤ 64) ∧
      (∃ x, s.m_rspheremp.get [ie, i, j] = some x ∧ 1 / 64 ≤ x ∧ x ≤ 64) ∧
      (∃ x, s.m_metdet.get [ie, i, j] = some x ∧ 1 / 64 ≤ x ∧ x ≤ 64) ∧
      (∃ x, s.m_phis.get [ie, i, j] = some x ∧ 1 / 64 ≤ x ∧ x ≤ 64)) ∧
    (∀ ie a b i j, ie < num_elems → a < 2 → b < 2 → i < NP → j < NP →
      ∃ x, s.m_metinv.get [ie, a, b, i, j] = some x ∧ 1 / 64 ≤ x ∧ x ≤ 64) ∧
    s.m_consthv = true ∧
    s.m_tensorvisc.allocated = false ∧ s.m_vec_sph2cart.allocated = false ∧
    (∀ idx, s.m_tensorvisc.get idx = none) ∧ (∀ idx, s.m_vec_sph2cart.get idx = none) := by
  obtain ⟨c1, c2, _, _⟩ := random_init_range NP rd fuel (ElementsGeometry.fresh NP) s
    num_elems hrd h
  obtain ⟨st, m_d, m_dinv, _, _, _, e⟩ :=
    random_init_eq NP rd fuel (ElementsGeometry.fresh NP) s num_elems h
  have t1 : s.m_tensorvisc.allocated = false := by
    subst e
    exact genRandArray_allocated _ _ _
  have t2 : s.m_vec_sph2cart.allocated = false := by
    subst e
    exact genRandArray_allocated _ _ _
  have t0 : s.m_consthv = true := by
    subst e
    rfl
  refine ⟨c1, c2, t0, t1, t2, ?_, ?_⟩
  · intro idx
    simp [View.get, t1]
  · intro idx
    simp [View.get, t2]

/-- C9, instance: two elements with `NP = 2` on the stream `exDraws`, whose values are
1, 2 and 3, on a fresh store. -/
theorem generator_fills_no_optional_field_witness :
    (∀ k, 1 / 64 ≤ exDraws k ∧ exDraws k ≤ 64) ∧
    ∃ s, (ElementsGeometry.fresh 2).random_init 2 exDraws 3 2 = some s ∧
      (∀ ie i j, ie < 2 → i < 2 → j < 2 →
        ∃ x, s.m_fcor.get [ie, i, j] = some x ∧ 1 / 64 ≤ x ∧ x ≤ 64) ∧
      (∀ ie a b i j, ie < 2 → a < 2 → b < 2 → i < 2 → j < 2 →
        ∃ x, s.m_metinv.get [ie, a, b, i, j] = some x ∧ 1 / 64 ≤ x ∧ x ≤ 64) ∧
      s.m_tensorvisc.get [0, 0, 0, 0, 0] = none ∧
      s.m_vec_sph2cart.get [1, 1, 2, 1, 1] = none := by
  have h : ((ElementsGeometry.fresh 2).random_init 2 exDraws 3 2).isSome = true := by decide!
  obtain ⟨s, hs⟩ := Option.isSome_iff_exists.mp h
  obtain ⟨c1, c2, _, _, _, c6, c7⟩ := generator_fills_no_optional_field 2 exDraws 3 s 2
    exDraws_range hs
  exact ⟨exDraws_range, s, hs, fun ie i j hie hi hj => (c1 ie i j hie hi hj).1, c2, c6 _, c7 _⟩

theorem exTiny_double (k : Nat) : fl (exTiny k) = exTiny k := by
  have hk : k % 4 < 4 := Nat.mod_lt k (by decide)
  unfold exTiny
  generalize k % 4 = r at hk
  interval_cases r <;> decide!

theorem exTiny_range (k : Nat) : 1 / 64 ≤ exTiny k ∧ exTiny k ≤ 64 := by
  have hk : k % 4 < 4 := Nat.mod_lt k (by decide)
  unfold exTiny
  generalize k % 4 = r at hk
  interval_cases r <;> simp <;> norm_num

theorem exTiny_period (k : Nat) :
    exTiny (0 + 4 * k) = 1 + 1 / 2 ^ 27 ∧ exTiny (0 + 4 * k + 1) = 1 ∧
    exTiny (0 + 4 * k + 2) = 1 + 1 / 2 ^ 26 ∧ exTiny (0 + 4 * k + 3) = 1 + 1 / 2 ^ 27 := by
  have h0 : (0 + 4 * k) % 4 = 0 := by omega
  have h1 : (0 + 4 * k + 1) % 4 = 1 := by omega
  have h2 : (0 + 4 * k + 2) % 4 = 2 := by omega
  have h3 : (0 + 4 * k + 3) % 4 = 3 := by omega
  unfold exTiny
  rw [h0, h1, h2, h3]
  simp

/-- C10, counterexample: on the stream `exTiny`, whose values are `double` numbers in
`[1/64, 64]`, every candidate has the positive exact determinant `2^-54`, yet the
determinant the code computes is `0` each time, every candidate is rejected and the
loop does not return, whatever the fuel. -/
theorem rejection_of_positive_determinants :
    (∀ k, fl (exTiny k) = exTiny k) ∧ (∀ k, 1 / 64 ≤ exTiny k ∧ exTiny k ≤ 64) ∧
    (∀ k, det2 (candidate exTiny (0 + 4 * k)) = 1 / 2 ^ 54) ∧
    (∀ k, compute_det (genRandArray (HostViewManaged [2, 2]) exTiny (0 + 4 * k)).1 = some 0) ∧
    (∀ fuel, do_while exTiny fuel (HostViewManaged [2, 2]) 0 = none) := by
  have hc : ∀ k, candDet exTiny (0 + 4 * k) = 0 := by
    intro k
    obtain ⟨e0, e1, e2, e3⟩ := exTiny_period k
    unfold candDet
    rw [e0, e1, e2, e3]
    decide!
  refine ⟨exTiny_double, exTiny_range, ?_, ?_, ?_⟩
  · intro k
    obtain ⟨e0, e1, e2, e3⟩ := exTiny_period k
    unfold det2 candidate
    simp only [e0, e1, e2, e3]
    norm_num
  · intro k
    rw [compute_det_matrix exTiny _ _ (ready_hostView [2, 2]), hc]
  · intro fuel
    cases hr : do_while exTiny fuel (HostViewManaged [2, 2]) 0 with
    | none => rfl
    | some r =>
      exfalso
      obtain ⟨k, _, _, hpos, _⟩ :=
        (do_while_spec exTiny fuel _ 0 r (ready_hostView [2, 2])).1 hr
      rw [hc] at hpos
      exact lt_irrefl _ hpos

/-- C10, amended: rejection sampling in the generator, on the determinant as the code
computes it.  With a 2x2 scratch matrix and the engine at position `st.engine`,
candidate number `j` (counted from 0) is made of the four draws from position
`st.engine + 4 * j`, and its computed determinant is the value `compute_det` returns
for it in `double` arithmetic, `fl(fl(m00*m11) - fl(m01*m10))`.  (1) Drawing a candidate
takes four values, and the determinant tested is the computed one.  (2) The loop, run
with fuel `fuel`, returns exactly when some candidate `k < fuel` has a positive computed
determinant and all candidates before it have a computed determinant `<= 0`; it returns
that candidate, and the engine has then delivered `k + 1` candidates.  (3) Without a
cap, the loop terminates if and only if some candidate has a positive computed
determinant.  (4) The body of the grid-point loop stores that first accepted candidate
as `D`.  (5) An accepted candidate has a positive exact determinant as well; a
candidate of positive exact determinant need not be accepted. -/
theorem rejection_sampling (rd : Nat → Real) (fuel ie igp jgp : Nat) (st : GenState)
    (hh : Ready [2, 2] st.h_matrix) :
    (∀ p, (genRandArray st.h_matrix rd p).2 = p + 4 ∧
      compute_det (genRandArray st.h_matrix rd p).1 = some (fdet2 (candidate rd p)) ∧
      (genRandArray st.h_matrix rd p).1.get [0, 0] = some (candidate rd p).m00 ∧
      (genRandArray st.h_matrix rd p).1.get [0, 1] = some (candidate rd p).m01 ∧
      (genRandArray st.h_matrix rd p).1.get [1, 0] = some (candidate rd p).m10 ∧
      (genRandArray st.h_matrix rd p).1.get [1, 1] = some (candidate rd p).m11) ∧
    (∀ r, do_while rd fuel st.h_matrix st.engine = some r ↔
      ∃ k, k < fuel ∧ (∀ j, j < k → fdet2 (candidate rd (st.engine + 4 * j)) ≤ 0) ∧
        0 < fdet2 (candidate rd (st.engine + 4 * k)) ∧
        r = ((genRandArray st.h_matrix rd (st.engine + 4 * k)).1, st.engine + 4 * (k + 1))) ∧
    ((∃ fuel1 r, do_while rd fuel1 st.h_matrix st.engine = some r) ↔
      ∃ k, 0 < fdet2 (candidate rd (st.engine + 4 * k))) ∧
    (∀ st1, random_init_body rd fuel ie igp jgp st = some st1 →
      ∃ k, k < fuel ∧ (∀ j, j < k → fdet2 (candidate rd (st.engine + 4 * j)) ≤ 0) ∧
        0 < fdet2 (candidate rd (st.engine + 4 * k)) ∧
        entries st1.h_d ie igp jgp = some (candidate rd (st.engine + 4 * k)) ∧
        st1.engine = st.engine + 4 * (k + 1)) ∧
    (∀ p, 0 < fdet2 (candidate rd p) → 0 < det2 (candidate rd p)) := by
  have hsnd : ∀ p, (genRandArray st.h_matrix rd p).2 = p + 4 :=
    fun p => (genRandArray_matrix rd st.h_matrix p hh).2.1
  have hspec : ∀ fuel1 r, do_while rd fuel1 st.h_matrix st.engine = some r ↔
      ∃ k, k < fuel1 ∧ (∀ j, j < k → fdet2 (candidate rd (st.engine + 4 * j)) ≤ 0) ∧
        0 < fdet2 (candidate rd (st.engine + 4 * k)) ∧
        r = ((genRandArray st.h_matrix rd (st.engine + 4 * k)).1,
          st.engine + 4 * (k + 1)) := by
    intro fuel1 r
    rw [do_while_spec rd fuel1 st.h_matrix st.engine r hh]
    simp only [fdet2_candidate]
    constructor
    · rintro ⟨k, h1, h2, h3, h4⟩
      refine ⟨k, h1, h2, h3, ?_⟩
      rw [h4]
      refine Prod.ext rfl ?_
      show (genRandArray st.h_matrix rd (st.engine + 4 * k)).2 = st.engine + 4 * (k + 1)
      rw [hsnd]; ring
    · rintro ⟨k, h1, h2, h3, h4⟩
      refine ⟨k, h1, h2, h3, ?_⟩
      rw [h4]
      refine Prod.ext rfl ?_
      show st.engine + 4 * (k + 1) = (genRandArray st.h_matrix rd (st.engine + 4 * k)).2
      rw [hsnd]; ring
  refine ⟨?_, hspec fuel, ?_, ?_, fun p hp => fdet2_pos_exact _ hp⟩
  · intro p
    obtain ⟨g1, g2, g3, g4, g5, g6⟩ := genRandArray_matrix rd st.h_matrix p hh
    refine ⟨g2, ?_, ?_, ?_, ?_, ?_⟩
    · rw [compute_det_matrix rd _ _ hh, fdet2_candidate]
    · rw [get_ready _ _ _ g1 (by decide), g3]; rfl
    · rw [get_ready _ _ _ g1 (by decide), g4]; rfl
    · rw [get_ready _ _ _ g1 (by decide), g5]; rfl
    · rw [get_ready _ _ _ g1 (by decide), g6]; rfl
  · constructor
    · rintro ⟨fuel1, r, hr⟩
      obtain ⟨k, _, _, h3, _⟩ := (hspec fuel1 r).1 hr
      exact ⟨k, h3⟩
    · intro hex
      classical
      have hk := Nat.find_spec hex
      have hmin : ∀ j, j < Nat.find hex → fdet2 (candidate rd (st.engine + 4 * j)) ≤ 0 :=
        fun j hj => not_lt.mp (Nat.find_min hex hj)
      exact ⟨Nat.find hex + 1, _, (hspec _ _).2 ⟨Nat.find hex, Nat.lt_succ_self _, hmin, hk, rfl⟩⟩
  · intro st1 hst1
    obtain ⟨k, h1, h2, h3, h4, h5, ⟨b1, b2, b3, b4⟩, _, h7, _⟩ :=
      random_init_body_eq rd fuel ie igp jgp st st1 hh hst1
    refine ⟨k, h1, ?_, ?_, ?_, ?_⟩
    · intro j hj; rw [fdet2_candidate]; exact h2 j hj
    · rw [fdet2_candidate]; exact h3
    · rw [h7]
      simp only [entries, get_put4 _ _ _ _ _ _ _ _ _ _ h5 b1, get_put4 _ _ _ _ _ _ _ _ _ _ h5 b2,
        get_put4 _ _ _ _ _ _ _ _ _ _ h5 b3, get_put4 _ _ _ _ _ _ _ _ _ _ h5 b4,
        Option.bind_eq_bind, Option.some_bind, Option.pure_def]
      rw [put_other _ _ _ _ (by simp), put_other _ _ _ _ (by simp),
        put_other _ _ _ _ (by simp), put_same, put_other _ _ _ _ (by simp),
        put_other _ _ _ _ (by simp), put_same, put_other _ _ _ _ (by simp), put_same, put_same]
      rfl
    · rw [h4]; ring

/-- C10, instance: on the stream `exDraws` from position 0 the candidates `(1,1,1,1)` and
`(1,2,3,1)`, of computed determinants `0` and `-5`, are rejected and `(2,1,1,2)`, of
computed determinant `3`, is accepted: fuel 2 is not enough, fuel 3 returns with twelve
values consumed, and `(2,1,1,2)` is what the body stores as `D`. -/
theorem rejection_sampling_witness :
    Ready [2, 2] exGenState.h_matrix ∧
    do_while exDraws 2 exGenState.h_matrix exGenState.engine = none ∧
    (∃ m, do_while exDraws 3 exGenState.h_matrix exGenState.engine = some (m, 12)) ∧
    (∃ st1, random_init_body exDraws 3 0 0 0 exGenState = some st1 ∧
      entries st1.h_d 0 0 0 = some { m00 := 2, m01 := 1, m10 := 1, m11 := 2 } ∧
      st1.engine = 12) := by
  have hh : Ready [2, 2] exGenState.h_matrix := ⟨rfl, rfl⟩
  have c0 : fdet2 (candidate exDraws 0) = 0 := by decide!
  have c1 : fdet2 (candidate exDraws 4) = -5 := by decide!
  have c2 : fdet2 (candidate exDraws 8) = 3 := by decide!
  obtain ⟨_, t2, _, t4, _⟩ := rejection_sampling exDraws 3 0 0 0 exGenState hh
  obtain ⟨_, u2, _, _, _⟩ := rejection_sampling exDraws 2 0 0 0 exGenState hh
  have hrej : ∀ j, j < 2 → fdet2 (candidate exDraws (exGenState.engine + 4 * j)) ≤ 0 := by
    intro j hj
    interval_cases j
    · show fdet2 (candidate exDraws 0) ≤ 0
      rw [c0]
    · show fdet2 (candidate exDraws 4) ≤ 0
      rw [c1]; norm_num
  have hacc : 0 < fdet2 (candidate exDraws (exGenState.engine + 4 * 2)) := by
    show 0 < fdet2 (candidate exDraws 8)
    rw [c2]; norm_num
  refine ⟨hh, ?_, ?_, ?_⟩
  · cases hr : do_while exDraws 2 exGenState.h_matrix exGenState.engine with
    | none => rfl
    | some r =>
      exfalso
      obtain ⟨k, hk, _, hpos, _⟩ := (u2 r).1 hr
      exact absurd hpos (not_lt.mpr (hrej k hk))
  · exact ⟨_, (t2 _).2 ⟨2, by decide, hrej, hacc, rfl⟩⟩
  · have hsome : (random_init_body exDraws 3 0 0 0 exGenState).isSome = true := by decide!
    obtain ⟨st1, hst1⟩ := Option.isSome_iff_exists.mp hsome
    obtain ⟨k, hk, hk1, hk2, hk3, hk4⟩ := t4 st1 hst1
    have hk2 : k = 2 := by
      by_contra hne
      have : k < 2 := by omega
      exact absurd hk2 (not_lt.mpr (hrej k this))
    subst hk2
    refine ⟨st1, hst1, ?_, ?_⟩
    · rw [hk3]
      have : candidate exDraws (exGenState.engine + 4 * 2)
          = { m00 := 2, m01 := 1, m10 := 1, m11 := 2 } := by decide!
      rw [this]
    · rw [hk4]; rfl

theorem ready_loadBlock (ds : List Nat) (m : View) (ie : Nat) (src : List Nat → Real)
    (h : Ready ds m) : Ready ds (loadBlock m ie src) := h

theorem loadBlock_get_other (m : View) (ie e : Nat) (src : List Nat → Real) (is : List Nat)
    (h : e ≠ ie) : (loadBlock m ie src).get (e :: is) = m.get (e :: is) := by
  simp [View.get, loadBlock, h]

theorem entries_loadBlock_same (n NP : Nat) (m : View) (ie igp jgp : Nat)
    (src : List Nat → Real) (hm : Ready [n, 2, 2, NP, NP] m) (hie : ie < n) (higp : igp < NP)
    (hjgp : jgp < NP) :
    entries (loadBlock m ie src) ie igp jgp = some (extMat src igp jgp) := by
  have hb : ∀ a b, a < 2 → b < 2 → inBounds [2, 2, NP, NP] [a, b, igp, jgp] = true :=
    fun a b ha hb => inBounds4 2 2 NP NP a b igp jgp ha hb higp hjgp
  simp only [entries, loadBlock_get n _ m ie src _ hm hie (hb 0 0 (by decide) (by decide)),
    loadBlock_get n _ m ie src _ hm hie (hb 0 1 (by decide) (by decide)),
    loadBlock_get n _ m ie src _ hm hie (hb 1 0 (by decide) (by decide)),
    loadBlock_get n _ m ie src _ hm hie (hb 1 1 (by decide) (by decide)),
    Option.bind_eq_bind, Option.some_bind, Option.pure_def, extMat]

theorem entries_loadBlock_other (m : View) (ie e igp jgp : Nat) (src : List Nat → Real)
    (h : e ≠ ie) : entries (loadBlock m ie src) e igp jgp = entries m e igp jgp := by
  simp only [entries, loadBlock_get_other _ _ _ _ _ h]

theorem mandatory_loadMandatory (NP n : Nat) (s : ElementsGeometry) (ie : Nat)
    (D Dinv fcor spheremp rspheremp metdet metinv phis : List Nat → Real)
    (h : Mandatory NP n s) :
    Mandatory NP n (loadMandatory s ie D Dinv fcor spheremp rspheremp metdet metinv phis) := h

theorem inverseAt_load (NP n : Nat) (s s1 : ElementsGeometry) (ie : Nat)
    (D Dinv : List Nat → Real) (pop : Nat → Prop)
    (hd : s1.m_d = loadBlock s.m_d ie D) (hdinv : s1.m_dinv = loadBlock s.m_dinv ie Dinv)
    (h1 : Ready [n, 2, 2, NP, NP] s.m_d) (h2 : Ready [n, 2, 2, NP, NP] s.m_dinv)
    (hie : ie < n) (hinv : ExtInverse NP D Dinv)
    (ih : ∀ e, pop e → e < n ∧ ∀ igp jgp, igp < NP → jgp < NP → InverseAt s e igp jgp) :
    ∀ e, (e = ie ∨ pop e) →
      e < n ∧ ∀ igp jgp, igp < NP → jgp < NP → InverseAt s1 e igp jgp := by
  intro e he
  by_cases hc : e = ie
  · subst hc
    refine ⟨hie, ?_⟩
    intro igp jgp higp hjgp
    obtain ⟨x1, x2⟩ := hinv igp jgp higp hjgp
    refine ⟨extMat D igp jgp, extMat Dinv igp jgp, ?_, ?_, x1, x2⟩
    · rw [hd]; exact entries_loadBlock_same n NP _ e igp jgp D h1 hie higp hjgp
    · rw [hdinv]; exact entries_loadBlock_same n NP _ e igp jgp Dinv h2 hie higp hjgp
  · have hp : pop e := he.resolve_left hc
    refine ⟨(ih e hp).1, ?_⟩
    intro igp jgp higp hjgp
    obtain ⟨d, i, y1, y2, y3, y4⟩ := (ih e hp).2 igp jgp higp hjgp
    refine ⟨d, i, ?_, ?_, y3, y4⟩
    · rw [hd, entries_loadBlock_other _ _ _ _ _ _ hc]; exact y1
    · rw [hdinv, entries_loadBlock_other _ _ _ _ _ _ hc]; exact y2

theorem random_init_mandatory (NP : Nat) (rd : Nat → Real) (fuel : Nat)
    (s0 s : ElementsGeometry) (n : Nat) (h : s0.random_init NP rd fuel n = some s) :
    Mandatory NP n s := by
  obtain ⟨r1, r2, _⟩ := random_init_spec NP rd fuel s0 s n h
  obtain ⟨st, m_d, m_dinv, _, _, _, e⟩ := random_init_eq NP rd fuel s0 s n h
  obtain ⟨h1, h2, h3, h4, h5, h6, _, _⟩ := init_mandatory NP s0 n true
  have g : ∀ (ds : List Nat) (v : View) (e : Nat), Ready ds v →
      Ready ds (genRandArray v rd e).1 := by
    intro ds v e hv
    exact ⟨by rw [genRandArray_allocated]; exact hv.1, by rw [genRandArray_dims]; exact hv.2⟩
  refine ⟨?_, ?_, ?_, ?_, ?_, ?_, r1, r2⟩ <;> rw [e]
  · exact g _ _ _ h1
  · exact g _ _ _ h2
  · exact g _ _ _ h3
  · exact g _ _ _ h4
  · exact g _ _ _ h5
  · exact g _ _ _ h6

theorem foldlM_inv {σ α : Type} (L : List α) (body : σ → α → Option σ) (P : σ → Prop)
    (hbody : ∀ a s s1, P s → body s a = some s1 → P s1) (s s1 : σ) (hs : P s)
    (h : L.foldlM body s = some s1) : P s1 := by
  induction L generalizing s with
  | nil =>
    simp only [List.foldlM_nil, Option.pure_def, Option.some.injEq] at h
    rw [← h]; exact hs
  | cons a L ih =>
    simp only [List.foldlM_cons, Option.bind_eq_bind] at h
    obtain ⟨s2, h2, h3⟩ := Option.bind_eq_some.mp h
    exact ih s2 (hbody a s s2 hs h2) h3

theorem tensorvisc_body_same (f : F90Views) (idx : List Nat) (h h1 : HostMirrors)
    (hb : tensorvisc_body f idx h = some h1) : SameMandatory h1 h := by
  unfold tensorvisc_body at hb
  simp only [Option.bind_eq_bind, Option.pure_def] at hb
  obtain ⟨t, _, ht⟩ := Option.bind_eq_some.mp hb
  rw [← Option.some.inj ht]
  exact ⟨rfl, rfl, rfl, rfl, rfl, rfl, rfl, rfl⟩

theorem vec_sph2cart_body_same (f : F90Views) (idx : List Nat) (h h1 : HostMirrors)
    (hb : vec_sph2cart_body f idx h = some h1) : SameMandatory h1 h := by
  unfold vec_sph2cart_body at hb
  simp only [Option.bind_eq_bind, Option.pure_def] at hb
  obtain ⟨t, _, ht⟩ := Option.bind_eq_some.mp hb
  rw [← Option.some.inj ht]
  exact ⟨rfl, rfl, rfl, rfl, rfl, rfl, rfl, rfl⟩

theorem sameMandatory_trans (a b c : HostMirrors) (h1 : SameMandatory a b)
    (h2 : SameMandatory b c) : SameMandatory a c := by
  obtain ⟨a1, a2, a3, a4, a5, a6, a7, a8⟩ := h1
  obtain ⟨b1, b2, b3, b4, b5, b6, b7, b8⟩ := h2
  exact ⟨a1.trans b1, a2.trans b2, a3.trans b3, a4.trans b4, a5.trans b5, a6.trans b6,
    a7.trans b7, a8.trans b8⟩

theorem subview_out_of_range (n : Nat) (ds : List Nat) (v : View) (ie : Nat)
    (hv : Ready (n :: ds) v) (hie : ¬ ie < n) : subview v ie = none := by
  obtain ⟨_, h2⟩ := hv
  unfold subview
  rw [h2]
  simp [hie]

/-- The loader on a store whose mandatory views are allocated for `n` elements, given
non-null mandatory arrays, whatever the flag and the optional pointers are: if it
returns, then `ie < n` and the blocks of element `ie` of the eight mandatory views were
replaced by the external values; nothing else of the mandatory views changed. -/
theorem init_ie_mandatory (NP n : Nat) (s s1 : ElementsGeometry) (ie : Nat)
    (D Dinv fcor spheremp rspheremp metdet metinv phis : List Nat → Real)
    (tensorvisc vec_sph2cart : CF90Ptr) (consthv : Bool) (hs : Mandatory NP n s)
    (h : s.init_ie NP ie (some D) (some Dinv) (some fcor) (some spheremp) (some rspheremp)
      (some metdet) (some metinv) (some phis) tensorvisc vec_sph2cart consthv = some s1) :
    ie < n ∧ ∃ tv vs, s1 =
      { loadMandatory s ie D Dinv fcor spheremp rspheremp metdet metinv phis with
        m_tensorvisc := tv, m_vec_sph2cart := vs } := by
  have hs2 := hs
  obtain ⟨h1, h2, h3, h4, h5, h6, h7, h8⟩ := hs2
  by_cases hie : ie < n
  · refine ⟨hie, ?_⟩
    cases consthv with
    | true =>
      rw [init_ie_true NP n s ie D Dinv fcor spheremp rspheremp metdet metinv phis tensorvisc
        vec_sph2cart hs hie] at h
      exact ⟨s.m_tensorvisc, s.m_vec_sph2cart, (Option.some.inj h).symm⟩
    | false =>
      simp only [ElementsGeometry.init_ie, Option.bind_eq_bind] at h
      obtain ⟨hm, hmk, h⟩ := Option.bind_eq_some.mp h
      obtain ⟨hl, hlk, hcb⟩ := Option.bind_eq_some.mp h
      simp only [make_mirrors, subview_mirror _ _ _ _ h1 hie, subview_mirror _ _ _ _ h2 hie,
        subview_mirror _ _ _ _ h3 hie, subview_mirror _ _ _ _ h4 hie,
        subview_mirror _ _ _ _ h5 hie, subview_mirror _ _ _ _ h6 hie,
        subview_mirror _ _ _ _ h7 hie, subview_mirror _ _ _ _ h8 hie, Option.some_bind,
        Option.bind_eq_bind, Bool.not_false, if_true, Option.pure_def] at hmk
      obtain ⟨ht, _, hmk⟩ := Option.bind_eq_some.mp hmk
      obtain ⟨hv, _, hmk⟩ := Option.bind_eq_some.mp hmk
      have hmk := (Option.some.inj hmk).symm
      subst hmk
      unfold load_loops at hlk
      rw [forRange_two NP NP (scalars_body _), scalars_fold NP _ _ _ _ _ fcor spheremp
        rspheremp metdet phis _ (idxList_inBounds _) _ (ready_hostView _) (ready_hostView _)
        (ready_hostView _) (ready_hostView _) (ready_hostView _)] at hlk
      simp only [Option.some_bind, Option.bind_eq_bind] at hlk
      rw [forRange_four 2 2 NP NP (tensors_body _), tensors_fold NP _ _ _ _ _ _ _ D Dinv metinv
        _ (idxList_inBounds _) _ (ready_hostView _) (ready_hostView _) (ready_hostView _)]
        at hlk
      simp only [Option.some_bind, Option.bind_eq_bind, Bool.not_false, if_true] at hlk
      rw [forRange_four 2 2 NP NP (tensorvisc_body _)] at hlk
      obtain ⟨ha, hak, hlk⟩ := Option.bind_eq_some.mp hlk
      rw [forRange_four 2 3 NP NP (vec_sph2cart_body _)] at hlk
      have e1 := foldlM_inv _ _ (fun x => SameMandatory x _)
        (fun a x x1 hp hb => sameMandatory_trans _ _ _ (tensorvisc_body_same _ a x x1 hb) hp)
        _ ha ⟨rfl, rfl, rfl, rfl, rfl, rfl, rfl, rfl⟩ hak
      have e2 := foldlM_inv _ _ (fun x => SameMandatory x _)
        (fun a x x1 hp hb => sameMandatory_trans _ _ _ (vec_sph2cart_body_same _ a x x1 hb) hp)
        _ hl e1 hlk
      obtain ⟨g1, g2, g3, g4, g5, g6, g7, g8⟩ := e2
      simp only at g1 g2 g3 g4 g5 g6 g7 g8
      unfold copy_back at hcb
      rw [g1, g2, g3, g4, g5, g6, g7, g8] at hcb
      simp only [deep_copy_subview_copyAll _ _ _ _ _ h1 hie,
        deep_copy_subview_copyAll _ _ _ _ _ h2 hie, deep_copy_subview_copyAll _ _ _ _ _ h3 hie,
        deep_copy_subview_copyAll _ _ _ _ _ h4 hie, deep_copy_subview_copyAll _ _ _ _ _ h5 hie,
        deep_copy_subview_copyAll _ _ _ _ _ h6 hie, deep_copy_subview_copyAll _ _ _ _ _ h7 hie,
        deep_copy_subview_copyAll _ _ _ _ _ h8 hie, Option.bind_eq_bind, Bool.not_false,
        if_true, Option.pure_def, Option.some_bind] at hcb
      obtain ⟨tv, _, hcb⟩ := Option.bind_eq_some.mp hcb
      obtain ⟨vs, _, hcb⟩ := Option.bind_eq_some.mp hcb
      exact ⟨tv, vs, (Option.some.inj hcb).symm⟩
  · exfalso
    have hm : make_mirrors NP s ie consthv = none := by
      simp only [make_mirrors, subview_out_of_range _ _ _ _ h1 hie, Option.map_none',
        Option.bind_eq_bind, Option.none_bind]
    simp only [ElementsGeometry.init_ie, hm, Option.bind_eq_bind, Option.none_bind] at h
    exact absurd h (by simp)

/-- The invariant carried by the reachable states: the mandatory views are allocated
for `n` elements, `Dinv` is the exact inverse of `D` at every loaded element, and the
inverse computed in `double` arithmetic at every generated element. -/
theorem reach_invariant (NP : Nat) (s : ElementsGeometry) (n : Nat)
    (gen ld : Nat → Prop) (h : Reach NP s n gen ld) :
    Mandatory NP n s ∧
    (∀ e, ld e → e < n ∧ ∀ igp jgp, igp < NP → jgp < NP → InverseAt s e igp jgp) ∧
    ∀ e, gen e → e < n ∧ ∀ igp jgp, igp < NP → jgp < NP → RoundedInverseAt s e igp jgp := by
  induction h with
  | alloc s0 n c =>
    exact ⟨init_mandatory NP s0 n c, fun e he => absurd he id, fun e he => absurd he id⟩
  | generate s0 s rd fuel n h =>
    refine ⟨random_init_mandatory NP rd fuel s0 s n h, fun e he => absurd he id, ?_⟩
    intro e he
    refine ⟨he, ?_⟩
    intro igp jgp higp hjgp
    obtain ⟨p, hp, hd, hi⟩ := random_init_entries NP rd fuel s0 s n h e igp jgp he higp hjgp
    exact ⟨_, _, hd, hi, hp, rfl⟩
  | load s s1 n gen ld ie D Dinv fcor spheremp rspheremp metdet metinv phis tensorvisc
      vec_sph2cart consthv _ hinv h ih =>
    obtain ⟨hm, hld, hgen⟩ := ih
    obtain ⟨hie, tv, vs, e⟩ := init_ie_mandatory NP n s s1 ie D Dinv fcor spheremp rspheremp
      metdet metinv phis tensorvisc vec_sph2cart consthv hm h
    have hd : s1.m_d = loadBlock s.m_d ie D := by rw [e]; rfl
    have hdinv : s1.m_dinv = loadBlock s.m_dinv ie Dinv := by rw [e]; rfl
    refine ⟨?_, ?_, ?_⟩
    · rw [e]; exact hm
    · exact inverseAt_load NP n s s1 ie D Dinv ld hd hdinv hm.2.2.2.2.2.2.1 hm.2.2.2.2.2.2.2
        hie hinv hld
    · intro x hx
      refine ⟨(hgen x hx.1).1, ?_⟩
      intro igp jgp higp hjgp
      obtain ⟨d, i, y1, y2, y3, y4⟩ := (hgen x hx.1).2 igp jgp higp hjgp
      refine ⟨d, i, ?_, ?_, y3, y4⟩
      · rw [hd, entries_loadBlock_other _ _ _ _ _ _ hx.2]; exact y1
      · rw [hdinv, entries_loadBlock_other _ _ _ _ _ _ hx.2]; exact y2

/-- C7, counterexample: on a one-element store with `NP = 1`, loading the identity for `D`
and twice the identity for `Dinv` leaves `Dinv = 2 I` next to `D = I`, although
`adj(D) / det(D)` is `I`. -/
theorem loader_breaks_inverse_invariant :
    ∃ s, ((ElementsGeometry.fresh 1).init 1 1 true).init_ie 1 0 (some exIdentity)
        (some exDouble) (some (exField 1)) (some (exField 2)) (some (exField 3))
        (some (exField 4)) (some (exField 5)) (some (exField 6)) none none true = some s ∧
      entries s.m_d 0 0 0 = some { m00 := 1, m01 := 0, m10 := 0, m11 := 1 } ∧
      entries s.m_dinv 0 0 0 = some { m00 := 2, m01 := 0, m10 := 0, m11 := 2 } ∧
      adjOverDet { m00 := 1, m01 := 0, m10 := 0, m11 := 1 }
        = { m00 := 1, m01 := 0, m10 := 0, m11 := 1 } ∧
      ¬ InverseAt s 0 0 0 := by
  have hm := init_mandatory 1 (ElementsGeometry.fresh 1) 1 true
  have hd : entries (loadBlock ((ElementsGeometry.fresh 1).init 1 1 true).m_d 0 exIdentity)
      0 0 0 = some { m00 := 1, m01 := 0, m10 := 0, m11 := 1 } := by
    rw [entries_loadBlock_same 1 1 _ 0 0 0 exIdentity hm.2.2.2.2.2.2.1 (by decide) (by decide)
      (by decide)]
    simp [extMat, exIdentity]
  have hi : entries (loadBlock ((ElementsGeometry.fresh 1).init 1 1 true).m_dinv 0 exDouble)
      0 0 0 = some { m00 := 2, m01 := 0, m10 := 0, m11 := 2 } := by
    rw [entries_loadBlock_same 1 1 _ 0 0 0 exDouble hm.2.2.2.2.2.2.2 (by decide) (by decide)
      (by decide)]
    simp [extMat, exDouble]
  have hadj : adjOverDet { m00 := 1, m01 := 0, m10 := 0, m11 := 1 }
      = { m00 := 1, m01 := 0, m10 := 0, m11 := 1 } := by
    simp [adjOverDet, det2]
  refine ⟨_, init_ie_true 1 1 _ 0 exIdentity exDouble (exField 1) (exField 2) (exField 3)
    (exField 4) (exField 5) (exField 6) none none hm (by decide), hd, hi, hadj, ?_⟩
  rintro ⟨d, i, h1, h2, _, h4⟩
  have e1 : d = { m00 := 1, m01 := 0, m10 := 0, m11 := 1 } :=
    Option.some.inj (h1.symm.trans hd)
  have e2 : i = { m00 := 2, m01 := 0, m10 := 0, m11 := 2 } :=
    Option.some.inj (h2.symm.trans hi)
  rw [e1, e2, hadj] at h4
  have := congrArg Mat2.m00 h4
  norm_num at this

/-- C7, amended: in every state reachable from an allocation or from `random_init`
through calls of the loader that return, with any flag and any optional pointers, whose
mandatory arrays are non-null and whose external `D` and `Dinv` are consistent (`D`
invertible and `Dinv = adj(D) / det(D)` at every grid point): at every element loaded
since the allocation and every grid point the stored `D` is invertible and the stored
`Dinv` is `adj(D) / det(D)`, so that `D * Dinv` and `Dinv * D` are the identity; at
every element written by the generator and not loaded since, the determinant the code
computes for the stored `D` in `double` arithmetic is positive, so is the exact one, and
the stored `Dinv` is the adjugate of `D` divided by the computed determinant, each
quotient rounded to a `double`. -/
theorem store_inverse_invariant (NP : Nat) (s : ElementsGeometry) (n : Nat)
    (gen ld : Nat → Prop) (h : Reach NP s n gen ld) :
    (∀ ie, ld ie → ie < n ∧ ∀ igp jgp, igp < NP → jgp < NP →
      ∃ d i, entries s.m_d ie igp jgp = some d ∧ entries s.m_dinv ie igp jgp = some i ∧
        i = adjOverDet d ∧ mul2 d i = one2 ∧ mul2 i d = one2) ∧
    (∀ ie, gen ie → ie < n ∧ ∀ igp jgp, igp < NP → jgp < NP →
      ∃ d i, entries s.m_d ie igp jgp = some d ∧ entries s.m_dinv ie igp jgp = some i ∧
        0 < fdet2 d ∧ 0 < det2 d ∧ i = flInverse d) := by
  obtain ⟨_, hld, hgen⟩ := reach_invariant NP s n gen ld h
  constructor
  · intro ie hie
    obtain ⟨h1, h2⟩ := hld ie hie
    refine ⟨h1, ?_⟩
    intro igp jgp higp hjgp
    obtain ⟨d, i, x1, x2, x3, x4⟩ := h2 igp jgp higp hjgp
    subst x4
    obtain ⟨m1, m2⟩ := mul2_adjOverDet d x3
    exact ⟨d, _, x1, x2, rfl, m1, m2⟩
  · intro ie hie
    obtain ⟨h1, h2⟩ := hgen ie hie
    refine ⟨h1, ?_⟩
    intro igp jgp higp hjgp
    obtain ⟨d, i, x1, x2, x3, x4⟩ := h2 igp jgp higp hjgp
    exact ⟨d, i, x1, x2, x3, fdet2_pos_exact d x3, x4⟩

/-- C7, instance: a two-element store with `NP = 1`, filled by the generator on the stream
`exDraws`, after element 1 was loaded in constant-viscosity mode, with null optional
pointers, with the identity for both `D` and `Dinv`: element 0 is a generated element,
element 1 a loaded one. -/
theorem store_inverse_invariant_witness :
    ∃ s, Reach 1 s 2 (fun e => e < 2 ∧ e ≠ 1) (fun e => e = 1 ∨ False) ∧
      (∀ ie, (ie = 1 ∨ False) → ie < 2 ∧ ∀ igp jgp, igp < 1 → jgp < 1 →
        ∃ d i, entries s.m_d ie igp jgp = some d ∧ entries s.m_dinv ie igp jgp = some i ∧
          i = adjOverDet d ∧ mul2 d i = one2 ∧ mul2 i d = one2) ∧
      (∀ ie, (ie < 2 ∧ ie ≠ 1) → ie < 2 ∧ ∀ igp jgp, igp < 1 → jgp < 1 →
        ∃ d i, entries s.m_d ie igp jgp = some d ∧ entries s.m_dinv ie igp jgp = some i ∧
          0 < fdet2 d ∧ 0 < det2 d ∧ i = flInverse d) := by
  have h : ((ElementsGeometry.fresh 1).random_init 1 exDraws 3 2).isSome = true := by decide!
  obtain ⟨s, hs⟩ := Option.isSome_iff_exists.mp h
  have hm := random_init_mandatory 1 exDraws 3 (ElementsGeometry.fresh 1) s 2 hs
  have hinv : ExtInverse 1 exIdentity exIdentity := by
    intro igp jgp _ _
    simp [extMat, exIdentity, det2, adjOverDet]
  have hr : Reach 1 _ 2 (fun e => e < 2 ∧ e ≠ 1) (fun e => e = 1 ∨ False) :=
    Reach.load s _ 2 _ _ 1 exIdentity exIdentity (exField 1) (exField 2)
      (exField 3) (exField 4) (exField 5) (exField 6) none none true
      (Reach.generate (ElementsGeometry.fresh 1) s exDraws 3 2 hs) hinv
      (init_ie_true 1 2 _ 1 exIdentity exIdentity (exField 1) (exField 2) (exField 3)
        (exField 4) (exField 5) (exField 6) none none hm (by decide))
  exact ⟨_, hr, store_inverse_invariant 1 _ 2 _ _ hr⟩

theorem loadBlock_shape (m : View) (ie : Nat) (src : List Nat → Real) :
    (loadBlock m ie src).allocated = m.allocated ∧ (loadBlock m ie src).dims = m.dims :=
  ⟨rfl, rfl⟩

theorem loadBlock_data_other (m : View) (ie : Nat) (src : List Nat → Real) (idx : List Nat)
    (h : idx.head? ≠ some ie) : (loadBlock m ie src).data idx = m.data idx := by
  cases idx with
  | nil => rfl
  | cons e is =>
    have he : e ≠ ie := by
      intro hc
      apply h
      simp [hc]
    simp [loadBlock, he]

theorem sameOutside_refl (ie : Nat) (v : View) : SameOutside ie v v :=
  ⟨rfl, rfl, fun _ _ => rfl, fun _ _ _ => rfl⟩

theorem sameOutside_loadBlock (m : View) (ie : Nat) (src : List Nat → Real) :
    SameOutside ie m (loadBlock m ie src) :=
  ⟨rfl, rfl, fun idx h => loadBlock_data_other m ie src idx h,
    fun e is h => loadBlock_get_other m ie e src is h⟩

/-- C11: frame of the loader.  On every store whose views are allocated as `init(n, c)`
allocates them, whatever these views hold, and for `ie < n`, the loader
`init(ie, ..., c)` succeeds and changes nothing but the blocks of element `ie`: the
element count and the flag of the store are the same after the call, every view keeps
its shape, and every view holds, at every index that does not belong to element `ie`
(in particular at every other element), the value it held before. -/
theorem loader_frame (NP n : Nat) (c : Bool) (s0 : ElementsGeometry) (ie : Nat) (A : ExtArrays)
    (hs : AllocatedFor NP n c s0) (hie : ie < n) :
    ∃ s, s0.load NP ie A c = some s ∧
      s.m_num_elems = s0.m_num_elems ∧
      s.m_consthv = s0.m_consthv ∧
      SameOutside ie s0.m_fcor s.m_fcor ∧
      SameOutside ie s0.m_spheremp s.m_spheremp ∧
      SameOutside ie s0.m_rspheremp s.m_rspheremp ∧
      SameOutside ie s0.m_metdet s.m_metdet ∧
      SameOutside ie s0.m_phis s.m_phis ∧
      SameOutside ie s0.m_metinv s.m_metinv ∧
      SameOutside ie s0.m_d s.m_d ∧
      SameOutside ie s0.m_dinv s.m_dinv ∧
      SameOutside ie s0.m_tensorvisc s.m_tensorvisc ∧
      SameOutside ie s0.m_vec_sph2cart s.m_vec_sph2cart := by
  refine ⟨_, load_eq NP n c _ ie A hs hie, ?_⟩
  cases c with
  | true =>
    exact ⟨rfl, rfl, sameOutside_loadBlock _ _ _, sameOutside_loadBlock _ _ _,
      sameOutside_loadBlock _ _ _, sameOutside_loadBlock _ _ _, sameOutside_loadBlock _ _ _,
      sameOutside_loadBlock _ _ _, sameOutside_loadBlock _ _ _, sameOutside_loadBlock _ _ _,
      sameOutside_refl _ _, sameOutside_refl _ _⟩
  | false =>
    exact ⟨rfl, rfl, sameOutside_loadBlock _ _ _, sameOutside_loadBlock _ _ _,
      sameOutside_loadBlock _ _ _, sameOutside_loadBlock _ _ _, sameOutside_loadBlock _ _ _,
      sameOutside_loadBlock _ _ _, sameOutside_loadBlock _ _ _, sameOutside_loadBlock _ _ _,
      sameOutside_loadBlock _ _ _, sameOutside_loadBlock _ _ _⟩

/-- C11, instance: a three-element store with `NP = 4` and the flag false whose elements
0 and 2 were loaded from `exArraysB`; element 1 is loaded from `exArraysA`, and the entries
of elements 0 and 2 still read the values of `exArraysB`. -/
theorem loader_frame_witness :
    AllocatedFor 4 3 false exLoadedStore ∧ 1 < 3 ∧
    (((ElementsGeometry.fresh 4).init 4 3 false).load 4 0 exArraysB false).bind
      (fun s => s.load 4 2 exArraysB false) = some exLoadedStore ∧
    ∃ s, exLoadedStore.load 4 1 exArraysA false = some s ∧
      s.m_num_elems = 3 ∧ s.m_consthv = false ∧
      s.m_fcor.get [0, 2, 3] = some 1123 ∧ s.m_d.get [2, 0, 0, 1, 1] = some 2 ∧
      s.m_vec_sph2cart.get [2, 1, 2, 3, 3] = some 181233 ∧
      s.m_fcor.get [1, 2, 3] = some 123 ∧
      s.m_d.get [1, 0, 0, 1, 1] = some 1 := by
  have h0 := init_allocatedFor 4 (ElementsGeometry.fresh 4) 3 false
  have h1 := loaded_allocatedFor 4 3 false _ 0 exArraysB h0
  have ha : AllocatedFor 4 3 false exLoadedStore := loaded_allocatedFor 4 3 false _ 2 exArraysB h1
  have hb : (((ElementsGeometry.fresh 4).init 4 3 false).load 4 0 exArraysB false).bind
      (fun s => s.load 4 2 exArraysB false) = some exLoadedStore := by
    rw [load_eq 4 3 false _ 0 exArraysB h0 (by decide), Option.some_bind,
      load_eq 4 3 false _ 2 exArraysB h1 (by decide)]
    rfl
  refine ⟨ha, by decide, hb, ?_⟩
  obtain ⟨s, hs, e1, e2, f1, _, _, _, _, _, f7, _, _, f10⟩ :=
    loader_frame 4 3 false exLoadedStore 1 exArraysA ha (by decide)
  have hs2 := hs
  rw [load_eq 4 3 false _ 1 exArraysA ha (by decide)] at hs2
  refine ⟨s, hs, e1, e2, ?_, ?_, ?_, ?_, ?_⟩
  · rw [f1.2.2.2 0 [2, 3] (by decide)]; decide!
  · rw [f7.2.2.2 2 [0, 0, 1, 1] (by decide)]; decide!
  · rw [f10.2.2.2 2 [1, 2, 3, 3] (by decide)]; decide!
  · rw [← Option.some.inj hs2]; decide!
  · rw [← Option.some.inj hs2]; decide!

theorem make_mirrors_flag (NP : Nat) (s : ElementsGeometry) (b : Bool) (ie : Nat) (c : Bool) :
    make_mirrors NP { s with m_consthv := b } ie c = make_mirrors NP s ie c := rfl

theorem map_bind_option {α β γ : Type} (x : Option α) (f : α → Option β) (g : β → γ) :
    (x.bind f).map g = x.bind (fun a => (f a).map g) := by
  cases x <;> rfl

theorem copy_back_flag (s : ElementsGeometry) (b : Bool) (ie : Nat) (c : Bool) (h : HostMirrors) :
    copy_back { s with m_consthv := b } ie c h
      = (copy_back s ie c h).map (fun r => { r with m_consthv := b }) := by
  cases s
  unfold copy_back
  cases c <;>
    simp only [Option.bind_eq_bind, Option.pure_def, Bool.not_true, Bool.not_false,
      Bool.false_eq_true, if_true, if_false, Option.some_bind, map_bind_option,
      Option.map_some']

/-- The loader never reads the flag recorded in the store: changing that flag changes
the result only in that flag. -/
theorem init_ie_flag (NP : Nat) (s : ElementsGeometry) (b : Bool) (ie : Nat)
    (D Dinv fcor spheremp rspheremp metdet metinv phis tensorvisc vec_sph2cart : CF90Ptr)
    (c : Bool) :
    ElementsGeometry.init_ie NP { s with m_consthv := b } ie D Dinv fcor spheremp rspheremp
        metdet metinv phis tensorvisc vec_sph2cart c
      = (s.init_ie NP ie D Dinv fcor spheremp rspheremp metdet metinv phis tensorvisc
          vec_sph2cart c).map (fun r => { r with m_consthv := b }) := by
  unfold ElementsGeometry.init_ie
  rw [make_mirrors_flag]
  simp only [Option.bind_eq_bind]
  cases make_mirrors NP s ie c with
  | none => rfl
  | some h0 =>
    simp only [Option.some_bind]
    cases load_loops NP (wrap_f90 NP D Dinv fcor spheremp rspheremp metdet metinv phis
      tensorvisc vec_sph2cart) c h0 with
    | none => rfl
    | some h1 =>
      simp only [Option.some_bind]
      exact copy_back_flag s b ie c h1

theorem subview_null (v : View) (ie : Nat) (h : v.allocated = false) : subview v ie = none := by
  unfold subview
  split
  · rfl
  · simp [h]

/-- On a store whose mandatory views are allocated and whose viscosity tensor is not, the
loader called with the flag false aborts: it takes the block of a view that has no
allocation. -/
theorem init_ie_mismatch (NP n : Nat) (s : ElementsGeometry) (ie : Nat)
    (D Dinv fcor spheremp rspheremp metdet metinv phis tensorvisc vec_sph2cart : CF90Ptr)
    (hs : Mandatory NP n s) (hie : ie < n) (ht : s.m_tensorvisc.allocated = false) :
    s.init_ie NP ie D Dinv fcor spheremp rspheremp metdet metinv phis tensorvisc
      vec_sph2cart false = none := by
  obtain ⟨h1, h2, h3, h4, h5, h6, h7, h8⟩ := hs
  have hm : make_mirrors NP s ie false = none := by
    simp only [make_mirrors, subview_mirror _ _ _ _ h1 hie, subview_mirror _ _ _ _ h2 hie,
      subview_mirror _ _ _ _ h3 hie, subview_mirror _ _ _ _ h4 hie,
      subview_mirror _ _ _ _ h5 hie, subview_mirror _ _ _ _ h6 hie,
      subview_mirror _ _ _ _ h7 hie, subview_mirror _ _ _ _ h8 hie, Option.some_bind,
      Option.bind_eq_bind, Bool.not_false, if_true, subview_null _ _ ht, Option.map_none',
      Option.none_bind]
  simp only [ElementsGeometry.init_ie, hm, Option.bind_eq_bind, Option.none_bind]

/-- C12: the loader gates its accesses to the optional fields on its own `consthv`
argument and never reads the flag recorded in the store.  (1) On a store allocated by
`init(n, c)` and for `ie < n`, the call with the same flag `c` returns a store: every
access is to an allocated view at an in-range index.  (2) Overwriting the recorded flag
of a store changes the result of the loader in nothing but that flag.  (3) The guarantee
rests on the caller: on a store freshly allocated by `init(n, true)` the call with
`consthv = false` aborts, and on one allocated by `init(n, false)` the call with
`consthv = true` returns but leaves the optional fields as the allocation made them. -/
theorem loader_gates_on_argument (NP n : Nat) (c : Bool) (s0 : ElementsGeometry) (ie : Nat)
    (A : ExtArrays) (hie : ie < n) :
    (∃ s, (s0.init NP n c).init_ie NP ie (some A.D) (some A.Dinv) (some A.fcor)
        (some A.spheremp) (some A.rspheremp) (some A.metdet) (some A.metinv) (some A.phis)
        (some A.tensorvisc) (some A.vec_sph2cart) c = some s) ∧
    (∀ (s : ElementsGeometry) (b arg : Bool) (tensorvisc vec_sph2cart : CF90Ptr),
      ElementsGeometry.init_ie NP { s with m_consthv := b } ie (some A.D) (some A.Dinv)
          (some A.fcor) (some A.spheremp) (some A.rspheremp) (some A.metdet) (some A.metinv)
          (some A.phis) tensorvisc vec_sph2cart arg
        = (s.init_ie NP ie (some A.D) (some A.Dinv) (some A.fcor) (some A.spheremp)
            (some A.rspheremp) (some A.metdet) (some A.metinv) (some A.phis) tensorvisc
            vec_sph2cart arg).map (fun r => { r with m_consthv := b })) ∧
    ((ElementsGeometry.fresh NP).init NP n true).init_ie NP ie (some A.D) (some A.Dinv)
        (some A.fcor) (some A.spheremp) (some A.rspheremp) (some A.metdet) (some A.metinv)
        (some A.phis) (some A.tensorvisc) (some A.vec_sph2cart) false = none ∧
    (∃ s, (s0.init NP n false).init_ie NP ie (some A.D) (some A.Dinv) (some A.fcor)
        (some A.spheremp) (some A.rspheremp) (some A.metdet) (some A.metinv) (some A.phis)
        (some A.tensorvisc) (some A.vec_sph2cart) true = some s ∧
      s.m_tensorvisc = ExecViewManaged [2, 2, NP, NP] n ∧
      s.m_vec_sph2cart = ExecViewManaged [2, 3, NP, NP] n) := by
  refine ⟨⟨_, load_eq NP n c _ ie A (init_allocatedFor NP s0 n c) hie⟩, ?_, ?_, ?_⟩
  · intro s b arg tensorvisc vec_sph2cart
    exact init_ie_flag NP s b ie _ _ _ _ _ _ _ _ _ _ arg
  · exact init_ie_mismatch NP n _ ie _ _ _ _ _ _ _ _ _ _
      (init_mandatory NP (ElementsGeometry.fresh NP) n true) hie
      (by simp [ElementsGeometry.init, ElementsGeometry.fresh, View.null])
  · refine ⟨_, init_ie_true NP n _ ie A.D A.Dinv A.fcor A.spheremp A.rspheremp A.metdet
      A.metinv A.phis _ _ (init_mandatory NP s0 n false) hie, ?_, ?_⟩ <;>
    simp [loadMandatory, ElementsGeometry.init]

/-- C12, instance: element 1 of two-element stores with `NP = 4`. -/
theorem loader_gates_on_argument_witness :
    1 < 2 ∧
    (∃ s, ((ElementsGeometry.fresh 4).init 4 2 false).init_ie 4 1 (some exArraysA.D)
        (some exArraysA.Dinv) (some exArraysA.fcor) (some exArraysA.spheremp)
        (some exArraysA.rspheremp) (some exArraysA.metdet) (some exArraysA.metinv)
        (some exArraysA.phis) (some exArraysA.tensorvisc) (some exArraysA.vec_sph2cart)
        false = some s) ∧
    ((ElementsGeometry.fresh 4).init 4 2 true).init_ie 4 1 (some exArraysA.D)
        (some exArraysA.Dinv) (some exArraysA.fcor) (some exArraysA.spheremp)
        (some exArraysA.rspheremp) (some exArraysA.metdet) (some exArraysA.metinv)
        (some exArraysA.phis) (some exArraysA.tensorvisc) (some exArraysA.vec_sph2cart)
        false = none := by
  obtain ⟨h1, _, h3, _⟩ :=
    loader_gates_on_argument 4 2 false (ElementsGeometry.fresh 4) 1 exArraysA (by decide)
  exact ⟨by decide, h1, h3⟩

theorem loadBlock_comm (m : View) (ie1 ie2 : Nat) (a b : List Nat → Real) (h : ie1 ≠ ie2) :
    loadBlock (loadBlock m ie1 a) ie2 b = loadBlock (loadBlock m ie2 b) ie1 a := by
  unfold loadBlock
  simp only [View.mk.injEq, true_and]
  funext idx
  cases idx with
  | nil => rfl
  | cons e is =>
    by_cases h1 : e = ie1
    · have h2 : e ≠ ie2 := fun hc => h (h1.symm.trans hc)
      simp [h1, h2, h]
    · by_cases h2 : e = ie2
      · simp [h1, h2, Ne.symm h]
      · simp [h1, h2]

theorem loadBlock_overwrite (m : View) (ie : Nat) (a b : List Nat → Real) :
    loadBlock (loadBlock m ie a) ie b = loadBlock m ie b := by
  unfold loadBlock
  simp only [View.mk.injEq, true_and]
  funext idx
  cases idx with
  | nil => rfl
  | cons e is =>
    by_cases h1 : e = ie ∧ inBounds m.dims.tail is = true
    · simp [h1]
    · simp only [h1, if_false]

theorem loaded_comm (s : ElementsGeometry) (ie1 ie2 : Nat) (A B : ExtArrays) (c : Bool)
    (h : ie1 ≠ ie2) :
    loaded (loaded s ie1 A c) ie2 B c = loaded (loaded s ie2 B c) ie1 A c := by
  cases c <;>
    simp only [loaded, loadMandatory, loadOptional, if_true, if_false, Bool.false_eq_true,
      ElementsGeometry.mk.injEq, true_and, and_true, loadBlock_comm _ _ _ _ _ h, and_self]

theorem loaded_overwrite (s : ElementsGeometry) (ie : Nat) (A B : ExtArrays) (c : Bool) :
    loaded (loaded s ie A c) ie B c = loaded s ie B c := by
  cases c <;>
    simp only [loaded, loadMandatory, loadOptional, if_true, if_false, Bool.false_eq_true,
      ElementsGeometry.mk.injEq, true_and, and_true, loadBlock_overwrite, and_self]

/-- C13: loads are order-independent across elements and last-write-wins on one element.
On a store allocated by `init(n, c)`, for in-range `ie1 ≠ ie2` and any two sets of
external arrays `A` and `B`: loading `A` at `ie1` then `B` at `ie2` returns the same
store as loading `B` at `ie2` then `A` at `ie1`; loading `A` then `B` at `ie1` returns
the same store as loading only `B` at `ie1`, and loading `A` twice the same store as
loading it once. -/
theorem loads_commute_and_overwrite (NP n : Nat) (c : Bool) (s0 : ElementsGeometry)
    (ie1 ie2 : Nat) (A B : ExtArrays) (h1 : ie1 < n) (h2 : ie2 < n) (hne : ie1 ≠ ie2) :
    (∃ s, ((s0.init NP n c).load NP ie1 A c).bind (fun s1 => s1.load NP ie2 B c) = some s ∧
      ((s0.init NP n c).load NP ie2 B c).bind (fun s2 => s2.load NP ie1 A c) = some s) ∧
    (∃ s, ((s0.init NP n c).load NP ie1 A c).bind (fun s1 => s1.load NP ie1 B c) = some s ∧
      (s0.init NP n c).load NP ie1 B c = some s) ∧
    (∃ s, ((s0.init NP n c).load NP ie1 A c).bind (fun s1 => s1.load NP ie1 A c) = some s ∧
      (s0.init NP n c).load NP ie1 A c = some s) := by
  have hs := init_allocatedFor NP s0 n c
  have e1 := load_eq NP n c _ ie1 A hs h1
  have e2 := load_eq NP n c _ ie2 B hs h2
  have e3 := load_eq NP n c _ ie1 B hs h1
  have a1 := loaded_allocatedFor NP n c _ ie1 A hs
  have a2 := loaded_allocatedFor NP n c _ ie2 B hs
  refine ⟨⟨loaded (loaded (s0.init NP n c) ie1 A c) ie2 B c, ?_, ?_⟩,
    ⟨loaded (s0.init NP n c) ie1 B c, ?_, e3⟩, ⟨loaded (s0.init NP n c) ie1 A c, ?_, e1⟩⟩
  · rw [e1, Option.some_bind]
    exact load_eq NP n c _ ie2 B a1 h2
  · rw [e2, Option.some_bind, load_eq NP n c _ ie1 A a2 h1, loaded_comm _ _ _ _ _ _ hne]
  · rw [e1, Option.some_bind, load_eq NP n c _ ie1 B a1 h1, loaded_overwrite]
  · rw [e1, Option.some_bind, load_eq NP n c _ ie1 A a1 h1, loaded_overwrite]

/-- C13, instance: elements 0 and 2 of a three-element store with `NP = 4` and the flag
false, loaded from `exArraysA` and `exArraysB`. -/
theorem loads_commute_and_overwrite_witness :
    0 < 3 ∧ 2 < 3 ∧ 0 ≠ 2 ∧
    (∃ s, (((ElementsGeometry.fresh 4).init 4 3 false).load 4 0 exArraysA false).bind
        (fun s1 => s1.load 4 2 exArraysB false) = some s ∧
      (((ElementsGeometry.fresh 4).init 4 3 false).load 4 2 exArraysB false).bind
        (fun s2 => s2.load 4 0 exArraysA false) = some s) ∧
    (∃ s, (((ElementsGeometry.fresh 4).init 4 3 false).load 4 0 exArraysA false).bind
        (fun s1 => s1.load 4 0 exArraysB false) = some s ∧
      ((ElementsGeometry.fresh 4).init 4 3 false).load 4 0 exArraysB false = some s) := by
  obtain ⟨c1, c2, _⟩ := loads_commute_and_overwrite 4 3 false (ElementsGeometry.fresh 4) 0 2
    exArraysA exArraysB (by decide) (by decide) (by decide)
  exact ⟨by decide, by decide, by decide, c1, c2⟩

end Homme
